import Mathlib

/-!
# Inventory / plot allocation and investor funding ledger

A shallow embedding of the route handlers of the real-estate CRM server
(`server/routes/inventoryPayments.js`, `server/routes/inventory.js`,
`server/routes/inventoryRequests.js`, `server/routes/deals.js`) over an
explicit database state.

Conventions of the embedding:

* a table is a list of rows, in insertion order; `SELECT ... WHERE c` is
  `List.filter`, `rows[0]` is the head of the filtered list, and
  `UPDATE ... WHERE c` rewrites every row that satisfies `c`;
* `SERIAL` keys are drawn from a per-table counter kept in the state;
* money (`DECIMAL(15, 2)` columns) is an integer number of cents; the total
  of line 92 of `inventoryPayments.js`, whose sign decides the validation of
  a payment, is modelled in addition as the double that the handler computes
  (`totalAmountDouble`);
* the handlers run their statements one after the other without a
  transaction, so a handler returns its reply together with the state reached;
* the authenticated caller (`req.user`, resolved by the `auth` middleware)
  is a parameter of every handler.
-/

namespace RealEstate

/-! ## Data model (`server/config/dbInit.js`) -/

/-- Column `users.role`: `CHECK (role IN ('admin', 'dealer'))`. -/
inductive Role where
  | admin
  | dealer
deriving DecidableEq, Repr

/-- Column `inventory.status`. -/
inductive InvStatus where
  | available
  | assigned
  | paid
  | sold
deriving DecidableEq, Repr

/-- Column `inventory_plots.status`. -/
inductive PlotStatus where
  | available
  | assigned
  | paid
  | sold
  | used_in_deal
deriving DecidableEq, Repr

/-- Column `inventory_requests.status`. -/
inductive ReqStatus where
  | pending
  | approved
  | rejected
deriving DecidableEq, Repr

/-- Column `deals.status`. -/
inductive DealStatus where
  | in_progress
  | deal_done
  | deal_not_done
deriving DecidableEq, Repr

/-- Row of `users` (the columns the handlers read). -/
structure User where
  id : Nat
  role : Role
deriving DecidableEq, Repr

/-- Row of `inventory`. -/
structure Inventory where
  id : Nat
  price : Int
  quantity : Int
  status : InvStatus
  assigned_to : Option Nat
deriving DecidableEq, Repr

/-- Row of `inventory_plots`. -/
structure Plot where
  id : Nat
  inventory_id : Nat
  plot_number : String
  status : PlotStatus
  assigned_to : Option Nat
deriving DecidableEq, Repr

/-- Row of `inventory_plot_assignments`. -/
structure Assignment where
  id : Nat
  inventory_id : Nat
  salesperson_id : Nat
  total_plots_assigned : Nat
  total_amount : Int
  amount_paid : Int
  notes : Option String
deriving DecidableEq, Repr

/-- Row of `investors`. -/
structure Investor where
  id : Nat
  salesperson_id : Nat
  total_invested : Int
  paid_amount : Int
  remaining_balance : Int
deriving DecidableEq, Repr

/-- Row of `inventory_payments`. -/
structure InventoryPayment where
  id : Nat
  inventory_id : Nat
  plot_id : Option Nat
  investor_id : Option Nat
  salesperson_id : Nat
  amount : Int
  payment_date : String
  notes : Option String
deriving DecidableEq, Repr

/-- Row of `inventory_requests`. -/
structure Request where
  id : Nat
  inventory_id : Nat
  salesperson_id : Nat
  status : ReqStatus
  admin_notes : Option String
  requested_plot_ids : Option (List Nat)
deriving DecidableEq, Repr

/-- Row of `deals` (the columns the inventory logic reads). -/
structure Deal where
  id : Nat
  dealer_id : Nat
  inventory_id : Option Nat
  inventory_quantity_used : Option Int
  status : DealStatus
deriving DecidableEq, Repr

/-- Row of `deal_plots`. -/
structure DealPlot where
  id : Nat
  deal_id : Nat
  plot_id : Nat
deriving DecidableEq, Repr

/-- The database: one list per table and one counter per `SERIAL` key. -/
structure State where
  users : List User
  inventory : List Inventory
  plots : List Plot
  assignments : List Assignment
  investors : List Investor
  payments : List InventoryPayment
  requests : List Request
  deals : List Deal
  dealPlots : List DealPlot
  nextInventoryId : Nat
  nextPlotId : Nat
  nextAssignmentId : Nat
  nextInvestorId : Nat
  nextPaymentId : Nat
  nextRequestId : Nat
  nextDealId : Nat
  nextDealPlotId : Nat
deriving DecidableEq, Repr

/-- What a handler sends back: a success status with a body, or an error
status (`res.status(code).json(message)`). -/
inductive Reply (α : Type) where
  | ok (code : Nat) (body : α)
  | fail (code : Nat)
deriving DecidableEq, Repr

/-- The reply is a success. -/
def Reply.isOk {α : Type} : Reply α → Bool
  | .ok _ _ => true
  | .fail _ => false

/-- JavaScript truthiness of an optional numeric id: `undefined`, `null`
and `0` are falsy. -/
def truthyId : Option Nat → Bool
  | some n => n != 0
  | none => false

/-- JavaScript truthiness of an optional string: `undefined`, `null`
and `''` are falsy. -/
def truthyStr : Option String → Bool
  | some t => t != ""
  | none => false

/-- JavaScript truthiness of an optional amount: `undefined`, `null`
and `0` are falsy. -/
def truthyAmt : Option Int → Bool
  | some a => a != 0
  | none => false

/-- JavaScript `x || null` on an optional id. -/
def orNull (x : Option Nat) : Option Nat :=
  if truthyId x then x else none

/-- JavaScript `x || null` on an optional string. -/
def orNullStr (x : Option String) : Option String :=
  if truthyStr x then x else none

/-- SQL `column = $1` between a nullable column and a nullable parameter:
never true when either side is `NULL`. -/
def sqlEq (col param : Option Nat) : Bool :=
  match col, param with
  | some a, some b => a == b
  | _, _ => false

/-! ## Investor funding ledger (`server/routes/inventoryPayments.js`) -/

/-- One element `{investor_id, amount}` of the `investors` array. -/
structure InvestorEntry where
  investor_id : Option Nat
  amount : Int
deriving DecidableEq, Repr

/-- Body of `POST /inventory-payments`. An absent `investors` array is the
empty list. -/
structure PaymentReq where
  inventory_id : Option Nat
  plot_id : Option Nat
  investors : List InvestorEntry
  investor_id : Option Nat
  amount : Option Int
  payment_date : Option String
  notes : Option String
deriving DecidableEq, Repr

/-- Lines 81-89: the `investors` array when it is non-empty, else the single
legacy pair `investor_id`, `amount`, else nothing. -/
def investorPayments (r : PaymentReq) : Option (List InvestorEntry) :=
  if r.investors ≠ [] then some r.investors
  else if truthyId r.investor_id && truthyAmt r.amount then
    some [{ investor_id := r.investor_id, amount := r.amount.getD 0 }]
  else none

/-- The total of the contributions, in cents. The handler computes this total
in doubles (`totalAmountDouble`): its check of line 93 is made on the double,
and the `total_amount` of its reply is the double, which is this total up to
the rounding of doubles. -/
def totalAmount (l : List InvestorEntry) : Int :=
  l.foldl (fun sum inv => sum + inv.amount) 0

/-! ### The doubles of line 92

An amount of `a` cents reaches the handler as the decimal `a / 100`. A double
of absolute value at least `0.01` is an integer multiple of `2 ^ (-59)`, and so
is every sum of such doubles: a double is represented by that integer. No
value here reaches `2 ^ 1024`, the amounts of a `DECIMAL(15, 2)` column being
far below it, so there is no infinity and no `NaN`. -/

/-- The number of bits of `n` beyond 53, counted by halving `n` until it is
below `2 ^ 53`; `fuel` bounds the number of halvings and `n` itself is always
enough. -/
def excessBits : Nat → Nat → Nat
  | 0, _ => 0
  | fuel + 1, n => if n < 2 ^ 53 then 0 else excessBits fuel (n / 2) + 1

/-- Rounding of IEEE 754 binary64, to nearest, ties to even: the number with
at most 53 significant bits nearest to `p / q`. With `k` the number of bits of
the integer part beyond 53, the result is `m * 2 ^ k` for the integer `m`
nearest to `p / (q * 2 ^ k)`, the even one of the two when `p / (q * 2 ^ k)`
is half-way. -/
def roundNearest (p q : Nat) : Nat :=
  let k := excessBits (p / q) (p / q)
  let d := q * 2 ^ k
  let m := p / d
  let rest := p % d
  if 2 * rest > d ∨ (2 * rest = d ∧ m % 2 = 1) then (m + 1) * 2 ^ k else m * 2 ^ k

/-- The double of `parseFloat(inv.amount || 0)` for an amount of `a` cents: the
double nearest to `a / 100`, in units of `2 ^ (-59)`. -/
def parseFloat (a : Int) : Int :=
  a.sign * (roundNearest (a.natAbs * 2 ^ 59) 100 : Nat)

/-- The double `x + y` of two doubles, in units of `2 ^ (-59)`: the exact sum,
rounded. -/
def addDouble (x y : Int) : Int :=
  (x + y).sign * (roundNearest (x + y).natAbs 1 : Nat)

/-- Line 92: `investorPayments.reduce((sum, inv) => sum + parseFloat(inv.amount || 0), 0)`,
in units of `2 ^ (-59)`. -/
def totalAmountDouble (l : List InvestorEntry) : Int :=
  l.foldl (fun sum inv => addDouble sum (parseFloat inv.amount)) 0

/-- `SELECT COALESCE(SUM(amount), 0) FROM inventory_payments WHERE investor_id = $1`. -/
def usedBalance (s : State) (investorId : Option Nat) : Int :=
  ((s.payments.filter (fun p => sqlEq p.investor_id investorId)).map (·.amount)).sum

/-- `SELECT COALESCE(SUM(amount), 0) FROM inventory_payments WHERE plot_id = $1`. -/
def plotPaid (s : State) (plotId : Option Nat) : Int :=
  ((s.payments.filter (fun p => sqlEq p.plot_id plotId)).map (·.amount)).sum

/-- `SELECT COALESCE(SUM(amount), 0) FROM inventory_payments
WHERE inventory_id = $1 AND plot_id IS NULL`. -/
def unitPaid (s : State) (inventoryId : Nat) : Int :=
  ((s.payments.filter (fun p => p.inventory_id == inventoryId && p.plot_id.isNone)).map
    (·.amount)).sum

/-- `SELECT * FROM investors WHERE id = $1 AND salesperson_id = $2`. -/
def investorCheck (s : State) (investorId : Option Nat) (userId : Nat) : List Investor :=
  s.investors.filter (fun i => sqlEq (some i.id) investorId && i.salesperson_id == userId)

/-- Lines 133-166: the ownership and balance check loop. Returns the error
status of the first entry that is refused, `none` when every entry passes.
The whole body of the loop is guarded by `req.user.role !== 'admin'`. -/
def checkInvestors (s : State) (user : User) : List InvestorEntry → Option Nat
  | [] => none
  | invPayment :: rest =>
    if user.role ≠ Role.admin then
      match investorCheck s invPayment.investor_id user.id with
      | [] => some 403
      | investor :: _ =>
        let remainingBalance := investor.total_invested - usedBalance s invPayment.investor_id
        if invPayment.amount > remainingBalance then some 400
        else checkInvestors s user rest
    else checkInvestors s user rest

/-- `UPDATE investors SET paid_amount = $1, remaining_balance = $2 WHERE id = $3`. -/
def setInvestorBalance (l : List Investor) (investorId : Option Nat)
    (paid remaining : Int) : List Investor :=
  l.map (fun i => if sqlEq (some i.id) investorId then
    { i with paid_amount := paid, remaining_balance := remaining } else i)

/-- Lines 187-204: read the cached `paid_amount`, add the amount, rewrite the
cache. -/
def creditInvestor (s : State) (investorId : Option Nat) (amount : Int) : State :=
  match s.investors.filter (fun i => sqlEq (some i.id) investorId) with
  | [] => s
  | row :: _ =>
    let newPaidAmount := row.paid_amount + amount
    let remainingBalance := row.total_invested - newPaidAmount
    { s with investors := setInvestorBalance s.investors investorId newPaidAmount remainingBalance }

/-- The foreign keys of `inventory_payments` that the `INSERT` of line 171
checks: the inventory unit and the salesperson must exist, and so must the
plot and the investor when they are not `NULL`. -/
def paymentKeysOk (s : State) (inventoryId : Nat) (plotId investorId : Option Nat)
    (salespersonId : Nat) : Bool :=
  s.inventory.any (fun i => i.id == inventoryId)
    && (plotId.isNone || s.plots.any (fun p => sqlEq (some p.id) plotId))
    && (investorId.isNone || s.investors.any (fun i => sqlEq (some i.id) investorId))
    && s.users.any (fun u => u.id == salespersonId)

/-- `INSERT INTO inventory_payments (...) VALUES (...)`: the row is appended
and the key counter advances. -/
def appendPayment (s : State) (row : InventoryPayment) : State :=
  { s with payments := s.payments ++ [row], nextPaymentId := s.nextPaymentId + 1 }

/-- Lines 168-205: the insert loop. For every entry, insert one payment row
and update the investor's cached balance. A rejected `INSERT` throws and the
handler answers 500, keeping what was written so far: the result is
`(completed, state, createdPayments)`. -/
def insertPayments (user : User) (inventoryId : Nat) (plotId : Option Nat)
    (date : String) (notes : Option String) :
    List InvestorEntry → State → List InventoryPayment → Bool × State × List InventoryPayment
  | [], s, created => (true, s, created)
  | invPayment :: rest, s, created =>
    if paymentKeysOk s inventoryId plotId invPayment.investor_id user.id then
      let row : InventoryPayment :=
        { id := s.nextPaymentId, inventory_id := inventoryId, plot_id := plotId,
          investor_id := invPayment.investor_id, salesperson_id := user.id,
          amount := invPayment.amount, payment_date := date, notes := notes }
      let s1 := appendPayment s row
      let s2 := creditInvestor s1 invPayment.investor_id invPayment.amount
      insertPayments user inventoryId plotId date notes rest s2 (created ++ [row])
    else (false, s, created)

/-- `UPDATE inventory_plots SET status = $1 WHERE id = $2`. -/
def setPlotStatus (l : List Plot) (plotId : Option Nat) (st : PlotStatus) : List Plot :=
  l.map (fun p => if sqlEq (some p.id) plotId then { p with status := st } else p)

/-- `UPDATE inventory SET status = $1 WHERE id = $2`. -/
def setInventoryStatus (l : List Inventory) (inventoryId : Nat) (st : InvStatus) :
    List Inventory :=
  l.map (fun i => if i.id == inventoryId then { i with status := st } else i)

/-- Lines 207-253: promotion of the plot (or, without a plot, of the unit) to
`paid` once the recorded payments reach the unit price. -/
def promote (s : State) (inventoryId : Nat) (plotId : Option Nat) : State :=
  if truthyId plotId then
    match s.inventory.filter (fun i => i.id == inventoryId) with
    | [] => s
    | inv :: _ =>
      if plotPaid s plotId ≥ inv.price then
        { s with plots := setPlotStatus s.plots plotId PlotStatus.paid }
      else s
  else
    match s.inventory.filter (fun i => i.id == inventoryId) with
    | [] => s
    | inv :: _ =>
      if unitPaid s inventoryId ≥ inv.price then
        { s with inventory := setInventoryStatus s.inventory inventoryId InvStatus.paid }
      else s

/-- Lines 97-131: the caller's claim on the plot or unit (non-admin callers
only), then the membership of the plot in the unit. Returns the error status,
`none` when allowed. -/
def checkTarget (s : State) (user : User) (inventoryId : Nat) (plotId : Option Nat) :
    Option Nat :=
  let owned : Bool :=
    if user.role ≠ Role.admin then
      if truthyId plotId then
        !(s.plots.filter (fun p => sqlEq (some p.id) plotId
            && sqlEq p.assigned_to (some user.id))).isEmpty
      else
        !(s.inventory.filter (fun i => i.id == inventoryId
            && sqlEq i.assigned_to (some user.id))).isEmpty
    else true
  if !owned then some 403
  else if truthyId plotId
      && (s.plots.filter (fun p => sqlEq (some p.id) plotId
            && p.inventory_id == inventoryId)).isEmpty then some 400
  else none

/-- Handler `router.post('/')` of `inventoryPayments.js` (recordPayment). -/
def recordPayment (s : State) (user : User) (r : PaymentReq) :
    Reply (List InventoryPayment × Int) × State :=
  if !truthyId r.inventory_id || !truthyStr r.payment_date then (.fail 400, s)
  else
    let inventoryId := r.inventory_id.getD 0
    match investorPayments r with
    | none => (.fail 400, s)
    | some entries =>
      if totalAmountDouble entries ≤ 0 then (.fail 400, s)
      else
        match checkTarget s user inventoryId r.plot_id with
        | some code => (.fail code, s)
        | none =>
          match checkInvestors s user entries with
          | some code => (.fail code, s)
          | none =>
            match insertPayments user inventoryId (orNull r.plot_id)
                (r.payment_date.getD "") (orNullStr r.notes) entries s [] with
            | (false, s1, _) => (.fail 500, s1)
            | (true, s1, created) =>
              (.ok 201 (created, totalAmount entries), promote s1 inventoryId r.plot_id)

/-- Lines 308-319 and 328-339: the `WHERE` clause of both the `SELECT` and the
`DELETE`: `id = $1` for an administrator, `id = $1 AND salesperson_id = $2`
for the other callers. -/
def visibleTo (user : User) (paymentId : Nat) (p : InventoryPayment) : Bool :=
  if user.role = Role.admin then p.id == paymentId
  else p.id == paymentId && p.salesperson_id == user.id

/-- Lines 343-359: read the cached `paid_amount`, subtract the amount (not
below zero), rewrite the cache. -/
def debitInvestor (s : State) (investorId : Option Nat) (amount : Int) : State :=
  match s.investors.filter (fun i => sqlEq (some i.id) investorId) with
  | [] => s
  | row :: _ =>
    let newPaidAmount := max 0 (row.paid_amount - amount)
    let remainingBalance := row.total_invested - newPaidAmount
    { s with investors := setInvestorBalance s.investors investorId newPaidAmount remainingBalance }

/-- `DELETE FROM inventory_payments WHERE ...`. -/
def removePayments (s : State) (user : User) (paymentId : Nat) : State :=
  { s with payments := s.payments.filter (fun p => !visibleTo user paymentId p) }

/-- Handler `router.delete('/:id')` of `inventoryPayments.js` (deletePayment). -/
def deletePayment (s : State) (user : User) (paymentId : Nat) : Reply Unit × State :=
  match s.payments.filter (visibleTo user paymentId) with
  | [] => (.fail 404, s)
  | payment :: _ =>
    let s1 := removePayments s user paymentId
    if truthyId payment.investor_id then
      (.ok 200 (), debitInvestor s1 payment.investor_id payment.amount)
    else (.ok 200 (), s1)

/-! ## Plot allocation (`server/routes/inventory.js`) -/

/-- Modelled from the spec: the `adminOnly` middleware of
`server/middleware/auth.js`, which lets only an administrator reach the
handler (the other callers get 403). -/
def adminOnly (user : User) : Bool :=
  user.role == Role.admin

/-- Body of `POST /inventory/:id/assign`. An absent `plot_ids` array is the
empty list. -/
structure AssignReq where
  salesperson_id : Option Nat
  plot_ids : List Nat
  amount_paid : Option Int
  notes : Option String
deriving DecidableEq, Repr

/-- Body of the answer of `POST /inventory/:id/assign`. -/
inductive AssignBody where
  | plots (assignment : Assignment) (plots_assigned : Nat)
      (total_amount amount_paid remaining_balance : Int)
  | legacy (row : Option Inventory)
deriving DecidableEq, Repr

/-- `SELECT id, status, plot_number FROM inventory_plots
WHERE id = ANY($1::int[]) AND inventory_id = $2`. -/
def plotCheck (s : State) (plotIds : List Nat) (inventoryId : Nat) : List Plot :=
  s.plots.filter (fun p => plotIds.contains p.id && p.inventory_id == inventoryId)

/-- `UPDATE inventory_plots SET assigned_to = $1, status = 'assigned'
WHERE id = ANY($2::int[])`. -/
def assignPlotRows (l : List Plot) (salespersonId : Nat) (plotIds : List Nat) : List Plot :=
  l.map (fun p => if plotIds.contains p.id then
    { p with assigned_to := some salespersonId, status := PlotStatus.assigned } else p)

/-- `SELECT COUNT(*) FROM inventory_plots WHERE inventory_id = $1 AND status = 'available'`. -/
def remainingPlots (s : State) (inventoryId : Nat) : Nat :=
  (s.plots.filter (fun p => p.inventory_id == inventoryId
    && p.status == PlotStatus.available)).length

/-- The unit becomes `assigned` when none of its plots is `available` any more. -/
def promoteUnit (s : State) (inventoryId : Nat) : State :=
  if remainingPlots s inventoryId = 0 then
    { s with inventory := setInventoryStatus s.inventory inventoryId InvStatus.assigned }
  else s

/-- `INSERT INTO inventory_plot_assignments (...)`. -/
def insertAssignment (s : State) (inventoryId salespersonId totalPlots : Nat)
    (total paid : Int) (notes : Option String) : Assignment × State :=
  let row : Assignment :=
    { id := s.nextAssignmentId, inventory_id := inventoryId, salesperson_id := salespersonId,
      total_plots_assigned := totalPlots, total_amount := total, amount_paid := paid,
      notes := notes }
  (row, { s with assignments := s.assignments ++ [row],
                 nextAssignmentId := s.nextAssignmentId + 1 })

/-- `UPDATE inventory SET assigned_to = $1, status = 'assigned' WHERE id = $2`. -/
def assignUnit (l : List Inventory) (salespersonId inventoryId : Nat) : List Inventory :=
  l.map (fun i => if i.id == inventoryId then
    { i with assigned_to := some salespersonId, status := InvStatus.assigned } else i)

/-- Lines 409-470 of `inventory.js`: assignment of the plots named in
`plot_ids`, after validation of the whole list. -/
def assignSelected (s : State) (inventoryId salespersonId : Nat) (inventory : Inventory)
    (r : AssignReq) : Reply AssignBody × State :=
  let rows := plotCheck s r.plot_ids inventoryId
  if rows.length ≠ r.plot_ids.length then (.fail 400, s)
  else if rows.filter (fun p => p.status != PlotStatus.available) ≠ [] then (.fail 400, s)
  else
    let totalPlots := r.plot_ids.length
    let total : Int := (totalPlots : Int) * inventory.price
    let paidAmount : Int := r.amount_paid.getD 0
    let ins := insertAssignment s inventoryId salespersonId totalPlots total paidAmount
      (orNullStr r.notes)
    let s2 := { ins.2 with plots := assignPlotRows ins.2.plots salespersonId r.plot_ids }
    (.ok 200 (.plots ins.1 totalPlots total paidAmount (total - paidAmount)),
      promoteUnit s2 inventoryId)

/-- Lines 471-481 of `inventory.js`: the legacy assignment of the whole unit. -/
def assignWhole (s : State) (inventoryId salespersonId : Nat) : Reply AssignBody × State :=
  let s1 := { s with inventory := assignUnit s.inventory salespersonId inventoryId }
  (.ok 200 (.legacy ((s1.inventory.filter (fun i => i.id == inventoryId)).head?)), s1)

/-- Handler `router.post('/:id/assign')` of `inventory.js` (assignPlots). -/
def assignPlots (s : State) (user : User) (inventoryId : Nat) (r : AssignReq) :
    Reply AssignBody × State :=
  if !adminOnly user then (.fail 403, s)
  else if !truthyId r.salesperson_id then (.fail 400, s)
  else
    let salespersonId := r.salesperson_id.getD 0
    if (s.users.filter (fun u => u.id == salespersonId && u.role == Role.dealer)).isEmpty then
      (.fail 404, s)
    else
      match s.inventory.filter (fun i => i.id == inventoryId) with
      | [] => (.fail 404, s)
      | inventory :: _ =>
        if r.plot_ids ≠ [] then assignSelected s inventoryId salespersonId inventory r
        else assignWhole s inventoryId salespersonId

/-! ## Inventory request workflow (`server/routes/inventoryRequests.js`) -/

/-- PostgreSQL array overlap `a && b` on a nullable column: true when the
two arrays share an element, not true when the column is `NULL`. -/
def overlaps (col : Option (List Nat)) (ids : List Nat) : Bool :=
  match col with
  | some a => a.any (fun x => ids.contains x)
  | none => false

/-- Body of `POST /inventory-requests`. An absent `plot_ids` array is the
empty list. -/
structure CreateReq where
  inventory_id : Option Nat
  plot_ids : List Nat
deriving DecidableEq, Repr

/-- Handler `router.post('/')` of `inventoryRequests.js` (create). -/
def createRequest (s : State) (user : User) (r : CreateReq) : Reply Request × State :=
  if user.role ≠ Role.dealer then (.fail 403, s)
  else if !truthyId r.inventory_id then (.fail 400, s)
  else
    let inventoryId := r.inventory_id.getD 0
    if (s.inventory.filter (fun i => i.id == inventoryId
          && i.status == InvStatus.available)).isEmpty then (.fail 400, s)
    else
      let refused : Option Nat :=
        if r.plot_ids ≠ [] then
          let rows := plotCheck s r.plot_ids inventoryId
          if rows.length ≠ r.plot_ids.length then some 400
          else if rows.filter (fun p => p.status != PlotStatus.available) ≠ [] then some 400
          else if s.requests.filter (fun q => q.inventory_id == inventoryId
              && q.salesperson_id == user.id && q.status == ReqStatus.pending
              && overlaps q.requested_plot_ids r.plot_ids) ≠ [] then some 400
          else none
        else
          if s.requests.filter (fun q => q.inventory_id == inventoryId
              && q.salesperson_id == user.id && q.status == ReqStatus.pending) ≠ [] then some 400
          else none
      match refused with
      | some code => (.fail code, s)
      | none =>
        let row : Request :=
          { id := s.nextRequestId, inventory_id := inventoryId, salesperson_id := user.id,
            status := ReqStatus.pending, admin_notes := none,
            requested_plot_ids := if r.plot_ids ≠ [] then some r.plot_ids else none }
        (.ok 201 row,
          { s with requests := s.requests ++ [row], nextRequestId := s.nextRequestId + 1 })

/-- `UPDATE inventory_requests SET status = $1, admin_notes = $2 WHERE id = $3`. -/
def setRequestStatus (l : List Request) (requestId : Nat) (st : ReqStatus)
    (adminNotes : Option String) : List Request :=
  l.map (fun q => if q.id == requestId then
    { q with status := st, admin_notes := adminNotes } else q)

/-- The state after `UPDATE inventory_requests SET status = $1,
admin_notes = $2 WHERE id = $3`. -/
def markRequest (s : State) (requestId : Nat) (st : ReqStatus)
    (adminNotes : Option String) : State :=
  { s with requests := setRequestStatus s.requests requestId st adminNotes }

/-- Lines 240-254: the automatic rejection of the other pending requests on
the same unit: those that overlap the approved plot set or name no plots
(per-plot approval), or all of them (whole-unit approval). -/
def rejectOthers (l : List Request) (inventoryId requestId : Nat)
    (plotIds : Option (List Nat)) : List Request :=
  match plotIds with
  | some (x :: xs) =>
    l.map (fun q => if q.inventory_id == inventoryId && q.id != requestId
        && q.status == ReqStatus.pending
        && (overlaps q.requested_plot_ids (x :: xs) || q.requested_plot_ids.isNone) then
      { q with status := ReqStatus.rejected } else q)
  | _ =>
    l.map (fun q => if q.inventory_id == inventoryId && q.id != requestId
        && q.status == ReqStatus.pending then
      { q with status := ReqStatus.rejected } else q)

/-- Lines 195-238 of `inventoryRequests.js`: the assignment performed by an
approval. With requested plot ids, one assignment record with
`amount_paid = 0`, the plots rewritten and the unit status recomputed;
without, the whole unit is assigned. -/
def approveAssign (s : State) (request : Request) (inventory : Inventory) : State :=
  match request.requested_plot_ids with
  | some (x :: xs) =>
    let plotIds := x :: xs
    let totalPlots := plotIds.length
    let total : Int := (totalPlots : Int) * inventory.price
    let a1 := (insertAssignment s request.inventory_id request.salesperson_id
      totalPlots total 0 none).2
    let a2 := { a1 with plots := assignPlotRows a1.plots request.salesperson_id plotIds }
    promoteUnit a2 request.inventory_id
  | _ =>
    { s with inventory := assignUnit s.inventory request.salesperson_id request.inventory_id }

/-- Handler `router.post('/:id/approve')` of `inventoryRequests.js` (approve). -/
def approveRequest (s : State) (user : User) (requestId : Nat)
    (adminNotes : Option String) : Reply Unit × State :=
  if !adminOnly user then (.fail 403, s)
  else
    match s.requests.filter (fun q => q.id == requestId) with
    | [] => (.fail 404, s)
    | request :: _ =>
      if request.status ≠ ReqStatus.pending then (.fail 400, s)
      else
        match s.inventory.filter (fun i => i.id == request.inventory_id
            && i.status == InvStatus.available) with
        | [] => (.fail 400, s)
        | inventory :: _ =>
          let s1 := markRequest s requestId ReqStatus.approved (orNullStr adminNotes)
          let s2 := approveAssign s1 request inventory
          let others :=
            rejectOthers s2.requests request.inventory_id requestId request.requested_plot_ids
          (.ok 200 (), { s2 with requests := others })

/-- Handler `router.post('/:id/reject')` of `inventoryRequests.js` (reject). -/
def rejectRequest (s : State) (user : User) (requestId : Nat)
    (adminNotes : Option String) : Reply Unit × State :=
  if !adminOnly user then (.fail 403, s)
  else
    match s.requests.filter (fun q => q.id == requestId) with
    | [] => (.fail 404, s)
    | request :: _ =>
      if request.status ≠ ReqStatus.pending then (.fail 400, s)
      else
        (.ok 200 (), markRequest s requestId ReqStatus.rejected (orNullStr adminNotes))

/-! ## Deal-plot consumption (`server/routes/deals.js`) -/

/-- Body of `POST /deals`, restricted to what reaches the inventory logic.
Absent arrays are empty lists. The columns of the deal row that do not
concern inventory (customer, prices, descriptions) are not represented;
`row_accepted` says whether the database accepts them (the customer exists,
the computed `profit_percentage` fits its column). -/
structure DealReq where
  inventory_id : Option Nat
  inventory_ids : List Nat
  inventory_quantity_used : Option Int
  plot_ids : List Nat
  property_type : Option String
  dealer_id : Option Nat
  row_accepted : Bool
deriving DecidableEq, Repr

/-- Lines 142-152: the single inventory id the handler works with: the
`inventory_id` of the body, else the first element of `inventory_ids`. -/
def inventoryIdsToProcess (r : DealReq) : List Nat :=
  if truthyId r.inventory_id then [r.inventory_id.getD 0]
  else
    match r.inventory_ids with
    | x :: _ => [x]
    | [] => []

/-- `SELECT ... FROM inventory_plots ip
WHERE ip.id = ANY($1::int[]) AND ip.inventory_id = ANY($2::int[])`. -/
def dealPlotCheck (s : State) (plotIds inventoryIds : List Nat) : List Plot :=
  s.plots.filter (fun p => plotIds.contains p.id && inventoryIds.contains p.inventory_id)

/-- Lines 169-205: validation of the plots of a deal: all ids belong to the
selected unit, a salesperson may only use plots assigned to them, and every
plot is `assigned` or `paid`. Returns the error status, `none` when valid. -/
def checkDealPlots (s : State) (user : User) (plotIds inventoryIds : List Nat) : Option Nat :=
  let rows := dealPlotCheck s plotIds inventoryIds
  if rows.length ≠ plotIds.length then some 400
  else if user.role = Role.dealer
      && !(rows.filter (fun p => !truthyId p.assigned_to
            || p.assigned_to != some user.id)).isEmpty then some 403
  else if rows.filter (fun p => !(p.status == PlotStatus.assigned
            || p.status == PlotStatus.paid)) ≠ [] then some 400
  else none

/-- `SELECT COALESCE(SUM(inventory_quantity_used), 0) FROM deals
WHERE inventory_id = $1 AND status != 'deal_not_done'`. -/
def totalUsed (s : State) (inventoryId : Nat) : Int :=
  ((s.deals.filter (fun d => sqlEq d.inventory_id (some inventoryId)
      && d.status != DealStatus.deal_not_done)).map
    (fun d => d.inventory_quantity_used.getD 0)).sum

/-- Line 226: `parseInt(inventory_quantity_used || 1)`. -/
def quantityRequested (r : DealReq) : Int :=
  if truthyAmt r.inventory_quantity_used then r.inventory_quantity_used.getD 0 else 1

/-- Lines 207-246: the legacy mode without plot ids: the caller's claim on
the unit, then the quantity left on it. Returns the error status, `none`
when valid. -/
def checkDealQuantity (s : State) (user : User) (r : DealReq) (primaryInventory : Inventory) :
    Option Nat :=
  let claimed : Bool :=
    if user.role = Role.dealer then
      truthyId primaryInventory.assigned_to && primaryInventory.assigned_to == some user.id
    else !truthyId primaryInventory.assigned_to
  if !claimed then some 403
  else if quantityRequested r < 1 then some 400
  else if quantityRequested r > primaryInventory.quantity - totalUsed s primaryInventory.id then
    some 400
  else none

/-- Lines 154-248: the validation of a deal. An error status, or the
quantity to record and the plots to consume. -/
def validateDeal (s : State) (user : User) (r : DealReq) : Except Nat (Int × List Nat) :=
  match inventoryIdsToProcess r with
  | [] => .ok (1, [])
  | x :: xs =>
    let inventoryCheck := s.inventory.filter (fun i => (x :: xs).contains i.id)
    if inventoryCheck.length ≠ (x :: xs).length then .error 404
    else
      match inventoryCheck with
      | [] => .error 500
      | primaryInventory :: _ =>
        if r.plot_ids ≠ [] then
          match checkDealPlots s user r.plot_ids (x :: xs) with
          | some code => .error code
          | none => .ok ((r.plot_ids.length : Int), r.plot_ids)
        else
          match checkDealQuantity s user r primaryInventory with
          | some code => .error code
          | none => .ok (quantityRequested r, [])

/-- Line 281: the dealer recorded on the deal: the caller when a salesperson,
else the `dealer_id` of the body or the caller. -/
def dealDealer (user : User) (r : DealReq) : Nat :=
  if user.role = Role.dealer then user.id
  else if truthyId r.dealer_id then r.dealer_id.getD 0 else user.id

/-- The constraints of `deals` that the `INSERT` of line 272 checks: the
`property_type` is one of the three categories, the dealer exists, and the
columns that are not represented are accepted. -/
def dealKeysOk (s : State) (user : User) (r : DealReq) : Bool :=
  r.row_accepted
    && (r.property_type == some "house" || r.property_type == some "plot"
        || r.property_type == some "shop_office")
    && s.users.any (fun u => u.id == dealDealer user r)

/-- `INSERT INTO deals (...) VALUES (...)`: the row is appended and the key
counter advances. -/
def appendDeal (s : State) (row : Deal) : State :=
  { s with deals := s.deals ++ [row], nextDealId := s.nextDealId + 1 }

/-- `INSERT INTO deal_plots (deal_id, plot_id) VALUES ($1, $2)`. -/
def appendDealPlot (s : State) (dealId plotId : Nat) : State :=
  let row : DealPlot := ⟨s.nextDealPlotId, dealId, plotId⟩
  { s with dealPlots := s.dealPlots ++ [row], nextDealPlotId := s.nextDealPlotId + 1 }

/-- `UPDATE inventory_plots SET status = 'used_in_deal' WHERE id = $1`. -/
def consumePlot (s : State) (plotId : Nat) : State :=
  { s with plots := setPlotStatus s.plots (some plotId) PlotStatus.used_in_deal }

/-- The constraints of `deal_plots` that the `INSERT` of line 302 checks: the
plot exists and the pair `(deal_id, plot_id)` is new. -/
def dealPlotKeysOk (s : State) (dealId plotId : Nat) : Bool :=
  s.plots.any (fun p => p.id == plotId)
    && !s.dealPlots.any (fun d => d.deal_id == dealId && d.plot_id == plotId)

/-- Lines 299-314: for every selected plot, one junction row, then the plot
becomes `used_in_deal`. A rejected `INSERT` throws and the handler answers
500, keeping what was written so far: the result is `(completed, state)`. -/
def insertDealPlots (dealId : Nat) : List Nat → State → Bool × State
  | [], s => (true, s)
  | plotId :: rest, s =>
    if dealPlotKeysOk s dealId plotId then
      insertDealPlots dealId rest (consumePlot (appendDealPlot s dealId plotId) plotId)
    else (false, s)

/-- The row of lines 269-295: `dealInventoryId` is the id worked with, if
any, and the quantity is recorded only when that id is truthy. -/
def dealRow (s : State) (user : User) (r : DealReq) (quantityToUse : Int) : Deal :=
  let dealInventoryId := (inventoryIdsToProcess r).head?
  { id := s.nextDealId, dealer_id := dealDealer user r, inventory_id := dealInventoryId,
    inventory_quantity_used := if truthyId dealInventoryId then some quantityToUse else none,
    status := DealStatus.in_progress }

/-- Handler `router.post('/')` of `deals.js` (deal creation, with the
consumption of the plots named in `plot_ids`). -/
def createDeal (s : State) (user : User) (r : DealReq) : Reply Deal × State :=
  if !truthyStr r.property_type then (.fail 400, s)
  else
    match validateDeal s user r with
    | .error code => (.fail code, s)
    | .ok (quantityToUse, selectedPlotIds) =>
      if !dealKeysOk s user r then (.fail 500, s)
      else
        let row := dealRow s user r quantityToUse
        match insertDealPlots row.id selectedPlotIds (appendDeal s row) with
        | (false, s1) => (.fail 500, s1)
        | (true, s1) => (.ok 201 row, s1)

/-! ## The pieces of request creation, named -/

/-- Lines 102-144 of `inventoryRequests.js`, the part of `createRequest` that
validates the plot list and looks for a pending request of the caller: the
error status, `none` when the request may be inserted. -/
def createRefusal (s : State) (user : User) (r : CreateReq) (inventoryId : Nat) : Option Nat :=
  if r.plot_ids ≠ [] then
    let rows := plotCheck s r.plot_ids inventoryId
    if rows.length ≠ r.plot_ids.length then some 400
    else if rows.filter (fun p => p.status != PlotStatus.available) ≠ [] then some 400
    else if s.requests.filter (fun q => q.inventory_id == inventoryId
        && q.salesperson_id == user.id && q.status == ReqStatus.pending
        && overlaps q.requested_plot_ids r.plot_ids) ≠ [] then some 400
    else none
  else
    if s.requests.filter (fun q => q.inventory_id == inventoryId
        && q.salesperson_id == user.id && q.status == ReqStatus.pending) ≠ [] then some 400
    else none

/-- The row of lines 146-150 of `inventoryRequests.js`. -/
def requestRow (s : State) (user : User) (r : CreateReq) : Request :=
  { id := s.nextRequestId, inventory_id := r.inventory_id.getD 0, salesperson_id := user.id,
    status := ReqStatus.pending, admin_notes := none,
    requested_plot_ids := if r.plot_ids ≠ [] then some r.plot_ids else none }

/-- `INSERT INTO inventory_requests (...) VALUES (...)`: the row is appended
and the key counter advances. -/
def appendRequest (s : State) (row : Request) : State :=
  { s with requests := s.requests ++ [row], nextRequestId := s.nextRequestId + 1 }

/-! ## Sequences of operations -/

/-- One call of a handler of the core, with its caller and its arguments. -/
inductive Op where
  | assign (user : User) (inventoryId : Nat) (r : AssignReq)
  | request (user : User) (r : CreateReq)
  | approve (user : User) (requestId : Nat) (adminNotes : Option String)
  | reject (user : User) (requestId : Nat) (adminNotes : Option String)
  | pay (user : User) (r : PaymentReq)
  | unpay (user : User) (paymentId : Nat)
  | deal (user : User) (r : DealReq)
deriving DecidableEq, Repr

/-- The state after one call, whatever the reply. -/
def step (s : State) : Op → State
  | .assign user inventoryId r => (assignPlots s user inventoryId r).2
  | .request user r => (createRequest s user r).2
  | .approve user requestId adminNotes => (approveRequest s user requestId adminNotes).2
  | .reject user requestId adminNotes => (rejectRequest s user requestId adminNotes).2
  | .pay user r => (recordPayment s user r).2
  | .unpay user paymentId => (deletePayment s user paymentId).2
  | .deal user r => (createDeal s user r).2

/-- The state after a sequence of calls. -/
def run (s : State) (ops : List Op) : State :=
  ops.foldl step s

/-- The call belongs to the request workflow: create, approve or reject. -/
def Op.isRequestOp : Op → Bool
  | .request _ _ => true
  | .approve _ _ _ => true
  | .reject _ _ _ => true
  | _ => false

/-! ## Balance projections (`server/routes/inventoryPayments.js`) -/

/-- Body of the answer of `GET /inventory-payments/salesperson/:id/balance`. -/
structure SalespersonBalance where
  salesperson_id : Nat
  total_invested : Int
  total_used : Int
  remaining_balance : Int
deriving DecidableEq, Repr

/-- One row of the answer of
`GET /inventory-payments/salesperson/:id/investors/balances`. -/
structure InvestorBalance where
  id : Nat
  total_invested : Int
  used_balance : Int
  remaining_balance : Int
deriving DecidableEq, Repr

/-- `SELECT COALESCE(SUM(total_invested), 0) FROM investors WHERE salesperson_id = $1`. -/
def totalInvested (s : State) (salespersonId : Nat) : Int :=
  ((s.investors.filter (fun i => i.salesperson_id == salespersonId)).map (·.total_invested)).sum

/-- `SELECT COALESCE(SUM(amount), 0) FROM inventory_payments WHERE salesperson_id = $1`. -/
def totalPaidBy (s : State) (salespersonId : Nat) : Int :=
  ((s.payments.filter (fun p => p.salesperson_id == salespersonId)).map (·.amount)).sum

/-- Handler `router.get('/salesperson/:salespersonId/balance')`
(getSalespersonBalance). A read: the database is not written. -/
def getSalespersonBalance (s : State) (user : User) (salespersonId : Nat) :
    Reply SalespersonBalance :=
  if user.role ≠ Role.admin ∧ user.id ≠ salespersonId then .fail 403
  else
    let invested := totalInvested s salespersonId
    let used := totalPaidBy s salespersonId
    .ok 200 { salesperson_id := salespersonId, total_invested := invested, total_used := used,
              remaining_balance := invested - used }

/-- One group of the query of lines 453-465: the investor joined with its
payments (`LEFT JOIN inventory_payments ip ON inv.id = ip.investor_id`). -/
def investorBalance (s : State) (inv : Investor) : InvestorBalance :=
  { id := inv.id, total_invested := inv.total_invested,
    used_balance := usedBalance s (some inv.id),
    remaining_balance := inv.total_invested - usedBalance s (some inv.id) }

/-- Handler `router.get('/salesperson/:salespersonId/investors/balances')`
(getInvestorBalances). The query groups by `inv.id`, the primary key, so there
is one group per investor row; the rows are kept in table order (the query
sorts them by investor name, a column that is not represented). -/
def getInvestorBalances (s : State) (user : User) (salespersonId : Nat) :
    Reply (List InvestorBalance) :=
  if user.role ≠ Role.admin ∧ user.id ≠ salespersonId then .fail 403
  else
    .ok 200 ((s.investors.filter (fun i => i.salesperson_id == salespersonId)).map
      (investorBalance s))

/-! ## Inventory creation (`server/routes/inventory.js`) -/

/-- The separators of the regular expression `/[,\n;]/`. -/
def isSeparator (c : Char) : Bool :=
  c == ',' || c == '\n' || c == ';'

/-- The characters removed by `String.prototype.trim`: the white space and
the line terminators of ECMAScript. -/
def isWhiteSpace (c : Char) : Bool :=
  [0x09, 0x0A, 0x0B, 0x0C, 0x0D, 0x20, 0xA0, 0x1680, 0x2028, 0x2029, 0x202F, 0x205F,
    0x3000, 0xFEFF].contains c.toNat
    || (0x2000 ≤ c.toNat && c.toNat ≤ 0x200A)

/-- `text.split(/[,\n;]/)`: the pieces between the separators, in order. A
text without separator is one piece, the empty text included. -/
def splitPieces : List Char → List (List Char)
  | [] => [[]]
  | c :: cs =>
    if isSeparator c then [] :: splitPieces cs
    else
      match splitPieces cs with
      | [] => [[c]]
      | piece :: pieces => (c :: piece) :: pieces

/-- `num.trim()`. -/
def jsTrim (num : List Char) : List Char :=
  (num.dropWhile isWhiteSpace).rdropWhile isWhiteSpace

/-- The pieces of `parsePlotNumbers`, as lists of characters: split, trim,
drop the empty ones. -/
def plotPieces (text : List Char) : List (List Char) :=
  ((splitPieces text).map jsTrim).filter (fun num => num.length > 0)

/-- Function `parsePlotNumbers` of lines 266-276. The argument is `none` when
the input is not a string. -/
def parsePlotNumbers (plotNumbersInput : Option String) : List String :=
  match plotNumbersInput with
  | none => []
  | some text => if text = "" then [] else (plotPieces text.data).map String.mk

/-- Body of `POST /inventory`. -/
structure InventoryReq where
  category : Option String
  address : Option String
  price : Option Int
  quantity : Option Int
  plot_numbers : Option String
deriving DecidableEq, Repr

/-- Line 293: `parseInt(quantity || 1)`. -/
def inventoryQty (r : InventoryReq) : Int :=
  if truthyAmt r.quantity then r.quantity.getD 0 else 1

/-- Lines 332-337: the placeholder plot numbers `category-1` ... `category-qty`. -/
def placeholders (category : String) (qty : Int) : List String :=
  (List.range qty.toNat).map (fun i => category ++ "-" ++ toString (i + 1))

/-- `INSERT INTO inventory (...) VALUES (..., 'available', ...)`: the row is
appended and the key counter advances. -/
def appendInventory (s : State) (row : Inventory) : State :=
  { s with inventory := s.inventory ++ [row], nextInventoryId := s.nextInventoryId + 1 }

/-- `INSERT INTO inventory_plots (inventory_id, plot_number, status)
VALUES ($1, $2, 'available')`. -/
def appendPlot (s : State) (inventoryId : Nat) (plotNumber : String) : State :=
  let row : Plot := ⟨s.nextPlotId, inventoryId, plotNumber, PlotStatus.available, none⟩
  { s with plots := s.plots ++ [row], nextPlotId := s.nextPlotId + 1 }

/-- Lines 322-338: one `INSERT` per plot number. The table has
`plot_number VARCHAR(100)` and `UNIQUE(inventory_id, plot_number)`: a longer
number makes the `INSERT` throw (answer 500), a repeated one violates the
constraint (error 23505, answer 400); the handler keeps what was written so
far. The result is the error status, if any, and the state reached. -/
def insertPlots (inventoryId : Nat) : List String → State → Option Nat × State
  | [], s => (none, s)
  | plotNumber :: rest, s =>
    if plotNumber.length > 100 then (some 500, s)
    else if s.plots.any (fun p => p.inventory_id == inventoryId
        && p.plot_number == plotNumber) then (some 400, s)
    else insertPlots inventoryId rest (appendPlot s inventoryId plotNumber)

/-- `COUNT(ip.id)` of the final query: the number of plots of the unit. -/
def plotCount (s : State) (inventoryId : Nat) : Nat :=
  (s.plots.filter (fun p => p.inventory_id == inventoryId)).length

/-- The row of lines 308-312. -/
def inventoryRow (s : State) (r : InventoryReq) : Inventory :=
  { id := s.nextInventoryId, price := r.price.getD 0, quantity := inventoryQty r,
    status := InvStatus.available, assigned_to := none }

/-- Lines 319-338: the plot numbers to insert: the parsed ones if any, else
the placeholders. -/
def plotNumbersFor (r : InventoryReq) : List String :=
  if parsePlotNumbers r.plot_numbers ≠ [] then parsePlotNumbers r.plot_numbers
  else placeholders (r.category.getD "") (inventoryQty r)

/-- Handler `router.post('/')` of `inventory.js` (creation of a unit with its
plots). The answer carries the unit row and its plot count. -/
def createInventory (s : State) (user : User) (r : InventoryReq) :
    Reply (Inventory × Nat) × State :=
  if !adminOnly user then (.fail 403, s)
  else if !truthyStr r.category || !truthyStr r.address || !truthyAmt r.price then (.fail 400, s)
  else if !(r.category == some "plot" || r.category == some "house"
      || r.category == some "shop_office") then (.fail 400, s)
  else if truthyStr r.plot_numbers && parsePlotNumbers r.plot_numbers ≠ []
      && ((parsePlotNumbers r.plot_numbers).length : Int) ≠ inventoryQty r then (.fail 400, s)
  else
    let row := inventoryRow s r
    match insertPlots row.id (plotNumbersFor r) (appendInventory s row) with
    | (some code, s1) => (.fail code, s1)
    | (none, s1) => (.ok 201 (row, plotCount s1 row.id), s1)

/-! ## Notions used to state the properties -/

/-- Amount debited to an investor by the entries of one call: the sum of
the amounts of the entries that name the investor. -/
def debited (entries : List InvestorEntry) (investorId : Option Nat) : Int :=
  ((entries.filter (fun e => sqlEq e.investor_id investorId)).map (·.amount)).sum

/-- The cached columns of the investor rows with key `i` agree with the
payment ledger: `paid_amount` is the sum of the investor's payments and
`remaining_balance` is `total_invested` minus that sum. -/
def SyncedAt (s : State) (i : Nat) : Prop :=
  ∀ row ∈ s.investors, row.id = i →
    row.paid_amount = usedBalance s (some i)
    ∧ row.remaining_balance = row.total_invested - usedBalance s (some i)

instance (s : State) (i : Nat) : Decidable (SyncedAt s i) := by
  unfold SyncedAt
  exact inferInstance

/-- The investor row after a payment of `a`: `a` is added to the cached
`paid_amount` and `remaining_balance` is recomputed from it. -/
def credited (inv : Investor) (a : Int) : Investor :=
  { inv with paid_amount := inv.paid_amount + a,
             remaining_balance := inv.total_invested - (inv.paid_amount + a) }

/-- The plot row after an assignment to salesperson `sp`. -/
def assignedRow (p : Plot) (sp : Nat) : Plot :=
  { p with assigned_to := some sp, status := PlotStatus.assigned }

/-- The plot row after promotion to `paid`. -/
def paidPlot (p : Plot) : Plot :=
  { p with status := PlotStatus.paid }

/-- The request row after an automatic rejection. -/
def rejectedRow (q : Request) : Request :=
  { q with status := ReqStatus.rejected }

/-- The unit row after promotion to `assigned`. -/
def assignedUnit (u : Inventory) : Inventory :=
  { u with status := InvStatus.assigned }

/-- The request row after an approval with the given notes. -/
def approvedRow (q : Request) (adminNotes : Option String) : Request :=
  { q with status := ReqStatus.approved, admin_notes := orNullStr adminNotes }

/-- The request row after a rejection with the given notes. -/
def refusedRow (q : Request) (adminNotes : Option String) : Request :=
  { q with status := ReqStatus.rejected, admin_notes := orNullStr adminNotes }

/-- The plot row after its consumption by a deal. -/
def usedPlot (p : Plot) : Plot :=
  { p with status := PlotStatus.used_in_deal }

/-- The status changes a request may undergo: none, or any change out of
`pending`. -/
def Allowed (before after : ReqStatus) : Prop :=
  after = before ∨ before = ReqStatus.pending

/-- How the request table after some operations relates to the table before:
every row is still there at the same position with the same key, and its
status changed in an allowed way, if at all. -/
def RowsEvolve (l l' : List Request) : Prop :=
  ∀ (k : Nat) (q : Request), l[k]? = some q →
    ∃ q', l'[k]? = some q' ∧ q'.id = q.id ∧ Allowed q.status q'.status

/-- How the plot table after some operations relates to the table before:
the same rows rewritten one by one, each keeping its key and its unit, and
none going back to `available`. -/
def PlotsKept (l l' : List Plot) : Prop :=
  ∃ f : Plot → Plot, l' = l.map f ∧ ∀ p, (f p).id = p.id
    ∧ (f p).inventory_id = p.inventory_id
    ∧ (p.status ≠ PlotStatus.available → (f p).status ≠ PlotStatus.available)

/-- The primary key of `inventory_requests`: the request ids are pairwise
distinct and below the `SERIAL` counter. -/
def ReqKeysOk (s : State) : Prop :=
  (s.requests.map (·.id)).Nodup ∧ ∀ q ∈ s.requests, q.id < s.nextRequestId

instance (s : State) : Decidable (ReqKeysOk s) := by
  unfold ReqKeysOk
  exact inferInstance

/-- The investor row after the deletion of a payment of `a`: `a` is taken off
the cached `paid_amount`, not below zero, and `remaining_balance` is
recomputed from it. -/
def debitedRow (inv : Investor) (a : Int) : Investor :=
  { inv with paid_amount := max 0 (inv.paid_amount - a),
             remaining_balance := inv.total_invested - max 0 (inv.paid_amount - a) }

/-- The columns of an investor row that belong to the ledger: the cached
`paid_amount` and `remaining_balance` are left out. -/
def ledgerColumns (i : Investor) : Nat × Nat × Int :=
  (i.id, i.salesperson_id, i.total_invested)

/-- Two states hold the same ledger: the same payments and the same
investors, up to the cached columns. -/
def SameLedger (s t : State) : Prop :=
  s.payments = t.payments ∧ s.investors.map ledgerColumns = t.investors.map ledgerColumns

instance (s t : State) : Decidable (SameLedger s t) := by
  unfold SameLedger
  exact inferInstance

/-- A plot number as the parser delivers it: not empty, without separator,
without white space at either end. -/
def CleanNumber (x : List Char) : Prop :=
  ∃ h : x ≠ [], (∀ c ∈ x, isSeparator c = false)
    ∧ isWhiteSpace (x.head h) = false ∧ isWhiteSpace (x.getLast h) = false

/-- The result of `pieces.join(',')`, on lists of characters. -/
def joinPieces : List (List Char) → List Char
  | [] => []
  | [x] => x
  | x :: y :: rest => x ++ ',' :: joinPieces (y :: rest)

/-- The result of `numbers.join(',')`. -/
def joinNumbers (numbers : List String) : String :=
  String.mk (joinPieces (numbers.map String.data))

/-- The list that the description of `parsePlotNumbers` names: the text split
at every comma, newline and semicolon (with the library function
`List.splitOnP`), each piece trimmed, the empty pieces removed. -/
def trimmedPieces (text : String) : List String :=
  (((text.data.splitOnP isSeparator).map jsTrim).filter (fun piece => !piece.isEmpty)).map
    String.mk

/-! ## Example states -/

/-- One unit of two plots priced 1000.00, plot 1 assigned to dealer 2, and
one investor of dealer 2 with 5000.00 invested and nothing used. -/
def demoState : State :=
  { users := [⟨1, .admin⟩, ⟨2, .dealer⟩, ⟨3, .dealer⟩],
    inventory := [⟨1, 100000, 2, .available, none⟩],
    plots := [⟨1, 1, "A", .assigned, some 2⟩, ⟨2, 1, "B", .available, none⟩],
    assignments := [], investors := [⟨1, 2, 500000, 0, 500000⟩], payments := [],
    requests := [], deals := [], dealPlots := [],
    nextInventoryId := 2, nextPlotId := 3, nextAssignmentId := 1, nextInvestorId := 2,
    nextPaymentId := 1, nextRequestId := 1, nextDealId := 1, nextDealPlotId := 1 }

/-- A payment of 6000.00 drawn on investor 1 against plot 1. -/
def overdrawReq : PaymentReq :=
  { inventory_id := some 1, plot_id := some 1, investors := [⟨some 1, 600000⟩],
    investor_id := none, amount := none, payment_date := some "2024-01-01", notes := none }

/-- Two contributions of 3000.00 each, both drawn on investor 1. -/
def doubleReq : PaymentReq :=
  { inventory_id := some 1, plot_id := some 1,
    investors := [⟨some 1, 300000⟩, ⟨some 1, 300000⟩],
    investor_id := none, amount := none, payment_date := some "2024-01-01", notes := none }

/-- A payment of 3000.00 drawn on investor 1 against plot 1. -/
def payReq : PaymentReq :=
  { inventory_id := some 1, plot_id := some 1, investors := [⟨some 1, 300000⟩],
    investor_id := none, amount := none, payment_date := some "2024-01-01", notes := none }

/-- A payment of 1000.00 drawn on investor 1 against plot 1. -/
def smallReq : PaymentReq :=
  { inventory_id := some 1, plot_id := some 1, investors := [⟨some 1, 100000⟩],
    investor_id := none, amount := none, payment_date := some "2024-01-01", notes := none }

/-- The payment row that `payReq` creates in `demoState`. -/
def paidRow : InventoryPayment :=
  { id := 1, inventory_id := 1, plot_id := some 1, investor_id := some 1, salesperson_id := 2,
    amount := 300000, payment_date := "2024-01-01", notes := none }

/-- The state `demoState` after dealer 2 recorded `payReq`: the ledger holds
one payment of 3000.00 and the cache of investor 1 agrees with it. -/
def paidState : State :=
  { demoState with investors := [⟨1, 2, 500000, 300000, 200000⟩], payments := [paidRow],
                   nextPaymentId := 2 }

/-- As `paidState`, but the cache of investor 1 has drifted from the ledger:
`paid_amount` reads 4000.00 while the ledger holds 3000.00. -/
def driftState : State :=
  { paidState with investors := [⟨1, 2, 500000, 400000, 100000⟩] }

/-- As `paidState`, with a second ledger row of -1000.00 on investor 1 (an
entry with a negative amount recorded next to a larger positive one); the
cache agrees with the ledger sum of 2000.00. -/
def refundState : State :=
  { paidState with
      investors := [⟨1, 2, 500000, 200000, 300000⟩],
      payments := [paidRow, { paidRow with id := 2, amount := -100000 }],
      nextPaymentId := 3 }

/-- As `demoState`, but investor 1 has 100.01 invested, nothing paid and a
cached `remaining_balance` of 100.00: the three columns are stored rounded to
the cent one by one, so they need not add up. -/
def staleState : State :=
  { demoState with investors := [⟨1, 2, 10001, 0, 10000⟩] }

/-- A payment of 50.00 drawn on investor 1 against plot 1. -/
def tinyReq : PaymentReq :=
  { inventory_id := some 1, plot_id := some 1, investors := [⟨some 1, 5000⟩],
    investor_id := none, amount := none, payment_date := some "2024-01-01", notes := none }

/-- As `demoState`, with both plots available and two pending requests on
unit 1: dealer 3 asks for plot 1, dealer 2 asks for plots 2 and 1. -/
def rivalState : State :=
  { demoState with
      plots := [⟨1, 1, "A", .available, none⟩, ⟨2, 1, "B", .available, none⟩],
      requests := [⟨1, 1, 3, .pending, none, some [1]⟩, ⟨2, 1, 2, .pending, none, some [2, 1]⟩],
      nextRequestId := 3 }

/-- As `demoState`, with both plots available and unassigned. -/
def freshState : State :=
  { demoState with plots := [⟨1, 1, "A", .available, none⟩, ⟨2, 1, "B", .available, none⟩] }

/-- Dealer 3 requests plot 1 of unit 1 in `freshState`. -/
def afterRequest : State :=
  (createRequest freshState ⟨3, .dealer⟩ ⟨some 1, [1]⟩).2

/-- The administrator then assigns plot 1 to dealer 2. -/
def afterAssign : State :=
  (assignPlots afterRequest ⟨1, .admin⟩ 1 ⟨some 2, [1], none, none⟩).2

/-- Dealer 2 then pays the unit price of 1000.00 on plot 1. -/
def afterPayment : State :=
  (recordPayment afterAssign ⟨2, .dealer⟩ smallReq).2

/-- The administrator then approves the request of dealer 3. -/
def afterApprove : State :=
  (approveRequest afterPayment ⟨1, .admin⟩ 1 none).2

/-- As `demoState`, with plot 1 consumed by a deal of dealer 2. -/
def dealtState : State :=
  { demoState with
      plots := [⟨1, 1, "A", .used_in_deal, some 2⟩, ⟨2, 1, "B", .available, none⟩] }

/-- The administrator of the example states. -/
def admin1 : User := ⟨1, .admin⟩

/-- The first salesperson of the example states. -/
def dealer2 : User := ⟨2, .dealer⟩

/-- The second salesperson of the example states. -/
def dealer3 : User := ⟨3, .dealer⟩

/-- Plot 2 of unit 1 for dealer 3, nothing paid. -/
def assignTwo : AssignReq :=
  { salesperson_id := some 3, plot_ids := [2], amount_paid := none, notes := none }

/-- Plot 2 of unit 1 for dealer 3, 250.00 paid. -/
def assignTwoPaid : AssignReq :=
  { salesperson_id := some 3, plot_ids := [2], amount_paid := some 25000, notes := none }

/-- Plot 1 of unit 1 for dealer 3, nothing paid. -/
def assignOne : AssignReq :=
  { salesperson_id := some 3, plot_ids := [1], amount_paid := none, notes := none }

/-- Dealer 3 holds a pending whole-unit request on unit 1 of `freshState`. -/
def wholeState : State :=
  (createRequest freshState dealer3 ⟨some 1, []⟩).2

/-- Dealer 3 holds a pending request for plot 1 of unit 1 of `freshState`. -/
def plotState : State :=
  (createRequest freshState dealer3 ⟨some 1, [1]⟩).2

/-- A deal on plot 1 of unit 1. -/
def plotDeal : DealReq :=
  { inventory_id := some 1, inventory_ids := [], inventory_quantity_used := none,
    plot_ids := [1], property_type := some "plot", dealer_id := none, row_accepted := true }

/-- A deal that names plot 2 but selects no inventory unit. -/
def looseDeal : DealReq :=
  { inventory_id := none, inventory_ids := [], inventory_quantity_used := none,
    plot_ids := [2], property_type := some "plot", dealer_id := none, row_accepted := true }

/-- A deal that names plot 1 but selects no inventory unit. -/
def looseDealOne : DealReq :=
  { inventory_id := none, inventory_ids := [], inventory_quantity_used := none,
    plot_ids := [1], property_type := some "plot", dealer_id := none, row_accepted := true }

/-- Two contributions on investor 1 that cancel: 1000.00 and -1000.00. -/
def zeroReq : PaymentReq :=
  { inventory_id := some 1, plot_id := some 1,
    investors := [⟨some 1, 100000⟩, ⟨some 1, -100000⟩],
    investor_id := none, amount := none, payment_date := some "2024-01-01", notes := none }

/-- Three contributions on investor 1 that cancel: 0.10, 0.20 and -0.30. -/
def dustReq : PaymentReq :=
  { inventory_id := some 1, plot_id := some 1,
    investors := [⟨some 1, 10⟩, ⟨some 1, 20⟩, ⟨some 1, -30⟩],
    investor_id := none, amount := none, payment_date := some "2024-01-01", notes := none }

/-- As `demoState`, with a second investor of dealer 2 holding 2000.00. -/
def twoInvestorState : State :=
  { demoState with
      investors := [⟨1, 2, 500000, 0, 500000⟩, ⟨2, 2, 200000, 0, 200000⟩],
      nextInvestorId := 3 }

/-- A payment against plot 1 of 3000.00 from investor 1 and -1000.00 from
investor 2: the total is 2000.00. -/
def mixedReq : PaymentReq :=
  { inventory_id := some 1, plot_id := some 1,
    investors := [⟨some 1, 300000⟩, ⟨some 2, -100000⟩],
    investor_id := none, amount := none, payment_date := some "2024-01-01", notes := none }

/-- A deal on unit 1 without plots, using a quantity of 2. -/
def legacyDeal : DealReq :=
  { inventory_id := some 1, inventory_ids := [], inventory_quantity_used := some 2,
    plot_ids := [], property_type := some "plot", dealer_id := none, row_accepted := true }

/-- A deal on unit 1 without plots, using a quantity of 1. -/
def legacyDealOne : DealReq :=
  { inventory_id := some 1, inventory_ids := [], inventory_quantity_used := some 1,
    plot_ids := [], property_type := some "plot", dealer_id := none, row_accepted := true }

/-- The state `demoState` after the administrator recorded `legacyDeal`: the
two units of quantity of unit 1 are used. -/
def legacyState : State :=
  (createDeal demoState admin1 legacyDeal).2

/-- A new unit of category `plot` with the two plot numbers `A1` and `A2`. -/
def unitReq : InventoryReq :=
  { category := some "plot", address := some "Main road", price := some 100000,
    quantity := some 2, plot_numbers := some " A1 ;A2\n" }

/-- A new unit of category `plot` with a quantity of 2 and no plot numbers. -/
def bareReq : InventoryReq :=
  { category := some "plot", address := some "Main road", price := some 100000,
    quantity := some 2, plot_numbers := none }

/-- A new unit with a quantity of 3 and two plot numbers. -/
def miscountReq : InventoryReq :=
  { category := some "plot", address := some "Main road", price := some 100000,
    quantity := some 3, plot_numbers := some "A1, A2" }

/-- As `rivalState`, but the two pending requests on unit 1 name different
plots: dealer 3 asks for plot 1, dealer 2 asks for plot 2. -/
def disjointState : State :=
  { rivalState with
      requests := [⟨1, 1, 3, .pending, none, some [1]⟩, ⟨2, 1, 2, .pending, none, some [2]⟩] }

/-! ## Auxiliary lemmas: investor funding ledger -/

theorem sqlEq_some_iff (x : Option Nat) (i : Nat) : sqlEq x (some i) = true ↔ x = some i := by
  cases x <;> simp [sqlEq]

theorem sqlEq_some_left (i : Nat) (x : Option Nat) : sqlEq (some i) x = true ↔ x = some i := by
  cases x with
  | none => simp [sqlEq]
  | some j =>
    simp only [sqlEq, beq_iff_eq, Option.some.injEq]
    exact eq_comm

/-- A failed check loop answers with the first refusal. -/
theorem checkInvestors_isSome_of_exceeds (s : State) (user : User)
    (hrole : user.role ≠ Role.admin) (e : InvestorEntry) :
    ∀ entries : List InvestorEntry, e ∈ entries →
      (∀ row ∈ investorCheck s e.investor_id user.id,
        e.amount > row.total_invested - usedBalance s e.investor_id) →
      ∃ code, checkInvestors s user entries = some code := by
  intro entries
  induction entries with
  | nil => intro h; cases h
  | cons x rest ih =>
    intro hmem hex
    simp only [checkInvestors, hrole, ne_eq, not_false_eq_true, if_true]
    cases hx : investorCheck s x.investor_id user.id with
    | nil => exact ⟨403, rfl⟩
    | cons row more =>
      simp only []
      by_cases hgt : x.amount > row.total_invested - usedBalance s x.investor_id
      · exact ⟨400, by simp [hgt]⟩
      · simp only [hgt, if_false]
        rcases List.mem_cons.mp hmem with h | h
        · subst h
          exact absurd (hex row (by rw [hx]; exact List.mem_cons_self _ _)) hgt
        · exact ih h hex

theorem recordPayment_fail_of_check (s : State) (user : User) (r : PaymentReq)
    (entries : List InvestorEntry) (code : Nat)
    (hentries : investorPayments r = some entries)
    (hcheck : checkInvestors s user entries = some code) :
    ∃ c, recordPayment s user r = (Reply.fail c, s) := by
  unfold recordPayment
  split
  · exact ⟨400, rfl⟩
  · simp only [hentries]
    split
    · exact ⟨400, rfl⟩
    · split
      · exact ⟨_, rfl⟩
      · simp only [hcheck]
        exact ⟨_, rfl⟩

theorem creditInvestor_payments (s : State) (x : Option Nat) (a : Int) :
    (creditInvestor s x a).payments = s.payments := by
  unfold creditInvestor
  split <;> rfl

theorem creditInvestor_frame (s : State) (x : Option Nat) (a : Int) :
    (creditInvestor s x a).plots = s.plots ∧ (creditInvestor s x a).inventory = s.inventory := by
  unfold creditInvestor
  split <;> exact ⟨rfl, rfl⟩

theorem usedBalance_congr {s t : State} (h : t.payments = s.payments) (x : Option Nat) :
    usedBalance t x = usedBalance s x := by
  simp [usedBalance, h]

theorem usedBalance_append (s : State) (row : InventoryPayment) (x : Option Nat) :
    usedBalance (appendPayment s row) x
      = usedBalance s x + (if sqlEq row.investor_id x = true then row.amount else 0) := by
  simp only [usedBalance, appendPayment, List.filter_append, List.map_append, List.sum_append,
    List.filter_cons, List.filter_nil]
  split <;> simp

theorem insertPayments_usedBalance (user : User) (inventoryId : Nat) (plotId : Option Nat)
    (date : String) (notes : Option String) (x : Option Nat) :
    ∀ (entries : List InvestorEntry) (s : State) (created : List InventoryPayment)
      (s' : State) (created' : List InventoryPayment),
      insertPayments user inventoryId plotId date notes entries s created = (true, s', created') →
      usedBalance s' x = usedBalance s x + debited entries x := by
  intro entries
  induction entries with
  | nil =>
    intro s created s' created' h
    simp only [insertPayments, Prod.mk.injEq, true_and] at h
    rw [← h.1]; simp [debited]
  | cons e rest ih =>
    intro s created s' created' h
    simp only [insertPayments] at h
    split at h
    · have := ih _ _ _ _ h
      rw [this, usedBalance_congr (creditInvestor_payments _ _ _), usedBalance_append]
      simp only [debited, List.filter_cons]
      by_cases hq : sqlEq e.investor_id x = true
      · simp [hq]; ring
      · simp [hq]
    · simp at h

/-- What a successful `recordPayment` went through. -/
theorem recordPayment_ok_inv {s s' : State} {user : User} {r : PaymentReq} {code : Nat}
    {body : List InventoryPayment × Int}
    (h : recordPayment s user r = (Reply.ok code body, s')) :
    ∃ entries s1 created,
      truthyId r.inventory_id = true ∧ truthyStr r.payment_date = true
      ∧ investorPayments r = some entries ∧ 0 < totalAmountDouble entries
      ∧ checkTarget s user (r.inventory_id.getD 0) r.plot_id = none
      ∧ checkInvestors s user entries = none
      ∧ insertPayments user (r.inventory_id.getD 0) (orNull r.plot_id)
          (r.payment_date.getD "") (orNullStr r.notes) entries s [] = (true, s1, created)
      ∧ s' = promote s1 (r.inventory_id.getD 0) r.plot_id
      ∧ code = 201 ∧ body = (created, totalAmount entries) := by
  by_cases h0 : (!truthyId r.inventory_id || !truthyStr r.payment_date) = true
  · simp [recordPayment, h0] at h
  · cases hentries : investorPayments r with
    | none => simp [recordPayment, h0, hentries] at h
    | some entries =>
      by_cases htot : totalAmountDouble entries ≤ 0
      · simp [recordPayment, h0, hentries, htot] at h
      · cases htarget : checkTarget s user (r.inventory_id.getD 0) r.plot_id with
        | some c => simp [recordPayment, h0, hentries, htot, htarget] at h
        | none =>
          cases hcheck : checkInvestors s user entries with
          | some c => simp [recordPayment, h0, hentries, htot, htarget, hcheck] at h
          | none =>
            rcases hins : insertPayments user (r.inventory_id.getD 0) (orNull r.plot_id)
              (r.payment_date.getD "") (orNullStr r.notes) entries s [] with ⟨fin, s1, created⟩
            cases fin with
            | false => simp [recordPayment, h0, hentries, htot, htarget, hcheck, hins] at h
            | true =>
              simp only [recordPayment, h0, hentries, htot, htarget, hcheck, hins, if_false,
                Bool.false_eq_true, Prod.mk.injEq, Reply.ok.injEq] at h
              simp only [Bool.or_eq_true, Bool.not_eq_true', not_or, Bool.not_eq_false] at h0
              exact ⟨entries, s1, created, h0.1, h0.2, rfl, by omega, rfl, hcheck,
                hins, h.2.symm, h.1.1.symm, h.1.2.symm⟩

theorem checkInvestors_none (s : State) (user : User) (hrole : user.role ≠ Role.admin) :
    ∀ entries : List InvestorEntry, checkInvestors s user entries = none →
      ∀ e ∈ entries, ∃ row rest, investorCheck s e.investor_id user.id = row :: rest
        ∧ e.amount ≤ row.total_invested - usedBalance s e.investor_id := by
  intro entries
  induction entries with
  | nil => intro _ e he; cases he
  | cons x rest ih =>
    intro h e he
    simp only [checkInvestors, hrole, ne_eq, not_false_eq_true, if_true] at h
    split at h
    · simp at h
    · rename_i row more hx
      split at h
      · simp at h
      · rename_i hle
        rcases List.mem_cons.mp he with h1 | h1
        · subst h1
          exact ⟨row, more, hx, by omega⟩
        · exact ih h e h1

theorem promote_payments (s : State) (i : Nat) (p : Option Nat) :
    (promote s i p).payments = s.payments := by
  unfold promote
  split <;> split <;> try rfl
  all_goals split <;> rfl

theorem promote_investors (s : State) (i : Nat) (p : Option Nat) :
    (promote s i p).investors = s.investors := by
  unfold promote
  split <;> split <;> try rfl
  all_goals split <;> rfl

theorem debited_of_nodup (i : Nat) (e : InvestorEntry) :
    ∀ entries : List InvestorEntry, (entries.map (·.investor_id)).Nodup → e ∈ entries →
      e.investor_id = some i → debited entries (some i) = e.amount := by
  intro entries
  induction entries with
  | nil => intro _ he; cases he
  | cons x rest ih =>
    intro hnd he hid
    simp only [List.map_cons, List.nodup_cons, List.mem_map, not_exists, not_and] at hnd
    rcases List.mem_cons.mp he with h | h
    · subst h
      have h0 : debited rest (some i) = 0 := by
        have : rest.filter (fun e => sqlEq e.investor_id (some i)) = [] := by
          rw [List.filter_eq_nil_iff]
          intro a ha hq
          rw [sqlEq_some_iff] at hq
          exact hnd.1 a ha (by rw [hq, hid])
        simp [debited, this]
      have hq : sqlEq e.investor_id (some i) = true := (sqlEq_some_iff _ _).mpr hid
      simp only [debited, List.filter_cons, hq, if_true, List.map_cons, List.sum_cons] at h0 ⊢
      omega
    · have hne : ¬ sqlEq x.investor_id (some i) = true := by
        rw [sqlEq_some_iff]
        intro hx
        exact hnd.1 e h (by rw [hx, hid])
      have := ih hnd.2 h hid
      simp only [debited, List.filter_cons, hne, if_false] at this ⊢
      exact this

theorem investorCheck_eq_of_keys {s : State} {inv : Investor} {x : Option Nat} {uid : Nat}
    (hkeys : (s.investors.map (·.id)).Nodup) (hinv : inv ∈ s.investors)
    (hid : x = some inv.id) {row : Investor} (hrow : row ∈ investorCheck s x uid) :
    row = inv := by
  simp only [investorCheck, List.mem_filter, Bool.and_eq_true] at hrow
  obtain ⟨hmem, hq, -⟩ := hrow
  rw [hid, sqlEq_some_iff] at hq
  exact List.inj_on_of_nodup_map hkeys hmem hinv (by simpa using hq)

theorem setInvestorBalance_ids (l : List Investor) (x : Option Nat) (p q : Int) :
    (setInvestorBalance l x p q).map (·.id) = l.map (·.id) := by
  simp only [setInvestorBalance, List.map_map]
  apply List.map_congr_left
  intro a _
  simp only [Function.comp]
  split <;> rfl

/-- Rewriting the cache of investor `x` from the first row with that key. -/
theorem synced_setInvestorBalance (l : List Investor) (x : Option Nat) (i : Nat)
    (first : Investor) (more : List Investor) (paid used used' : Int)
    (hkeys : (l.map (·.id)).Nodup)
    (hfirst : l.filter (fun r => sqlEq (some r.id) x) = first :: more)
    (hold : ∀ row ∈ l, row.id = i →
      row.paid_amount = used ∧ row.remaining_balance = row.total_invested - used)
    (hsame : x ≠ some i → used' = used)
    (hnew : x = some i → paid = used') :
    ∀ row ∈ setInvestorBalance l x paid (first.total_invested - paid), row.id = i →
      row.paid_amount = used' ∧ row.remaining_balance = row.total_invested - used' := by
  intro row hrow hid
  simp only [setInvestorBalance, List.mem_map] at hrow
  obtain ⟨r, hr, hrr⟩ := hrow
  have hfm : first ∈ l.filter (fun r => sqlEq (some r.id) x) := by
    rw [hfirst]; exact List.mem_cons_self _ _
  simp only [List.mem_filter, sqlEq_some_left] at hfm
  by_cases hx : x = some i
  · have hrid : r.id = i := by
      split at hrr <;> (rw [← hrr] at hid; simpa using hid)
    have hq : sqlEq (some r.id) x = true := by rw [sqlEq_some_left, hx, hrid]
    rw [if_pos hq] at hrr
    have hfr : first = r := List.inj_on_of_nodup_map hkeys hfm.1 hr (by
      have := hfm.2; rw [hx] at this; simp at this; omega)
    rw [← hrr, hfr]
    simp [hnew hx]
  · have hrid : r.id = i := by
      split at hrr <;> (rw [← hrr] at hid; simpa using hid)
    have hq : ¬ sqlEq (some r.id) x = true := by
      rw [sqlEq_some_left, hrid]; exact hx
    rw [if_neg hq] at hrr
    rw [← hrr, hsame hx]
    exact hold r hr hrid

theorem creditInvestor_ids (s : State) (x : Option Nat) (a : Int) :
    (creditInvestor s x a).investors.map (·.id) = s.investors.map (·.id) := by
  unfold creditInvestor
  split
  · rfl
  · exact setInvestorBalance_ids _ _ _ _

/-- One round of the insert loop keeps investor `i` in step with the ledger. -/
theorem synced_insert_step (s : State) (row : InventoryPayment) (i : Nat)
    (hkeys : (s.investors.map (·.id)).Nodup) (hsync : SyncedAt s i) :
    SyncedAt (creditInvestor (appendPayment s row) row.investor_id row.amount) i := by
  have hused := usedBalance_append s row (some i)
  intro r hr hid
  have hu : usedBalance (creditInvestor (appendPayment s row) row.investor_id row.amount) (some i)
      = usedBalance s (some i) + (if sqlEq row.investor_id (some i) = true then row.amount else 0) := by
    rw [← hused]
    simp only [usedBalance, creditInvestor_payments]
  rw [hu]
  unfold creditInvestor at hr
  split at hr
  · rename_i hnil
    simp only [appendPayment] at hr hnil
    have hne : ¬ sqlEq row.investor_id (some i) = true := by
      intro hq
      rw [sqlEq_some_iff] at hq
      rw [List.filter_eq_nil_iff] at hnil
      exact hnil r hr (by rw [sqlEq_some_left, hq, hid])
    rw [if_neg hne, add_zero]
    exact hsync r hr hid
  · rename_i first more hfirst
    simp only [appendPayment] at hr hfirst
    have hfm : first ∈ s.investors.filter (fun r => sqlEq (some r.id) row.investor_id) := by
      rw [hfirst]; exact List.mem_cons_self _ _
    simp only [List.mem_filter, sqlEq_some_left] at hfm
    refine synced_setInvestorBalance s.investors row.investor_id i first more
      (first.paid_amount + row.amount) (usedBalance s (some i)) _ hkeys hfirst hsync ?_ ?_ r hr hid
    · intro hx
      have : ¬ sqlEq row.investor_id (some i) = true := by rw [sqlEq_some_iff]; exact hx
      simp [this]
    · intro hx
      have hq : sqlEq row.investor_id (some i) = true := by rw [sqlEq_some_iff]; exact hx
      have hfi : first.id = i := by
        have := hfm.2; rw [hx] at this; simpa using this.symm
      simp only [hq, if_true]
      rw [(hsync first hfm.1 hfi).1]

theorem insertPayments_synced (user : User) (inventoryId : Nat) (plotId : Option Nat)
    (date : String) (notes : Option String) (i : Nat) :
    ∀ (entries : List InvestorEntry) (s : State) (created : List InventoryPayment)
      (fin : Bool) (s' : State) (created' : List InventoryPayment),
      (s.investors.map (·.id)).Nodup → SyncedAt s i →
      insertPayments user inventoryId plotId date notes entries s created = (fin, s', created') →
      SyncedAt s' i := by
  intro entries
  induction entries with
  | nil =>
    intro s created fin s' created' _ hsync h
    simp only [insertPayments, Prod.mk.injEq] at h
    rw [← h.2.1]; exact hsync
  | cons e rest ih =>
    intro s created fin s' created' hkeys hsync h
    simp only [insertPayments] at h
    split at h
    · refine ih _ _ _ _ _ ?_ ?_ h
      · rw [creditInvestor_ids]; exact hkeys
      · exact synced_insert_step s _ i hkeys hsync
    · simp only [Prod.mk.injEq] at h
      rw [← h.2.1]; exact hsync

theorem promote_synced (s : State) (inv : Nat) (p : Option Nat) (i : Nat)
    (h : SyncedAt s i) : SyncedAt (promote s inv p) i := by
  unfold promote
  split <;> split <;> try exact h
  all_goals split <;> exact h

theorem visibleTo_id {user : User} {pid : Nat} {p : InventoryPayment}
    (h : visibleTo user pid p = true) : p.id = pid := by
  unfold visibleTo at h
  split at h <;> simp_all

theorem sum_filter_split (q v : InventoryPayment → Bool) (l : List InventoryPayment) :
    ((l.filter q).map (·.amount)).sum
      = (((l.filter v).filter q).map (·.amount)).sum
        + (((l.filter (fun p => !v p)).filter q).map (·.amount)).sum := by
  induction l with
  | nil => simp
  | cons a rest ih =>
    by_cases hv : v a = true <;> by_cases hq : q a = true <;>
      simp [List.filter_cons, hv, hq, ih] <;> ring

theorem filter_key_singleton (l : List InventoryPayment) (v : InventoryPayment → Bool)
    (pid : Nat) (payment : InventoryPayment) (rest : List InventoryPayment)
    (hkeys : (l.map (·.id)).Nodup) (hv : ∀ p, v p = true → p.id = pid)
    (h : l.filter v = payment :: rest) : rest = [] := by
  have hnd : (l.filter v).Nodup := (List.Nodup.of_map _ hkeys).filter _
  rw [h] at hnd
  cases rest with
  | nil => rfl
  | cons y ys =>
    exfalso
    have hp : payment ∈ l.filter v := by rw [h]; exact List.mem_cons_self _ _
    have hy : y ∈ l.filter v := by rw [h]; simp
    rw [List.mem_filter] at hp hy
    have : payment = y := List.inj_on_of_nodup_map hkeys hp.1 hy.1 (by
      show payment.id = y.id
      rw [hv _ hp.2, hv _ hy.2])
    rw [this] at hnd
    simp at hnd

theorem deletePayment_ok_inv {s s' : State} {user : User} {pid : Nat} {code : Nat}
    (h : deletePayment s user pid = (Reply.ok code (), s')) :
    ∃ payment rest, s.payments.filter (visibleTo user pid) = payment :: rest
      ∧ code = 200
      ∧ s' = (if truthyId payment.investor_id then
          debitInvestor (removePayments s user pid) payment.investor_id payment.amount
        else removePayments s user pid) := by
  unfold deletePayment at h
  split at h
  · simp at h
  · rename_i payment rest hp
    refine ⟨payment, rest, hp, ?_⟩
    split at h
    · rename_i ht
      simp only [Prod.mk.injEq, Reply.ok.injEq] at h
      simp only [ht, if_true]
      exact ⟨h.1.1.symm, h.2.symm⟩
    · rename_i ht
      simp only [Prod.mk.injEq, Reply.ok.injEq] at h
      simp only [ht]
      exact ⟨h.1.1.symm, h.2.symm⟩

theorem usedBalance_removePayments (s : State) (user : User) (pid : Nat)
    (payment : InventoryPayment) (x : Option Nat)
    (h : s.payments.filter (visibleTo user pid) = [payment]) :
    usedBalance (removePayments s user pid) x
      = usedBalance s x - (if sqlEq payment.investor_id x = true then payment.amount else 0) := by
  have := sum_filter_split (fun p => sqlEq p.investor_id x) (visibleTo user pid) s.payments
  simp only [usedBalance, removePayments]
  rw [this, h]
  split <;> simp [List.filter_cons, *]

theorem debitInvestor_payments (s : State) (x : Option Nat) (a : Int) :
    (debitInvestor s x a).payments = s.payments := by
  unfold debitInvestor
  split <;> rfl

theorem truthyId_some {x : Option Nat} {i : Nat} (hi : i ≠ 0) (h : x = some i) :
    truthyId x = true := by
  subst h; simpa [truthyId] using hi

theorem deletePayment_synced (s s' : State) (user : User) (pid code i : Nat)
    (hkeys : (s.investors.map (·.id)).Nodup) (hpk : (s.payments.map (·.id)).Nodup)
    (hi : i ≠ 0) (hsync : SyncedAt s i)
    (hok : deletePayment s user pid = (Reply.ok code (), s'))
    (hnn : 0 ≤ usedBalance s' (some i)) : SyncedAt s' i := by
  obtain ⟨payment, rest, hp, -, hs'⟩ := deletePayment_ok_inv hok
  have hrest := filter_key_singleton s.payments _ pid payment rest hpk
    (fun p hv => visibleTo_id hv) hp
  subst hrest
  have hrem := usedBalance_removePayments s user pid payment (some i) hp
  by_cases ht : truthyId payment.investor_id = true
  · rw [if_pos ht] at hs'
    have hu : usedBalance s' (some i) = usedBalance (removePayments s user pid) (some i) := by
      rw [hs']; simp only [usedBalance, debitInvestor_payments]
    rw [hu] at hnn
    intro r hr hid
    rw [hu]
    rw [hs'] at hr
    unfold debitInvestor at hr
    split at hr
    · rename_i hnil
      simp only [removePayments] at hr hnil
      have hne : ¬ sqlEq payment.investor_id (some i) = true := by
        intro hq
        rw [sqlEq_some_iff] at hq
        rw [List.filter_eq_nil_iff] at hnil
        exact hnil r hr (by rw [sqlEq_some_left, hq, hid])
      rw [hrem, if_neg hne, sub_zero]
      exact hsync r hr hid
    · rename_i first more hfirst
      simp only [removePayments] at hr hfirst
      have hfm : first ∈ s.investors.filter (fun r => sqlEq (some r.id) payment.investor_id) := by
        rw [hfirst]; exact List.mem_cons_self _ _
      simp only [List.mem_filter, sqlEq_some_left] at hfm
      refine synced_setInvestorBalance s.investors payment.investor_id i first more
        (max 0 (first.paid_amount - payment.amount)) (usedBalance s (some i)) _ hkeys hfirst
        hsync ?_ ?_ r hr hid
      · intro hx
        have : ¬ sqlEq payment.investor_id (some i) = true := by rw [sqlEq_some_iff]; exact hx
        rw [hrem, if_neg this, sub_zero]
      · intro hx
        have hq : sqlEq payment.investor_id (some i) = true := by rw [sqlEq_some_iff]; exact hx
        have hfi : first.id = i := by
          have := hfm.2; rw [hx] at this; simpa using this.symm
        rw [hrem, if_pos hq] at hnn ⊢
        rw [(hsync first hfm.1 hfi).1]
        exact max_eq_right hnn
  · rw [if_neg ht] at hs'
    have hne : ¬ sqlEq payment.investor_id (some i) = true := by
      rw [sqlEq_some_iff]
      intro hx
      exact ht (truthyId_some hi hx)
    intro r hr hid
    rw [hs'] at hr ⊢
    rw [hrem, if_neg hne, sub_zero]
    exact hsync r hr hid

/-- With unique keys, the row read back under key `inv.id` is `inv`. -/
theorem filter_key_head {l : List Investor} {inv first : Investor} {more : List Investor}
    (hkeys : (l.map (·.id)).Nodup) (hinv : inv ∈ l)
    (h : l.filter (fun r => sqlEq (some r.id) (some inv.id)) = first :: more) : first = inv := by
  have hfm : first ∈ l.filter (fun r => sqlEq (some r.id) (some inv.id)) := by
    rw [h]; exact List.mem_cons_self _ _
  simp only [List.mem_filter, sqlEq_some_left, Option.some.injEq] at hfm
  exact List.inj_on_of_nodup_map hkeys hfm.1 hinv hfm.2.symm

theorem filter_key_ne_nil {l : List Investor} {inv : Investor} (hinv : inv ∈ l) :
    l.filter (fun r => sqlEq (some r.id) (some inv.id)) ≠ [] := by
  intro h
  rw [List.filter_eq_nil_iff] at h
  exact h inv hinv (by simp [sqlEq])

/-- Crediting then debiting the same amount under unique keys. -/
theorem setInvestorBalance_round (l : List Investor) (inv : Investor) (p q : Int)
    (hkeys : (l.map (·.id)).Nodup) (hinv : inv ∈ l) :
    setInvestorBalance (setInvestorBalance l (some inv.id) p q) (some inv.id)
      inv.paid_amount inv.remaining_balance = l := by
  simp only [setInvestorBalance, List.map_map]
  conv_rhs => rw [← List.map_id l]
  apply List.map_congr_left
  intro r hr
  simp only [Function.comp, id]
  by_cases hq : sqlEq (some r.id) (some inv.id) = true
  · have hid : r.id = inv.id := by simpa [sqlEq] using hq
    have : r = inv := List.inj_on_of_nodup_map hkeys hr hinv hid
    subst this
    simp [hq]
  · simp [hq]

theorem insertPayments_single {user : User} {inventoryId : Nat} {plotId : Option Nat}
    {date : String} {notes : Option String} {e : InvestorEntry} {s s' : State}
    {created : List InventoryPayment}
    (h : insertPayments user inventoryId plotId date notes [e] s [] = (true, s', created)) :
    ∃ row : InventoryPayment, row.id = s.nextPaymentId ∧ row.investor_id = e.investor_id
      ∧ row.amount = e.amount ∧ created = [row]
      ∧ s' = creditInvestor (appendPayment s row) e.investor_id e.amount := by
  simp only [insertPayments] at h
  split at h
  · simp only [List.nil_append, Prod.mk.injEq, true_and] at h
    exact ⟨_, rfl, rfl, rfl, h.2.symm, h.1.symm⟩
  · simp at h

/-! ## Auxiliary lemmas: plot allocation, requests and promotion -/

theorem promoteUnit_plots (s : State) (i : Nat) : (promoteUnit s i).plots = s.plots := by
  unfold promoteUnit
  split <;> rfl

theorem promoteUnit_requests (s : State) (i : Nat) :
    (promoteUnit s i).requests = s.requests := by
  unfold promoteUnit
  split <;> rfl

theorem assignPlotRows_nil (l : List Plot) (sp : Nat) : assignPlotRows l sp [] = l := by
  simp [assignPlotRows]

theorem assignSelected_fail_of_unavailable (s : State) (inventoryId sp : Nat)
    (inventory : Inventory) (r : AssignReq) (p : Plot)
    (hp : p ∈ s.plots) (hid : p.id ∈ r.plot_ids)
    (hunit : p.inventory_id = inventoryId) (hst : p.status ≠ PlotStatus.available) :
    assignSelected s inventoryId sp inventory r = (Reply.fail 400, s) := by
  unfold assignSelected
  simp only []
  split
  · rfl
  · have : (plotCheck s r.plot_ids inventoryId).filter
        (fun p => p.status != PlotStatus.available) ≠ [] := by
      intro hnil
      rw [List.filter_eq_nil_iff] at hnil
      refine hnil p ?_ (by simpa using hst)
      simp only [plotCheck, List.mem_filter, Bool.and_eq_true, beq_iff_eq]
      exact ⟨hp, by simpa using hid, hunit⟩
    rw [if_pos this]

theorem assignSelected_ok_plots {s s' : State} {inventoryId sp : Nat} {inventory : Inventory}
    {r : AssignReq} {code : Nat} {body : AssignBody}
    (h : assignSelected s inventoryId sp inventory r = (Reply.ok code body, s')) :
    s'.plots = assignPlotRows s.plots sp r.plot_ids := by
  unfold assignSelected at h
  simp only [] at h
  split at h
  · simp at h
  split at h
  · simp at h
  · simp only [Prod.mk.injEq] at h
    rw [← h.2, promoteUnit_plots]
    rfl

/-- The plot table after a successful `assignPlots`. -/
theorem assignPlots_ok_plots {s s' : State} {user : User} {inventoryId : Nat} {r : AssignReq}
    {code : Nat} {body : AssignBody}
    (h : assignPlots s user inventoryId r = (Reply.ok code body, s')) :
    ∃ sp, r.salesperson_id = some sp ∧ s'.plots = assignPlotRows s.plots sp r.plot_ids := by
  unfold assignPlots at h
  split at h
  · simp at h
  split at h
  · simp at h
  rename_i hsp
  simp only [] at h
  split at h
  · simp at h
  split at h
  · simp at h
  have hsome : r.salesperson_id = some (r.salesperson_id.getD 0) := by
    cases hx : r.salesperson_id with
    | none => simp [hx, truthyId] at hsp
    | some v => rfl
  refine ⟨r.salesperson_id.getD 0, hsome, ?_⟩
  split at h
  · exact assignSelected_ok_plots h
  · rename_i hnil
    simp only [ne_eq, not_not] at hnil
    simp only [assignWhole, Prod.mk.injEq] at h
    rw [← h.2, hnil, assignPlotRows_nil]

theorem approveAssign_requests (s : State) (request : Request) (inventory : Inventory) :
    (approveAssign s request inventory).requests = s.requests := by
  unfold approveAssign
  split
  · simp only [promoteUnit_requests, insertAssignment]
  · rfl

theorem approveAssign_plots (s : State) (request : Request) (inventory : Inventory)
    (x : Nat) (xs : List Nat) (h : request.requested_plot_ids = some (x :: xs)) :
    (approveAssign s request inventory).plots
      = assignPlotRows s.plots request.salesperson_id (x :: xs) := by
  unfold approveAssign
  rw [h]
  simp only [promoteUnit_plots, insertAssignment]

/-- What a successful `approveRequest` went through. -/
theorem approveRequest_ok_inv {s s' : State} {user : User} {rid : Nat}
    {notes : Option String} {code : Nat}
    (h : approveRequest s user rid notes = (Reply.ok code (), s')) :
    ∃ request rest inventory more,
      s.requests.filter (fun q => q.id == rid) = request :: rest
      ∧ request.status = ReqStatus.pending
      ∧ s.inventory.filter (fun i => i.id == request.inventory_id
          && i.status == InvStatus.available) = inventory :: more
      ∧ s'.requests = rejectOthers
          (setRequestStatus s.requests rid ReqStatus.approved (orNullStr notes))
          request.inventory_id rid request.requested_plot_ids
      ∧ s'.plots = (approveAssign (markRequest s rid ReqStatus.approved (orNullStr notes))
          request inventory).plots := by
  unfold approveRequest at h
  split at h
  · simp at h
  split at h
  · simp at h
  rename_i request rest hreq
  split at h
  · simp at h
  rename_i hpend
  split at h
  · simp at h
  rename_i inventory more hinv
  simp only [Prod.mk.injEq] at h
  refine ⟨request, rest, inventory, more, hreq, by simpa using hpend, hinv, ?_, ?_⟩
  · rw [← h.2]
    simp only [approveAssign_requests, markRequest]
  · rw [← h.2]

theorem setRequestStatus_other (l : List Request) (rid : Nat) (st : ReqStatus)
    (notes : Option String) (k : Nat) (B : Request) (hk : l[k]? = some B) (hne : B.id ≠ rid) :
    (setRequestStatus l rid st notes)[k]? = some B := by
  simp only [setRequestStatus, List.getElem?_map, hk, Option.map_some']
  have : ¬ (B.id == rid) = true := by simpa using hne
  simp [this]

theorem totalAmount_eq_sum (l : List InvestorEntry) :
    totalAmount l = (l.map (·.amount)).sum := by
  have h : ∀ (l : List InvestorEntry) (acc : Int),
      l.foldl (fun sum inv => sum + inv.amount) acc = acc + (l.map (·.amount)).sum := by
    intro l
    induction l with
    | nil => intro acc; simp
    | cons a rest ih => intro acc; simp only [List.foldl_cons, ih, List.map_cons, List.sum_cons]; ring
  simpa [totalAmount] using h l 0

theorem insertPayments_frame (user : User) (inventoryId : Nat) (plotId : Option Nat)
    (date : String) (notes : Option String) :
    ∀ (entries : List InvestorEntry) (s : State) (created : List InventoryPayment)
      (fin : Bool) (s' : State) (created' : List InventoryPayment),
      insertPayments user inventoryId plotId date notes entries s created = (fin, s', created') →
      s'.plots = s.plots ∧ s'.inventory = s.inventory := by
  intro entries
  induction entries with
  | nil =>
    intro s created fin s' created' h
    simp only [insertPayments, Prod.mk.injEq] at h
    rw [← h.2.1]; exact ⟨rfl, rfl⟩
  | cons e rest ih =>
    intro s created fin s' created' h
    simp only [insertPayments] at h
    split at h
    · have := ih _ _ _ _ _ h
      rw [this.1, this.2, (creditInvestor_frame _ _ _).1, (creditInvestor_frame _ _ _).2]
      exact ⟨rfl, rfl⟩
    · simp only [Prod.mk.injEq] at h
      rw [← h.2.1]; exact ⟨rfl, rfl⟩

theorem plotPaid_append (s : State) (row : InventoryPayment) (y : Option Nat) :
    plotPaid (appendPayment s row) y
      = plotPaid s y + (if sqlEq row.plot_id y = true then row.amount else 0) := by
  simp only [plotPaid, appendPayment, List.filter_append, List.map_append, List.sum_append,
    List.filter_cons, List.filter_nil]
  split <;> simp

theorem insertPayments_plotPaid (user : User) (inventoryId pid : Nat)
    (date : String) (notes : Option String) :
    ∀ (entries : List InvestorEntry) (s : State) (created : List InventoryPayment)
      (s' : State) (created' : List InventoryPayment),
      insertPayments user inventoryId (some pid) date notes entries s created
        = (true, s', created') →
      plotPaid s' (some pid) = plotPaid s (some pid) + (entries.map (·.amount)).sum := by
  intro entries
  induction entries with
  | nil =>
    intro s created s' created' h
    simp only [insertPayments, Prod.mk.injEq, true_and] at h
    rw [← h.1]; simp
  | cons e rest ih =>
    intro s created s' created' h
    simp only [insertPayments] at h
    split at h
    · have := ih _ _ _ _ h
      rw [this]
      have hc : ∀ t : State, ∀ x a, plotPaid (creditInvestor t x a) (some pid)
          = plotPaid t (some pid) := by
        intro t x a
        simp only [plotPaid, creditInvestor_payments]
      rw [hc, plotPaid_append]
      simp [sqlEq]
      ring
    · simp at h

/-- With unique keys, the unit row read back under key `u.id` is `u`. -/
theorem inventory_key_head {l : List Inventory} {u first : Inventory} {more : List Inventory}
    {k : Nat} (hkeys : (l.map (·.id)).Nodup) (hu : u ∈ l) (hk : u.id = k)
    (h : l.filter (fun i => i.id == k) = first :: more) : first = u := by
  have hfm : first ∈ l.filter (fun i => i.id == k) := by
    rw [h]; exact List.mem_cons_self _ _
  simp only [List.mem_filter, beq_iff_eq] at hfm
  exact List.inj_on_of_nodup_map hkeys hfm.1 hu (by show first.id = u.id; rw [hfm.2, hk])

/-! ## Auxiliary lemmas: assignment amounts, approval, creation, rejection -/

/-- The assignment row written by `assignSelected`. -/
theorem assignSelected_ok_inv {s s' : State} {inventoryId sp : Nat} {inventory : Inventory}
    {r : AssignReq} {code : Nat} {body : AssignBody}
    (h : assignSelected s inventoryId sp inventory r = (Reply.ok code body, s')) :
    (plotCheck s r.plot_ids inventoryId).length = r.plot_ids.length
    ∧ (plotCheck s r.plot_ids inventoryId).filter (fun p => p.status != PlotStatus.available) = []
    ∧ code = 200
    ∧ body = AssignBody.plots
        ⟨s.nextAssignmentId, inventoryId, sp, r.plot_ids.length,
          (r.plot_ids.length : Int) * inventory.price, r.amount_paid.getD 0, orNullStr r.notes⟩
        r.plot_ids.length ((r.plot_ids.length : Int) * inventory.price) (r.amount_paid.getD 0)
        ((r.plot_ids.length : Int) * inventory.price - r.amount_paid.getD 0)
    ∧ s'.assignments = s.assignments ++
        [⟨s.nextAssignmentId, inventoryId, sp, r.plot_ids.length,
          (r.plot_ids.length : Int) * inventory.price, r.amount_paid.getD 0, orNullStr r.notes⟩]
    ∧ s'.inventory = (if remainingPlots s' inventoryId = 0 then
        setInventoryStatus s.inventory inventoryId InvStatus.assigned else s.inventory) := by
  unfold assignSelected at h
  simp only [] at h
  split at h
  · simp at h
  rename_i hlen
  split at h
  · simp at h
  rename_i hav
  simp only [Prod.mk.injEq, Reply.ok.injEq] at h
  obtain ⟨⟨hcode, hbody⟩, hs'⟩ := h
  refine ⟨by simpa using hlen, by simpa using hav, hcode.symm, hbody.symm, ?_, ?_⟩
  · rw [← hs']
    unfold promoteUnit
    split <;> rfl
  · have hrem : remainingPlots s' inventoryId = remainingPlots
        { (insertAssignment s inventoryId sp r.plot_ids.length
            ((r.plot_ids.length : Int) * inventory.price) (r.amount_paid.getD 0)
            (orNullStr r.notes)).2 with
          plots := assignPlotRows (insertAssignment s inventoryId sp r.plot_ids.length
            ((r.plot_ids.length : Int) * inventory.price) (r.amount_paid.getD 0)
            (orNullStr r.notes)).2.plots sp r.plot_ids } inventoryId := by
      rw [← hs']
      simp only [remainingPlots, promoteUnit_plots]
    rw [hrem, ← hs']
    unfold promoteUnit
    split <;> rfl

/-- What a successful `assignPlots` with plot ids went through. -/
theorem assignPlots_ok_inv {s s' : State} {user : User} {inventoryId : Nat} {r : AssignReq}
    {code : Nat} {body : AssignBody} (hne : r.plot_ids ≠ [])
    (h : assignPlots s user inventoryId r = (Reply.ok code body, s')) :
    ∃ sp inventory rest, r.salesperson_id = some sp
      ∧ s.inventory.filter (fun i => i.id == inventoryId) = inventory :: rest
      ∧ assignSelected s inventoryId sp inventory r = (Reply.ok code body, s') := by
  unfold assignPlots at h
  split at h
  · simp at h
  split at h
  · simp at h
  rename_i hsp
  simp only [] at h
  split at h
  · simp at h
  split at h
  · simp at h
  rename_i inventory rest hinv
  have hsome : r.salesperson_id = some (r.salesperson_id.getD 0) := by
    cases hx : r.salesperson_id with
    | none => simp [hx, truthyId] at hsp
    | some v => rfl
  exact ⟨_, inventory, rest, hsome, hinv, h⟩

theorem setInventoryStatus_getElem? (l : List Inventory) (i : Nat) (st : InvStatus) (k : Nat)
    (u : Inventory) (hk : l[k]? = some u) :
    (setInventoryStatus l i st)[k]? = some (if u.id = i then { u with status := st } else u) := by
  simp only [setInventoryStatus, List.getElem?_map, hk, Option.map_some', beq_iff_eq]

theorem remainingPlots_eq_zero_iff (s : State) (i : Nat) :
    remainingPlots s i = 0 ↔
      ∀ p ∈ s.plots, p.inventory_id = i → p.status ≠ PlotStatus.available := by
  simp only [remainingPlots, List.length_eq_zero, List.filter_eq_nil_iff, Bool.and_eq_true,
    beq_iff_eq, not_and]

theorem promoteUnit_assignments (s : State) (i : Nat) :
    (promoteUnit s i).assignments = s.assignments := by
  unfold promoteUnit
  split <;> rfl

theorem promoteUnit_inventory (s : State) (i : Nat) :
    (promoteUnit s i).inventory = (if remainingPlots s i = 0 then
      setInventoryStatus s.inventory i InvStatus.assigned else s.inventory) := by
  unfold promoteUnit
  split <;> rfl

/-- The per-plot branch of `approveAssign`, table by table. -/
theorem approveAssign_selected (s : State) (request : Request) (inventory : Inventory)
    (x : Nat) (xs : List Nat) (h : request.requested_plot_ids = some (x :: xs)) :
    (approveAssign s request inventory).assignments = s.assignments ++
        [⟨s.nextAssignmentId, request.inventory_id, request.salesperson_id, (x :: xs).length,
          ((x :: xs).length : Int) * inventory.price, 0, none⟩]
    ∧ (approveAssign s request inventory).inventory
        = (if remainingPlots (approveAssign s request inventory) request.inventory_id = 0 then
            setInventoryStatus s.inventory request.inventory_id InvStatus.assigned
          else s.inventory) := by
  unfold approveAssign
  rw [h]
  simp only [promoteUnit_assignments, promoteUnit_inventory, insertAssignment, remainingPlots,
    promoteUnit_plots]
  trivial

/-- The tables other than `requests` after a successful `approveRequest`. -/
theorem approveRequest_ok_tables {s s' : State} {user : User} {rid : Nat}
    {notes : Option String} {code : Nat}
    (h : approveRequest s user rid notes = (Reply.ok code (), s')) :
    ∃ request rest inventory more,
      s.requests.filter (fun q => q.id == rid) = request :: rest
      ∧ s.inventory.filter (fun i => i.id == request.inventory_id
          && i.status == InvStatus.available) = inventory :: more
      ∧ s'.assignments = (approveAssign (markRequest s rid ReqStatus.approved (orNullStr notes))
          request inventory).assignments
      ∧ s'.inventory = (approveAssign (markRequest s rid ReqStatus.approved (orNullStr notes))
          request inventory).inventory
      ∧ s'.plots = (approveAssign (markRequest s rid ReqStatus.approved (orNullStr notes))
          request inventory).plots := by
  unfold approveRequest at h
  split at h
  · simp at h
  split at h
  · simp at h
  rename_i request rest hreq
  split at h
  · simp at h
  split at h
  · simp at h
  rename_i inventory more hinv
  simp only [Prod.mk.injEq] at h
  refine ⟨request, rest, inventory, more, hreq, hinv, ?_, ?_, ?_⟩ <;> rw [← h.2]

/-- With unique keys, the available unit row read back under key `u.id` is `u`. -/
theorem inventory_available_head {l : List Inventory} {u first : Inventory}
    {more : List Inventory} {k : Nat} (hkeys : (l.map (·.id)).Nodup) (hu : u ∈ l)
    (hk : u.id = k)
    (h : l.filter (fun i => i.id == k && i.status == InvStatus.available) = first :: more) :
    first = u := by
  have hfm : first ∈ l.filter (fun i => i.id == k && i.status == InvStatus.available) := by
    rw [h]; exact List.mem_cons_self _ _
  simp only [List.mem_filter, Bool.and_eq_true, beq_iff_eq] at hfm
  exact List.inj_on_of_nodup_map hkeys hfm.1 hu (by show first.id = u.id; rw [hfm.2.1, hk])

theorem setRequestStatus_self (l : List Request) (rid : Nat) (st : ReqStatus)
    (notes : Option String) (k : Nat) (q : Request) (hk : l[k]? = some q) (hid : q.id = rid) :
    (setRequestStatus l rid st notes)[k]? = some { q with status := st, admin_notes := notes } := by
  simp only [setRequestStatus, List.getElem?_map, hk, Option.map_some']
  have : (q.id == rid) = true := by simpa using hid
  simp [this]

theorem rejectOthers_self (l : List Request) (inv rid : Nat) (ids : Option (List Nat))
    (k : Nat) (q : Request) (hk : l[k]? = some q) (hid : q.id = rid) :
    (rejectOthers l inv rid ids)[k]? = some q := by
  unfold rejectOthers
  split
  · simp only [List.getElem?_map, hk, Option.map_some', Option.some.injEq]
    rw [if_neg]
    intro hc
    simp only [Bool.and_eq_true, bne_iff_ne, ne_eq] at hc
    exact hc.1.1.2 hid
  · simp only [List.getElem?_map, hk, Option.map_some', Option.some.injEq]
    rw [if_neg]
    intro hc
    simp only [Bool.and_eq_true, bne_iff_ne, ne_eq] at hc
    exact hc.1.2 hid

/-- With unique plot keys, a requested id without a matching row makes the
number of rows found smaller than the number of ids asked for. -/
theorem filter_ids_length_lt (l : List Plot) (ids : List Nat) (q : Plot → Bool) (x : Nat)
    (hkeys : (l.map (·.id)).Nodup) (hx : x ∈ ids)
    (hmiss : ∀ p ∈ l, p.id = x → q p = false) :
    (l.filter (fun p => ids.contains p.id && q p)).length < ids.length := by
  have hnd : ((l.filter (fun p => ids.contains p.id && q p)).map (·.id)).Nodup :=
    List.Nodup.sublist ((List.filter_sublist l).map _) hkeys
  have hsub : (l.filter (fun p => ids.contains p.id && q p)).map (·.id) ⊆ ids.erase x := by
    intro y hy
    simp only [List.mem_map, List.mem_filter, Bool.and_eq_true] at hy
    obtain ⟨p, ⟨hp, hin, hq⟩, rfl⟩ := hy
    have hne : p.id ≠ x := by
      intro h
      rw [hmiss p hp h] at hq
      exact Bool.false_ne_true hq
    exact (List.mem_erase_of_ne hne).mpr (by simpa using hin)
  have hle := (List.subperm_of_subset hnd hsub).length_le
  rw [List.length_map, List.length_erase_of_mem hx] at hle
  have hpos : 0 < ids.length := List.length_pos_of_mem hx
  omega

theorem markRequest_frame (s : State) (rid : Nat) (st : ReqStatus) (notes : Option String) :
    { markRequest s rid st notes with requests := s.requests } = s := by
  rfl

/-- The handler `createRequest` in terms of its named pieces. -/
theorem createRequest_eq (s : State) (user : User) (r : CreateReq) :
    createRequest s user r =
      if user.role ≠ Role.dealer then (.fail 403, s)
      else if !truthyId r.inventory_id then (.fail 400, s)
      else if (s.inventory.filter (fun i => i.id == r.inventory_id.getD 0
            && i.status == InvStatus.available)).isEmpty then (.fail 400, s)
      else
        match createRefusal s user r (r.inventory_id.getD 0) with
        | some code => (.fail code, s)
        | none => (.ok 201 (requestRow s user r), appendRequest s (requestRow s user r)) := by
  rfl

theorem createRequest_fail_of_refusal (s : State) (user : User) (r : CreateReq) (code : Nat)
    (h : createRefusal s user r (r.inventory_id.getD 0) = some code) :
    ∃ c, createRequest s user r = (Reply.fail c, s) := by
  rw [createRequest_eq]
  split
  · exact ⟨_, rfl⟩
  split
  · exact ⟨_, rfl⟩
  split
  · exact ⟨_, rfl⟩
  rw [h]
  exact ⟨_, rfl⟩

theorem createRequest_ok_inv {s s' : State} {user : User} {r : CreateReq} {code : Nat}
    {row : Request} (h : createRequest s user r = (Reply.ok code row, s')) :
    user.role = Role.dealer ∧ createRefusal s user r (r.inventory_id.getD 0) = none
      ∧ code = 201 ∧ row = requestRow s user r ∧ s' = appendRequest s (requestRow s user r) := by
  rw [createRequest_eq] at h
  split at h
  · simp at h
  rename_i hrole
  split at h
  · simp at h
  split at h
  · simp at h
  split at h
  · simp at h
  · rename_i href
    simp only [Prod.mk.injEq, Reply.ok.injEq] at h
    exact ⟨by simpa using hrole, href, h.1.1.symm, h.1.2.symm, h.2.symm⟩

theorem allowed_refl (a : ReqStatus) : Allowed a a := Or.inl rfl

theorem allowed_trans {a b c : ReqStatus} (h1 : Allowed a b) (h2 : Allowed b c) :
    Allowed a c := by
  unfold Allowed at *
  rcases h1 with h1 | h1
  · rcases h2 with h2 | h2
    · left; rw [h2, h1]
    · right; rw [← h1]; exact h2
  · right; exact h1

theorem rowsEvolve_refl (l : List Request) : RowsEvolve l l :=
  fun _ q hk => ⟨q, hk, rfl, allowed_refl _⟩

theorem rowsEvolve_trans {l l' l'' : List Request} (h1 : RowsEvolve l l')
    (h2 : RowsEvolve l' l'') : RowsEvolve l l'' := by
  intro k q hk
  obtain ⟨q', hk', hid', ha'⟩ := h1 k q hk
  obtain ⟨q'', hk'', hid'', ha''⟩ := h2 k q' hk'
  exact ⟨q'', hk'', by rw [hid'', hid'], allowed_trans ha' ha''⟩

theorem rowsEvolve_append (l extra : List Request) : RowsEvolve l (l ++ extra) := by
  intro k q hk
  refine ⟨q, ?_, rfl, allowed_refl _⟩
  have hlt : k < l.length := by
    by_contra hge
    rw [List.getElem?_eq_none (by omega)] at hk
    cases hk
  rw [List.getElem?_append_left hlt]
  exact hk

/-- A row-wise rewrite that keeps the keys and only moves rows out of `pending`. -/
theorem rowsEvolve_map (l : List Request) (f : Request → Request)
    (hf : ∀ q ∈ l, (f q).id = q.id ∧ Allowed q.status (f q).status) :
    RowsEvolve l (l.map f) := by
  intro k q hk
  have hmem : q ∈ l := List.getElem?_mem hk
  exact ⟨f q, by simp [List.getElem?_map, hk], (hf q hmem).1, (hf q hmem).2⟩

theorem head_of_keys {l : List Request} {rid : Nat} {A q : Request} {rest : List Request}
    (hkeys : (l.map (·.id)).Nodup) (hA : l.filter (fun x => x.id == rid) = A :: rest)
    (hq : q ∈ l) (hid : q.id = rid) : q = A := by
  have hAm : A ∈ l.filter (fun x => x.id == rid) := by rw [hA]; exact List.mem_cons_self _ _
  simp only [List.mem_filter, beq_iff_eq] at hAm
  exact List.inj_on_of_nodup_map hkeys hq hAm.1 (by show q.id = A.id; rw [hid, hAm.2])

theorem setRequestStatus_ids (l : List Request) (rid : Nat) (st : ReqStatus)
    (notes : Option String) : (setRequestStatus l rid st notes).map (·.id) = l.map (·.id) := by
  simp only [setRequestStatus, List.map_map]
  apply List.map_congr_left
  intro a _
  simp only [Function.comp]
  split <;> rfl

theorem rejectOthers_ids (l : List Request) (inv rid : Nat) (ids : Option (List Nat)) :
    (rejectOthers l inv rid ids).map (·.id) = l.map (·.id) := by
  unfold rejectOthers
  split <;>
  · simp only [List.map_map]
    apply List.map_congr_left
    intro a _
    simp only [Function.comp]
    split <;> rfl

theorem setRequestStatus_evolve (l : List Request) (rid : Nat) (st : ReqStatus)
    (notes : Option String) (A : Request) (rest : List Request)
    (hkeys : (l.map (·.id)).Nodup) (hA : l.filter (fun x => x.id == rid) = A :: rest)
    (hpend : A.status = ReqStatus.pending) :
    RowsEvolve l (setRequestStatus l rid st notes) := by
  unfold setRequestStatus
  apply rowsEvolve_map
  intro q hq
  by_cases hid : q.id = rid
  · have := head_of_keys hkeys hA hq hid
    subst this
    have hb : (q.id == rid) = true := by simpa using hid
    rw [if_pos hb]
    exact ⟨rfl, Or.inr hpend⟩
  · have hb : ¬ (q.id == rid) = true := by simpa using hid
    rw [if_neg hb]
    exact ⟨rfl, allowed_refl _⟩

theorem rejectOthers_evolve (l : List Request) (inv rid : Nat) (ids : Option (List Nat)) :
    RowsEvolve l (rejectOthers l inv rid ids) := by
  unfold rejectOthers
  split <;>
  · apply rowsEvolve_map
    intro q _
    split
    · rename_i hc
      simp only [Bool.and_eq_true, beq_iff_eq] at hc
      first
        | exact ⟨rfl, Or.inr hc.1.2⟩
        | exact ⟨rfl, Or.inr hc.2⟩
    · exact ⟨rfl, allowed_refl _⟩

theorem promoteUnit_nextRequestId (s : State) (i : Nat) :
    (promoteUnit s i).nextRequestId = s.nextRequestId := by
  unfold promoteUnit
  split <;> rfl

theorem approveAssign_nextRequestId (s : State) (request : Request) (inventory : Inventory) :
    (approveAssign s request inventory).nextRequestId = s.nextRequestId := by
  unfold approveAssign
  split
  · simp only [promoteUnit_nextRequestId, insertAssignment]
  · rfl

/-- The request table after `approveRequest`, whatever the reply. -/
theorem approveRequest_requests (s : State) (user : User) (rid : Nat) (notes : Option String) :
    (approveRequest s user rid notes).2 = s
    ∨ ∃ A rest, s.requests.filter (fun q => q.id == rid) = A :: rest
        ∧ A.status = ReqStatus.pending
        ∧ (approveRequest s user rid notes).2.requests = rejectOthers
            (setRequestStatus s.requests rid ReqStatus.approved (orNullStr notes))
            A.inventory_id rid A.requested_plot_ids
        ∧ (approveRequest s user rid notes).2.nextRequestId = s.nextRequestId := by
  unfold approveRequest
  split
  · exact Or.inl rfl
  split
  · exact Or.inl rfl
  rename_i A rest hA
  split
  · exact Or.inl rfl
  rename_i hpend
  split
  · exact Or.inl rfl
  · refine Or.inr ⟨A, rest, hA, by simpa using hpend, ?_, ?_⟩
    · simp only [approveAssign_requests, markRequest]
    · simp only [approveAssign_nextRequestId, markRequest]

/-- The state after `rejectRequest`, whatever the reply. -/
theorem rejectRequest_state (s : State) (user : User) (rid : Nat) (notes : Option String) :
    (rejectRequest s user rid notes).2 = s
    ∨ ∃ A rest, s.requests.filter (fun q => q.id == rid) = A :: rest
        ∧ A.status = ReqStatus.pending
        ∧ (rejectRequest s user rid notes).2
            = markRequest s rid ReqStatus.rejected (orNullStr notes) := by
  unfold rejectRequest
  split
  · exact Or.inl rfl
  split
  · exact Or.inl rfl
  rename_i A rest hA
  split
  · exact Or.inl rfl
  · rename_i hpend
    exact Or.inr ⟨A, rest, hA, by simpa using hpend, rfl⟩

/-- The state after `createRequest`, whatever the reply. -/
theorem createRequest_state (s : State) (user : User) (r : CreateReq) :
    (createRequest s user r).2 = s
    ∨ (createRequest s user r).2 = appendRequest s (requestRow s user r) := by
  rw [createRequest_eq]
  split
  · exact Or.inl rfl
  split
  · exact Or.inl rfl
  split
  · exact Or.inl rfl
  split
  · exact Or.inl rfl
  · exact Or.inr rfl

/-- One call of the request workflow keeps the request keys in order and
changes statuses in allowed ways only. -/
theorem step_request (s : State) (o : Op) (ho : o.isRequestOp = true) (hkeys : ReqKeysOk s) :
    ReqKeysOk (step s o) ∧ RowsEvolve s.requests (step s o).requests := by
  cases o with
  | assign _ _ _ => simp [Op.isRequestOp] at ho
  | pay _ _ => simp [Op.isRequestOp] at ho
  | unpay _ _ => simp [Op.isRequestOp] at ho
  | deal _ _ => simp [Op.isRequestOp] at ho
  | request user r =>
    simp only [step]
    rcases createRequest_state s user r with h | h
    · rw [h]; exact ⟨hkeys, rowsEvolve_refl _⟩
    · rw [h]
      refine ⟨⟨?_, ?_⟩, rowsEvolve_append _ _⟩
      · simp only [appendRequest, List.map_append, List.map_cons, List.map_nil]
        rw [List.nodup_append]
        refine ⟨hkeys.1, List.nodup_singleton _, ?_⟩
        intro a ha hb
        simp only [List.mem_map] at ha
        obtain ⟨q, hq, rfl⟩ := ha
        simp only [requestRow, List.mem_singleton] at hb
        have := hkeys.2 q hq
        omega
      · intro q hq
        simp only [appendRequest, List.mem_append, List.mem_singleton] at hq ⊢
        rcases hq with hq | hq
        · have := hkeys.2 q hq
          omega
        · rw [hq]; simp [requestRow]
  | approve user rid notes =>
    simp only [step]
    rcases approveRequest_requests s user rid notes with h | ⟨A, rest, hA, hpend, hreq, hctr⟩
    · rw [h]; exact ⟨hkeys, rowsEvolve_refl _⟩
    · have hids : (approveRequest s user rid notes).2.requests.map (·.id)
          = s.requests.map (·.id) := by
        rw [hreq, rejectOthers_ids, setRequestStatus_ids]
      refine ⟨⟨by rw [hids]; exact hkeys.1, ?_⟩, ?_⟩
      · intro q hq
        rw [hctr]
        have : q.id ∈ (approveRequest s user rid notes).2.requests.map (·.id) :=
          List.mem_map_of_mem _ hq
        rw [hids, List.mem_map] at this
        obtain ⟨q0, hq0, hid0⟩ := this
        rw [← hid0]
        exact hkeys.2 q0 hq0
      · rw [hreq]
        exact rowsEvolve_trans (setRequestStatus_evolve s.requests rid _ _ A rest hkeys.1 hA hpend)
          (rejectOthers_evolve _ _ _ _)
  | reject user rid notes =>
    simp only [step]
    rcases rejectRequest_state s user rid notes with h | ⟨A, rest, hA, hpend, hst⟩
    · rw [h]; exact ⟨hkeys, rowsEvolve_refl _⟩
    · rw [hst]
      have hids : (markRequest s rid ReqStatus.rejected (orNullStr notes)).requests.map (·.id)
          = s.requests.map (·.id) := by
        simp only [markRequest, setRequestStatus_ids]
      refine ⟨⟨by rw [hids]; exact hkeys.1, ?_⟩, ?_⟩
      · intro q hq
        have : q.id ∈ (markRequest s rid ReqStatus.rejected (orNullStr notes)).requests.map
            (·.id) := List.mem_map_of_mem _ hq
        rw [hids, List.mem_map] at this
        obtain ⟨q0, hq0, hid0⟩ := this
        rw [← hid0]
        exact hkeys.2 q0 hq0
      · exact setRequestStatus_evolve s.requests rid _ _ A rest hkeys.1 hA hpend

theorem run_request (ops : List Op) :
    ∀ s : State, (∀ o ∈ ops, o.isRequestOp = true) → ReqKeysOk s →
      ReqKeysOk (run s ops) ∧ RowsEvolve s.requests (run s ops).requests := by
  induction ops with
  | nil => intro s _ hk; exact ⟨hk, rowsEvolve_refl _⟩
  | cons o rest ih =>
    intro s hops hk
    obtain ⟨hk1, he1⟩ := step_request s o (hops o (List.mem_cons_self _ _)) hk
    obtain ⟨hk2, he2⟩ := ih (step s o) (fun x hx => hops x (List.mem_cons_of_mem _ hx)) hk1
    exact ⟨hk2, rowsEvolve_trans he1 he2⟩

/-! ## Auxiliary lemmas: deal creation -/

theorem createDeal_fail_of_validate (s : State) (user : User) (r : DealReq) (code : Nat)
    (h : validateDeal s user r = .error code) :
    ∃ c, createDeal s user r = (Reply.fail c, s) := by
  unfold createDeal
  split
  · exact ⟨_, rfl⟩
  · rw [h]
    exact ⟨_, rfl⟩

/-- In per-plot mode a refusal of the plot validation is a refusal of the deal. -/
theorem validateDeal_plots_error (s : State) (user : User) (r : DealReq) (inv code : Nat)
    (hsel : inventoryIdsToProcess r = [inv]) (hne : r.plot_ids ≠ [])
    (h : checkDealPlots s user r.plot_ids [inv] = some code) :
    ∃ c, validateDeal s user r = .error c := by
  unfold validateDeal
  rw [hsel]
  simp only []
  split
  · exact ⟨_, rfl⟩
  split
  · exact ⟨_, rfl⟩
  · rw [h]
    exact ⟨_, rfl⟩

theorem dealPlotCheck_mem {s : State} {ids : List Nat} {inv : Nat} {p : Plot}
    (hp : p ∈ s.plots) (hid : p.id ∈ ids) (hunit : p.inventory_id = inv) :
    p ∈ dealPlotCheck s ids [inv] := by
  simp only [dealPlotCheck, List.mem_filter, Bool.and_eq_true]
  exact ⟨hp, by simpa using hid, by simp [hunit]⟩

theorem createDeal_plot_fails_a (s : State) (user : User) (r : DealReq) (inv x : Nat)
    (hsel : inventoryIdsToProcess r = [inv])
    (hkeys : (s.plots.map (·.id)).Nodup) (hx : x ∈ r.plot_ids)
    (hmiss : ∀ p ∈ s.plots, p.id = x → p.inventory_id ≠ inv) :
    ∃ code, createDeal s user r = (Reply.fail code, s) := by
  have hne : r.plot_ids ≠ [] := List.ne_nil_of_mem hx
  have hlt := filter_ids_length_lt s.plots r.plot_ids (fun p => [inv].contains p.inventory_id)
    x hkeys hx (by
      intro p hp hpx
      simpa using hmiss p hp hpx)
  have hlen : (dealPlotCheck s r.plot_ids [inv]).length ≠ r.plot_ids.length := Nat.ne_of_lt hlt
  obtain ⟨c, hc⟩ := validateDeal_plots_error s user r inv 400 hsel hne (by
    simp only [checkDealPlots, hlen, ne_eq, not_false_eq_true, if_true])
  exact createDeal_fail_of_validate s user r c hc

theorem createDeal_plot_fails_b (s : State) (user : User) (r : DealReq) (inv : Nat) (p : Plot)
    (hsel : inventoryIdsToProcess r = [inv])
    (hp : p ∈ s.plots) (hid : p.id ∈ r.plot_ids) (hunit : p.inventory_id = inv)
    (h1 : p.status ≠ PlotStatus.assigned) (h2 : p.status ≠ PlotStatus.paid) :
    ∃ code, createDeal s user r = (Reply.fail code, s) := by
  have hne : r.plot_ids ≠ [] := List.ne_nil_of_mem hid
  have hbad : (dealPlotCheck s r.plot_ids [inv]).filter (fun p => !(p.status == PlotStatus.assigned
      || p.status == PlotStatus.paid)) ≠ [] := by
    intro hnil
    rw [List.filter_eq_nil_iff] at hnil
    exact hnil p (dealPlotCheck_mem hp hid hunit) (by simp [h1, h2])
  have : ∃ code, checkDealPlots s user r.plot_ids [inv] = some code := by
    unfold checkDealPlots
    simp only []
    split
    · exact ⟨_, rfl⟩
    split
    · exact ⟨_, rfl⟩
    · exact ⟨_, rfl⟩
  obtain ⟨code, hcode⟩ := this
  obtain ⟨c, hc⟩ := validateDeal_plots_error s user r inv code hsel hne hcode
  exact createDeal_fail_of_validate s user r c hc

theorem createDeal_plot_fails_c (s : State) (user : User) (r : DealReq) (inv : Nat) (p : Plot)
    (hsel : inventoryIdsToProcess r = [inv]) (hrole : user.role = Role.dealer)
    (hp : p ∈ s.plots) (hid : p.id ∈ r.plot_ids) (hunit : p.inventory_id = inv)
    (hown : p.assigned_to ≠ some user.id) :
    ∃ code, createDeal s user r = (Reply.fail code, s) := by
  have hne : r.plot_ids ≠ [] := List.ne_nil_of_mem hid
  have hbad : (dealPlotCheck s r.plot_ids [inv]).filter (fun p => !truthyId p.assigned_to
      || p.assigned_to != some user.id) ≠ [] := by
    intro hnil
    rw [List.filter_eq_nil_iff] at hnil
    exact hnil p (dealPlotCheck_mem hp hid hunit) (by simp [hown])
  have : ∃ code, checkDealPlots s user r.plot_ids [inv] = some code := by
    unfold checkDealPlots
    simp only []
    split
    · exact ⟨_, rfl⟩
    · rw [if_pos]
      · exact ⟨_, rfl⟩
      · simp only [hrole, decide_True, Bool.true_and, Bool.not_eq_true', List.isEmpty_eq_false]
        exact hbad
  obtain ⟨code, hcode⟩ := this
  obtain ⟨c, hc⟩ := validateDeal_plots_error s user r inv code hsel hne hcode
  exact createDeal_fail_of_validate s user r c hc

/-- With unique keys, selecting by the key of `u` returns `u` alone. -/
theorem inventory_filter_singleton (l : List Inventory) (u : Inventory) (q : Inventory → Bool)
    (hkeys : (l.map (·.id)).Nodup) (hu : u ∈ l)
    (hq : ∀ i, q i = true ↔ i.id = u.id) : l.filter q = [u] := by
  induction l with
  | nil => cases hu
  | cons a rest ih =>
    simp only [List.map_cons, List.nodup_cons, List.mem_map, not_exists, not_and] at hkeys
    rcases List.mem_cons.mp hu with h | h
    · subst h
      have hnil : rest.filter q = [] := by
        rw [List.filter_eq_nil_iff]
        intro i hi hqi
        exact hkeys.1 i hi ((hq i).mp hqi)
      have hqu : q u = true := (hq u).mpr rfl
      rw [List.filter_cons, if_pos hqu, hnil]
    · have hqa : ¬ q a = true := by
        intro hqa
        exact hkeys.1 u h ((hq a).mp hqa).symm
      rw [List.filter_cons, if_neg hqa]
      exact ih hkeys.2 h

/-- With unique plot keys, a list without repetition whose ids all name plots
of the unit finds exactly as many rows as it has ids. -/
theorem dealPlotCheck_length (s : State) (ids : List Nat) (inv : Nat)
    (hkeys : (s.plots.map (·.id)).Nodup) (hnd : ids.Nodup)
    (hall : ∀ x ∈ ids, ∃ p ∈ s.plots, p.id = x ∧ p.inventory_id = inv) :
    (dealPlotCheck s ids [inv]).length = ids.length := by
  have hrows : ((dealPlotCheck s ids [inv]).map (·.id)).Nodup :=
    List.Nodup.sublist ((List.filter_sublist s.plots).map _) hkeys
  have hperm : List.Perm ((dealPlotCheck s ids [inv]).map (·.id)) ids := by
    rw [List.perm_ext_iff_of_nodup hrows hnd]
    intro a
    constructor
    · intro ha
      simp only [dealPlotCheck, List.mem_map, List.mem_filter, Bool.and_eq_true] at ha
      obtain ⟨p, ⟨-, hin, -⟩, rfl⟩ := ha
      simpa using hin
    · intro ha
      obtain ⟨p, hp, hid, hunit⟩ := hall a ha
      exact List.mem_map.mpr ⟨p, dealPlotCheck_mem hp (by rw [hid]; exact ha) hunit, hid⟩
  have := hperm.length_eq
  rwa [List.length_map] at this

theorem setPlotStatus_ids (l : List Plot) (x : Option Nat) (st : PlotStatus) :
    (setPlotStatus l x st).map (·.id) = l.map (·.id) := by
  simp only [setPlotStatus, List.map_map]
  apply List.map_congr_left
  intro a _
  simp only [Function.comp]
  split <;> rfl

/-- The junction loop runs to its end when the plots exist, the list has no
repetition and the deal has no junction row yet. -/
theorem insertDealPlots_complete (dealId : Nat) :
    ∀ (ids : List Nat) (s : State), ids.Nodup →
      (∀ x ∈ ids, ∃ p ∈ s.plots, p.id = x) →
      (∀ d ∈ s.dealPlots, d.deal_id = dealId → d.plot_id ∉ ids) →
      (insertDealPlots dealId ids s).1 = true := by
  intro ids
  induction ids with
  | nil => intro s _ _ _; rfl
  | cons x rest ih =>
    intro s hnd hex hnew
    simp only [List.nodup_cons] at hnd
    have hkeysok : dealPlotKeysOk s dealId x = true := by
      simp only [dealPlotKeysOk, Bool.and_eq_true, List.any_eq_true, beq_iff_eq,
        Bool.not_eq_true', List.any_eq_false, not_and]
      refine ⟨?_, ?_⟩
      · obtain ⟨p, hp, hid⟩ := hex x (List.mem_cons_self _ _)
        exact ⟨p, hp, hid⟩
      · intro d hd hdeal hplot
        exact hnew d hd hdeal (by rw [hplot]; exact List.mem_cons_self _ _)
    simp only [insertDealPlots, hkeysok, if_true]
    apply ih _ hnd.2
    · intro y hy
      obtain ⟨p, hp, hid⟩ := hex y (List.mem_cons_of_mem _ hy)
      have : y ∈ (setPlotStatus s.plots (some x) PlotStatus.used_in_deal).map (·.id) := by
        rw [setPlotStatus_ids]
        exact List.mem_map.mpr ⟨p, hp, hid⟩
      simp only [List.mem_map] at this
      obtain ⟨p', hp', hid'⟩ := this
      exact ⟨p', hp', hid'⟩
    · intro d hd hdeal
      simp only [consumePlot, appendDealPlot, List.mem_append, List.mem_singleton] at hd
      rcases hd with hd | hd
      · intro hin
        exact hnew d hd hdeal (List.mem_cons_of_mem _ hin)
      · rw [hd]
        exact hnd.1

/-- What a completed junction loop wrote. -/
theorem insertDealPlots_ok (dealId : Nat) :
    ∀ (ids : List Nat) (s s' : State), insertDealPlots dealId ids s = (true, s') →
      (∃ rows : List DealPlot, s'.dealPlots = s.dealPlots ++ rows
        ∧ rows.map (fun d => (d.deal_id, d.plot_id)) = ids.map (fun x => (dealId, x)))
      ∧ s'.plots = s.plots.map (fun p => if p.id ∈ ids then usedPlot p else p)
      ∧ ids.Nodup
      ∧ s'.deals = s.deals := by
  intro ids
  induction ids with
  | nil =>
    intro s s' h
    simp only [insertDealPlots, Prod.mk.injEq, true_and] at h
    subst h
    exact ⟨⟨[], by simp, rfl⟩, by simp, List.nodup_nil, rfl⟩
  | cons x rest ih =>
    intro s s' h
    simp only [insertDealPlots] at h
    split at h
    · rename_i hkeysok
      obtain ⟨⟨rows, hrows, hpairs⟩, hplots, hnd, hdeals⟩ := ih _ _ h
      refine ⟨⟨⟨s.nextDealPlotId, dealId, x⟩ :: rows, ?_, ?_⟩, ?_, ?_, ?_⟩
      · rw [hrows]
        simp [consumePlot, appendDealPlot]
      · simp [hpairs]
      · rw [hplots]
        simp only [consumePlot, appendDealPlot, setPlotStatus, List.map_map]
        apply List.map_congr_left
        intro p _
        simp only [Function.comp, sqlEq, beq_iff_eq, List.mem_cons]
        by_cases hpx : p.id = x
        · simp [hpx, usedPlot]
        · by_cases hpr : p.id ∈ rest
          · simp [hpx, hpr]
          · simp [hpx, hpr]
      · rw [List.nodup_cons]
        refine ⟨?_, hnd⟩
        intro hin
        -- the row just inserted blocks a second insertion of the same pair
        have hblock : ∀ (ids : List Nat) (t t' : State), x ∈ ids →
            (∃ d ∈ t.dealPlots, d.deal_id = dealId ∧ d.plot_id = x) →
            insertDealPlots dealId ids t = (true, t') → False := by
          intro ids
          induction ids with
          | nil => intro t t' hx; cases hx
          | cons y ys ihy =>
            intro t t' hx hd ht
            simp only [insertDealPlots] at ht
            split at ht
            · rename_i hok
              rcases List.mem_cons.mp hx with hxy | hxy
              · subst hxy
                obtain ⟨d, hd1, hd2, hd3⟩ := hd
                simp only [dealPlotKeysOk, Bool.and_eq_true, Bool.not_eq_true',
                  List.any_eq_false, beq_iff_eq, not_and] at hok
                exact hok.2 d hd1 hd2 hd3
              · refine ihy _ _ hxy ?_ ht
                obtain ⟨d, hd1, hd2, hd3⟩ := hd
                exact ⟨d, by simp [consumePlot, appendDealPlot, hd1], hd2, hd3⟩
            · simp at ht
        exact hblock rest _ _ hin
          ⟨⟨s.nextDealPlotId, dealId, x⟩, by simp [consumePlot, appendDealPlot], rfl, rfl⟩ h
      · rw [hdeals]
        rfl
    · simp at h

/-- What a successful `createDeal` went through. -/
theorem createDeal_ok_inv {s s' : State} {user : User} {r : DealReq} {code : Nat} {row : Deal}
    (h : createDeal s user r = (Reply.ok code row, s')) :
    ∃ q sel, validateDeal s user r = .ok (q, sel)
      ∧ row = dealRow s user r q ∧ code = 201
      ∧ insertDealPlots s.nextDealId sel (appendDeal s (dealRow s user r q)) = (true, s') := by
  unfold createDeal at h
  split at h
  · simp at h
  split at h
  · simp at h
  rename_i q sel hval
  split at h
  · simp at h
  simp only [] at h
  have hid : (dealRow s user r q).id = s.nextDealId := rfl
  rw [hid] at h
  rcases hres : insertDealPlots s.nextDealId sel (appendDeal s (dealRow s user r q))
    with ⟨fin, s1⟩
  rw [hres] at h
  cases fin with
  | false => simp at h
  | true =>
    simp only [Prod.mk.injEq, Reply.ok.injEq] at h
    obtain ⟨⟨hc, hrow⟩, hs⟩ := h
    subst hs
    exact ⟨q, sel, hval, hrow.symm, hc.symm, hres⟩

/-- In per-plot mode a valid deal consumes the plots of the body. -/
theorem validateDeal_plots_ok {s : State} {user : User} {r : DealReq} {inv : Nat} {q : Int}
    {sel : List Nat} (hsel : inventoryIdsToProcess r = [inv]) (hne : r.plot_ids ≠ [])
    (h : validateDeal s user r = .ok (q, sel)) :
    sel = r.plot_ids ∧ checkDealPlots s user r.plot_ids [inv] = none := by
  unfold validateDeal at h
  rw [hsel] at h
  simp only [] at h
  split at h
  · simp at h
  split at h
  · simp at h
  · split at h
    · simp at h
    · rename_i hnone
      simp only [Except.ok.injEq, Prod.mk.injEq] at h
      exact ⟨h.2.symm, hnone⟩

/-- In per-plot mode the validation passes for an administrator whatever the
assignee of the plots. -/
theorem validateDeal_admin_ok (s : State) (user : User) (r : DealReq) (inv : Nat)
    (u : Inventory) (hsel : inventoryIdsToProcess r = [inv]) (hne : r.plot_ids ≠ [])
    (hrole : user.role = Role.admin)
    (hukeys : (s.inventory.map (·.id)).Nodup) (hu : u ∈ s.inventory) (huid : u.id = inv)
    (hlen : (dealPlotCheck s r.plot_ids [inv]).length = r.plot_ids.length)
    (hst : ∀ p ∈ s.plots, p.id ∈ r.plot_ids → p.inventory_id = inv →
      p.status = PlotStatus.assigned ∨ p.status = PlotStatus.paid) :
    validateDeal s user r = .ok ((r.plot_ids.length : Int), r.plot_ids) := by
  have hfilter : s.inventory.filter (fun i => [inv].contains i.id) = [u] :=
    inventory_filter_singleton s.inventory u _ hukeys hu (by
      intro i
      simp [huid, eq_comm])
  have hcheck : checkDealPlots s user r.plot_ids [inv] = none := by
    unfold checkDealPlots
    have hgood : (dealPlotCheck s r.plot_ids [inv]).filter
        (fun p => !(p.status == PlotStatus.assigned || p.status == PlotStatus.paid)) = [] := by
      rw [List.filter_eq_nil_iff]
      intro p hp
      simp only [dealPlotCheck, List.mem_filter, Bool.and_eq_true] at hp
      rcases hst p hp.1 (by simpa using hp.2.1) (by simpa using hp.2.2) with h | h <;> simp [h]
    simp only [hlen, ne_eq, not_true_eq_false, if_false, hrole, hgood]
    simp
  unfold validateDeal
  rw [hsel]
  simp only [hfilter, List.length_singleton, ne_eq, not_true_eq_false, if_false, hne,
    not_false_eq_true, if_true, hcheck]

theorem createDeal_admin_succeeds (s : State) (user : User) (r : DealReq) (inv : Nat)
    (u : Inventory) (hsel : inventoryIdsToProcess r = [inv]) (hne : r.plot_ids ≠ [])
    (hrole : user.role = Role.admin)
    (hkeys : (s.plots.map (·.id)).Nodup)
    (hukeys : (s.inventory.map (·.id)).Nodup) (hu : u ∈ s.inventory) (huid : u.id = inv)
    (hnd : r.plot_ids.Nodup)
    (hall : ∀ x ∈ r.plot_ids, ∃ p ∈ s.plots, p.id = x ∧ p.inventory_id = inv)
    (hst : ∀ p ∈ s.plots, p.id ∈ r.plot_ids → p.inventory_id = inv →
      p.status = PlotStatus.assigned ∨ p.status = PlotStatus.paid)
    (hprop : truthyStr r.property_type = true) (hins : dealKeysOk s user r = true)
    (hfresh : ∀ d ∈ s.dealPlots, d.deal_id ≠ s.nextDealId) :
    ∃ s', createDeal s user r
      = (Reply.ok 201 (dealRow s user r (r.plot_ids.length : Int)), s') := by
  have hval := validateDeal_admin_ok s user r inv u hsel hne hrole hukeys hu huid
    (dealPlotCheck_length s r.plot_ids inv hkeys hnd hall) hst
  have hloop := insertDealPlots_complete s.nextDealId r.plot_ids
    (appendDeal s (dealRow s user r (r.plot_ids.length : Int))) hnd
    (by
      intro x hx
      obtain ⟨p, hp, hid, -⟩ := hall x hx
      exact ⟨p, hp, hid⟩)
    (by
      intro d hd hdeal
      exact absurd hdeal (hfresh d hd))
  unfold createDeal
  rw [hprop, hval]
  simp only [Bool.not_true, Bool.false_eq_true, if_false, hins]
  have hid : (dealRow s user r (r.plot_ids.length : Int)).id = s.nextDealId := rfl
  rw [hid]
  rcases hres : insertDealPlots s.nextDealId r.plot_ids
      (appendDeal s (dealRow s user r (r.plot_ids.length : Int))) with ⟨fin, s1⟩
  rw [hres] at hloop
  simp only at hloop
  subst hloop
  exact ⟨s1, rfl⟩

theorem plotsKept_refl (l : List Plot) : PlotsKept l l :=
  ⟨id, by simp, fun _ => ⟨rfl, rfl, fun h => h⟩⟩

theorem plotsKept_of_eq {l l' : List Plot} (h : l' = l) : PlotsKept l l' := by
  rw [h]; exact plotsKept_refl l

theorem plotsKept_trans {l l' l'' : List Plot} (h1 : PlotsKept l l') (h2 : PlotsKept l' l'') :
    PlotsKept l l'' := by
  obtain ⟨f, hf, hfp⟩ := h1
  obtain ⟨g, hg, hgp⟩ := h2
  refine ⟨g ∘ f, by rw [hg, hf, List.map_map], ?_⟩
  intro p
  refine ⟨by rw [Function.comp, (hgp (f p)).1, (hfp p).1],
    by rw [Function.comp, (hgp (f p)).2.1, (hfp p).2.1], ?_⟩
  intro hp
  exact (hgp (f p)).2.2 ((hfp p).2.2 hp)

theorem plotsKept_keys {l l' : List Plot} (h : PlotsKept l l') :
    l'.map (·.id) = l.map (·.id) := by
  obtain ⟨f, hf, hfp⟩ := h
  rw [hf, List.map_map]
  apply List.map_congr_left
  intro p _
  exact (hfp p).1

theorem plotsKept_blocked {l l' : List Plot} (h : PlotsKept l l') (x : Nat)
    (hx : ∀ p ∈ l, p.id = x → p.status ≠ PlotStatus.available) :
    ∀ p ∈ l', p.id = x → p.status ≠ PlotStatus.available := by
  obtain ⟨f, hf, hfp⟩ := h
  intro p hp hid
  rw [hf, List.mem_map] at hp
  obtain ⟨p0, hp0, rfl⟩ := hp
  rw [(hfp p0).1] at hid
  exact (hfp p0).2.2 (hx p0 hp0 hid)

theorem assignPlotRows_kept (l : List Plot) (sp : Nat) (ids : List Nat) :
    PlotsKept l (assignPlotRows l sp ids) := by
  refine ⟨_, rfl, ?_⟩
  intro p
  split
  · exact ⟨rfl, rfl, fun _ => by simp⟩
  · exact ⟨rfl, rfl, fun h => h⟩

theorem setPlotStatus_kept (l : List Plot) (x : Option Nat) (st : PlotStatus)
    (hst : st ≠ PlotStatus.available) : PlotsKept l (setPlotStatus l x st) := by
  refine ⟨_, rfl, ?_⟩
  intro p
  split
  · exact ⟨rfl, rfl, fun _ => hst⟩
  · exact ⟨rfl, rfl, fun h => h⟩

/-- A refused `assignPlots` leaves the state alone. -/
theorem assignPlots_plots_kept (s : State) (user : User) (inv : Nat) (r : AssignReq) :
    PlotsKept s.plots (assignPlots s user inv r).2.plots := by
  rcases h : assignPlots s user inv r with ⟨reply, s'⟩
  cases reply with
  | ok code body =>
    obtain ⟨sp, -, hplots⟩ := assignPlots_ok_plots h
    simp only [hplots]
    exact assignPlotRows_kept _ _ _
  | fail code =>
    apply plotsKept_of_eq
    unfold assignPlots at h
    split at h
    · simp only [Prod.mk.injEq] at h; rw [← h.2]
    split at h
    · simp only [Prod.mk.injEq] at h; rw [← h.2]
    simp only [] at h
    split at h
    · simp only [Prod.mk.injEq] at h; rw [← h.2]
    split at h
    · simp only [Prod.mk.injEq] at h; rw [← h.2]
    split at h
    · unfold assignSelected at h
      simp only [] at h
      split at h
      · simp only [Prod.mk.injEq] at h; rw [← h.2]
      split at h
      · simp only [Prod.mk.injEq] at h; rw [← h.2]
      · simp at h
    · simp [assignWhole] at h

theorem approveRequest_plots_kept (s : State) (user : User) (rid : Nat)
    (notes : Option String) : PlotsKept s.plots (approveRequest s user rid notes).2.plots := by
  unfold approveRequest
  split
  · exact plotsKept_refl _
  split
  · exact plotsKept_refl _
  split
  · exact plotsKept_refl _
  split
  · exact plotsKept_refl _
  · simp only []
    unfold approveAssign
    split
    · simp only [promoteUnit_plots, insertAssignment, markRequest]
      exact assignPlotRows_kept _ _ _
    · exact plotsKept_refl _

theorem promote_plots_kept (s : State) (inv : Nat) (x : Option Nat) :
    PlotsKept s.plots (promote s inv x).plots := by
  unfold promote
  split
  · split
    · exact plotsKept_refl _
    · split
      · exact setPlotStatus_kept _ _ _ (by decide)
      · exact plotsKept_refl _
  · split
    · exact plotsKept_refl _
    · split <;> exact plotsKept_refl _

theorem recordPayment_plots_kept (s : State) (user : User) (r : PaymentReq) :
    PlotsKept s.plots (recordPayment s user r).2.plots := by
  unfold recordPayment
  split
  · exact plotsKept_refl _
  simp only []
  split
  · exact plotsKept_refl _
  split
  · exact plotsKept_refl _
  split
  · exact plotsKept_refl _
  split
  · exact plotsKept_refl _
  split
  · rename_i s1 _ hins
    simp only []
    rw [(insertPayments_frame _ _ _ _ _ _ _ _ _ _ _ hins).1]
    exact plotsKept_refl _
  · rename_i s1 created hins
    simp only []
    have := (insertPayments_frame _ _ _ _ _ _ _ _ _ _ _ hins).1
    rw [← this]
    exact promote_plots_kept _ _ _

theorem debitInvestor_plots (s : State) (x : Option Nat) (a : Int) :
    (debitInvestor s x a).plots = s.plots := by
  unfold debitInvestor
  split <;> rfl

theorem deletePayment_plots (s : State) (user : User) (pid : Nat) :
    (deletePayment s user pid).2.plots = s.plots := by
  unfold deletePayment
  split
  · rfl
  · simp only []
    split
    · simp only [debitInvestor_plots, removePayments]
    · rfl

theorem insertDealPlots_plots_kept (dealId : Nat) :
    ∀ (ids : List Nat) (s : State), PlotsKept s.plots (insertDealPlots dealId ids s).2.plots := by
  intro ids
  induction ids with
  | nil => intro s; exact plotsKept_refl _
  | cons x rest ih =>
    intro s
    simp only [insertDealPlots]
    split
    · refine plotsKept_trans ?_ (ih _)
      simp only [consumePlot, appendDealPlot]
      exact setPlotStatus_kept _ _ _ (by decide)
    · exact plotsKept_refl _

theorem createDeal_plots_kept (s : State) (user : User) (r : DealReq) :
    PlotsKept s.plots (createDeal s user r).2.plots := by
  unfold createDeal
  split
  · exact plotsKept_refl _
  split
  · exact plotsKept_refl _
  split
  · exact plotsKept_refl _
  · rename_i q sel _ _
    simp only []
    have := insertDealPlots_plots_kept (dealRow s user r q).id sel (appendDeal s (dealRow s user r q))
    rcases hres : insertDealPlots (dealRow s user r q).id sel (appendDeal s (dealRow s user r q))
      with ⟨fin, s1⟩
    rw [hres] at this
    cases fin <;> exact this

theorem step_plots_kept (s : State) (o : Op) : PlotsKept s.plots (step s o).plots := by
  cases o with
  | assign user inv r => exact assignPlots_plots_kept s user inv r
  | request user r =>
    simp only [step]
    rcases createRequest_state s user r with h | h <;> rw [h] <;> exact plotsKept_refl _
  | approve user rid notes => exact approveRequest_plots_kept s user rid notes
  | reject user rid notes =>
    simp only [step]
    rcases rejectRequest_state s user rid notes with h | ⟨_, _, _, _, h⟩ <;> rw [h] <;>
      exact plotsKept_refl _
  | pay user r => exact recordPayment_plots_kept s user r
  | unpay user pid =>
    simp only [step, deletePayment_plots]
    exact plotsKept_refl _
  | deal user r => exact createDeal_plots_kept s user r

theorem run_plots_kept (ops : List Op) : ∀ s : State, PlotsKept s.plots (run s ops).plots := by
  induction ops with
  | nil => intro s; exact plotsKept_refl _
  | cons o rest ih =>
    intro s
    exact plotsKept_trans (step_plots_kept s o) (ih (step s o))

/-- A plot id all of whose rows are not `available` blocks `assignSelected`. -/
theorem assignSelected_fail_of_blocked (s : State) (inv sp : Nat) (inventory : Inventory)
    (r : AssignReq) (x : Nat) (hkeys : (s.plots.map (·.id)).Nodup) (hx : x ∈ r.plot_ids)
    (hblock : ∀ p ∈ s.plots, p.id = x → p.status ≠ PlotStatus.available) :
    assignSelected s inv sp inventory r = (Reply.fail 400, s) := by
  by_cases h : ∃ p ∈ s.plots, p.id = x ∧ p.inventory_id = inv
  · obtain ⟨p, hp, hid, hunit⟩ := h
    exact assignSelected_fail_of_unavailable s inv sp inventory r p hp (by rw [hid]; exact hx)
      hunit (hblock p hp hid)
  · have hlt := filter_ids_length_lt s.plots r.plot_ids (fun p => p.inventory_id == inv)
      x hkeys hx (by
        intro p hp hpx
        have : p.inventory_id ≠ inv := fun hu => h ⟨p, hp, hpx, hu⟩
        simpa using this)
    have hlen : (plotCheck s r.plot_ids inv).length ≠ r.plot_ids.length := Nat.ne_of_lt hlt
    unfold assignSelected
    simp only [hlen, ne_eq, not_false_eq_true, if_true]

theorem assignPlots_fail_of_blocked (s : State) (user : User) (inv : Nat) (r : AssignReq)
    (x : Nat) (hkeys : (s.plots.map (·.id)).Nodup) (hx : x ∈ r.plot_ids)
    (hblock : ∀ p ∈ s.plots, p.id = x → p.status ≠ PlotStatus.available) :
    ∃ code, assignPlots s user inv r = (Reply.fail code, s) := by
  have hne : r.plot_ids ≠ [] := List.ne_nil_of_mem hx
  unfold assignPlots
  split
  · exact ⟨_, rfl⟩
  split
  · exact ⟨_, rfl⟩
  simp only []
  split
  · exact ⟨_, rfl⟩
  split
  · exact ⟨_, rfl⟩
  · exact ⟨400, assignSelected_fail_of_blocked s inv _ _ r x hkeys hx hblock⟩

theorem createRequest_fail_of_blocked (s : State) (user : User) (r : CreateReq)
    (x : Nat) (hkeys : (s.plots.map (·.id)).Nodup) (hx : x ∈ r.plot_ids)
    (hblock : ∀ p ∈ s.plots, p.id = x → p.status ≠ PlotStatus.available) :
    ∃ code, createRequest s user r = (Reply.fail code, s) := by
  have hne : r.plot_ids ≠ [] := List.ne_nil_of_mem hx
  apply createRequest_fail_of_refusal s user r 400
  by_cases h : ∃ p ∈ s.plots, p.id = x ∧ p.inventory_id = r.inventory_id.getD 0
  · obtain ⟨p, hp, hid, hunit⟩ := h
    have hav : (plotCheck s r.plot_ids (r.inventory_id.getD 0)).filter
        (fun p => p.status != PlotStatus.available) ≠ [] := by
      intro hnil
      rw [List.filter_eq_nil_iff] at hnil
      refine hnil p ?_ (by simpa using hblock p hp hid)
      simp only [plotCheck, List.mem_filter, Bool.and_eq_true, beq_iff_eq]
      exact ⟨hp, by rw [hid]; simpa using hx, hunit⟩
    simp only [createRefusal, hne, ne_eq, not_false_eq_true, if_true]
    split
    · rfl
    · rfl
  · have hlt := filter_ids_length_lt s.plots r.plot_ids
      (fun p => p.inventory_id == r.inventory_id.getD 0) x hkeys hx (by
        intro p hp hpx
        have : p.inventory_id ≠ r.inventory_id.getD 0 := fun hu => h ⟨p, hp, hpx, hu⟩
        simpa using this)
    have hlen : (plotCheck s r.plot_ids (r.inventory_id.getD 0)).length ≠ r.plot_ids.length :=
      Nat.ne_of_lt hlt
    simp only [createRefusal, hne, ne_eq, not_false_eq_true, if_true, hlen]

/-! ## Lemmas on the rounding of doubles -/

/-- After the halvings counted by `excessBits`, what is left has at most 53
bits. -/
theorem excessBits_lt (fuel : Nat) : ∀ n : Nat, n ≤ fuel →
    n / 2 ^ excessBits fuel n < 2 ^ 53 := by
  induction fuel with
  | zero =>
    intro n h
    have : n = 0 := Nat.le_zero.mp h
    subst this
    simp [excessBits]
  | succ fuel ih =>
    intro n h
    rw [excessBits]
    split
    · rename_i hlt
      simpa using hlt
    · rename_i hge
      have h2 : n / 2 ≤ fuel := by
        have : 2 ^ 53 ≤ n := Nat.le_of_not_lt hge
        omega
      have := ih (n / 2) h2
      rwa [pow_succ, Nat.mul_comm, ← Nat.div_div_eq_div_mul]

/-- When `excessBits` halves at all, what is left has exactly 53 bits. -/
theorem excessBits_ge (fuel : Nat) : ∀ n : Nat,
    excessBits fuel n = 0 ∨ 2 ^ 52 ≤ n / 2 ^ excessBits fuel n := by
  induction fuel with
  | zero => intro n; exact Or.inl rfl
  | succ fuel ih =>
    intro n
    rw [excessBits]
    split
    · exact Or.inl rfl
    · rename_i hge
      right
      have hn : 2 ^ 53 ≤ n := Nat.le_of_not_lt hge
      have e : n / 2 ^ (excessBits fuel (n / 2) + 1) = n / 2 / 2 ^ excessBits fuel (n / 2) := by
        rw [pow_succ, Nat.mul_comm, Nat.div_div_eq_div_mul]
      rw [e]
      rcases ih (n / 2) with h0 | h1
      · rw [h0]
        simp only [pow_zero, Nat.div_one]
        omega
      · exact h1

/-- A number of at most 53 bits is a double: it is not rounded. -/
theorem roundNearest_exact (p : Nat) (h : p < 2 ^ 53) : roundNearest p 1 = p := by
  have hk : excessBits p p = 0 := by
    cases p with
    | zero => rfl
    | succ n => rw [excessBits, if_pos h]
  simp only [roundNearest, hk, pow_zero, Nat.mul_one, Nat.div_one, Nat.mod_one]
  rw [if_neg (by omega)]

/-- The result of `roundNearest` is within half a unit in the last place of
`p / q`: with `d = q * 2 ^ k` the weight of the last place, twice the distance
between `p` and the result times `q` is at most `d`. -/
theorem roundNearest_nearest (p q : Nat) (hq : 0 < q) :
    2 * (roundNearest p q * q) ≤ 2 * p + q * 2 ^ excessBits (p / q) (p / q)
    ∧ 2 * p ≤ 2 * (roundNearest p q * q) + q * 2 ^ excessBits (p / q) (p / q) := by
  have hsplit := Nat.div_add_mod p (q * 2 ^ excessBits (p / q) (p / q))
  simp only [roundNearest]
  generalize excessBits (p / q) (p / q) = k at hsplit ⊢
  generalize hd : q * 2 ^ k = d at hsplit ⊢
  generalize hm : p / d = m at hsplit ⊢
  generalize hr : p % d = rest at hsplit ⊢
  have hmul : ∀ x : Nat, x * 2 ^ k * q = x * d := by
    intro x
    rw [← hd]; ring
  have hpos : 0 < d := by
    rw [← hd]; exact Nat.mul_pos hq (Nat.pow_pos (by decide))
  have hlt : rest < d := by
    rw [← hr]; exact Nat.mod_lt _ hpos
  split
  · rename_i hup
    rw [hmul]
    have h2 : d ≤ 2 * rest := by
      rcases hup with h | h
      · omega
      · omega
    have e1 : (m + 1) * d = m * d + d := by ring
    have e2 : d * m = m * d := by ring
    rw [e1]
    rw [e2] at hsplit
    constructor <;> omega
  · rename_i hdown
    rw [hmul]
    have h2 : 2 * rest ≤ d := by
      by_contra hc
      exact hdown (Or.inl (by omega))
    have e2 : d * m = m * d := by ring
    rw [e2] at hsplit
    constructor <;> omega

/-! ## Lemmas on authorization, projections, legacy deals and unit creation -/

theorem insertPayments_rows (user : User) (inventoryId : Nat) (plotId : Option Nat)
    (date : String) (notes : Option String) :
    ∀ (entries : List InvestorEntry) (s : State) (created : List InventoryPayment)
      (s' : State) (created' : List InventoryPayment),
      insertPayments user inventoryId plotId date notes entries s created = (true, s', created') →
      ∃ rows : List InventoryPayment, created' = created ++ rows
        ∧ s'.payments = s.payments ++ rows
        ∧ rows.map (fun row => (row.investor_id, row.amount))
            = entries.map (fun e => (e.investor_id, e.amount))
        ∧ ∀ row ∈ rows, row.inventory_id = inventoryId ∧ row.plot_id = plotId
            ∧ row.salesperson_id = user.id := by
  intro entries
  induction entries with
  | nil =>
    intro s created s' created' h
    simp only [insertPayments, Prod.mk.injEq, true_and] at h
    refine ⟨[], ?_, ?_, rfl, ?_⟩
    · rw [← h.2]; simp
    · rw [← h.1]; simp
    · intro row hrow; cases hrow
  | cons e rest ih =>
    intro s created s' created' h
    simp only [insertPayments] at h
    split at h
    · obtain ⟨rows, h1, h2, h3, h4⟩ := ih _ _ _ _ h
      refine ⟨⟨s.nextPaymentId, inventoryId, plotId, e.investor_id, user.id, e.amount, date,
        notes⟩ :: rows, ?_, ?_, ?_, ?_⟩
      · rw [h1]; simp
      · rw [h2, creditInvestor_payments]; simp [appendPayment]
      · simp only [List.map_cons, h3]
      · intro row hrow
        rcases List.mem_cons.mp hrow with hr | hr
        · rw [hr]; exact ⟨rfl, rfl, rfl⟩
        · exact h4 row hr
    · simp at h

theorem checkTarget_none {s : State} {user : User} {inventoryId : Nat} {plotId : Option Nat}
    (hrole : user.role ≠ Role.admin)
    (h : checkTarget s user inventoryId plotId = none) :
    (truthyId plotId = true →
        (∃ p ∈ s.plots, plotId = some p.id ∧ p.assigned_to = some user.id)
        ∧ (∃ p ∈ s.plots, plotId = some p.id ∧ p.inventory_id = inventoryId))
    ∧ (truthyId plotId = false →
        ∃ u ∈ s.inventory, u.id = inventoryId ∧ u.assigned_to = some user.id) := by
  constructor
  · intro ht
    by_cases hA : s.plots.filter (fun p => sqlEq (some p.id) plotId
        && sqlEq p.assigned_to (some user.id)) = []
    · simp [checkTarget, hrole, ht, hA] at h
    · by_cases hB : s.plots.filter (fun p => sqlEq (some p.id) plotId
          && p.inventory_id == inventoryId) = []
      · simp [checkTarget, hrole, ht, hB] at h
        split at h <;> cases h
      · obtain ⟨p, hp⟩ := List.exists_mem_of_ne_nil _ hA
        obtain ⟨q, hq⟩ := List.exists_mem_of_ne_nil _ hB
        simp only [List.mem_filter, Bool.and_eq_true, sqlEq_some_left, sqlEq_some_iff,
          beq_iff_eq] at hp hq
        exact ⟨⟨p, hp.1, hp.2.1, hp.2.2⟩, ⟨q, hq.1, hq.2.1, hq.2.2⟩⟩
  · intro ht
    by_cases hA : s.inventory.filter (fun i => i.id == inventoryId
        && sqlEq i.assigned_to (some user.id)) = []
    · simp [checkTarget, hrole, ht, hA] at h
    · obtain ⟨u, hu⟩ := List.exists_mem_of_ne_nil _ hA
      simp only [List.mem_filter, Bool.and_eq_true, sqlEq_some_iff, beq_iff_eq] at hu
      exact ⟨u, hu.1, hu.2.1, hu.2.2⟩

theorem recordPayment_refused (s : State) (user : User) (r : PaymentReq)
    (h : ∀ entries, r.inventory_id = some (r.inventory_id.getD 0) →
      investorPayments r = some entries →
      checkTarget s user (r.inventory_id.getD 0) r.plot_id = none →
      checkInvestors s user entries = none → False) :
    ∃ c, recordPayment s user r = (Reply.fail c, s) := by
  unfold recordPayment
  split
  · exact ⟨400, rfl⟩
  · rename_i h0
    have hunit : r.inventory_id = some (r.inventory_id.getD 0) := by
      cases hr : r.inventory_id with
      | none => rw [hr] at h0; exact absurd rfl h0
      | some n => rfl
    cases hentries : investorPayments r with
    | none => exact ⟨400, rfl⟩
    | some entries =>
      simp only []
      split
      · exact ⟨400, rfl⟩
      · cases htarget : checkTarget s user (r.inventory_id.getD 0) r.plot_id with
        | some c => exact ⟨c, rfl⟩
        | none =>
          cases hcheck : checkInvestors s user entries with
          | some c => exact ⟨c, rfl⟩
          | none => exact absurd (h entries hunit hentries htarget hcheck) id

theorem deletePayment_found (s : State) (user : User) (pid : Nat) (payment : InventoryPayment)
    (rest : List InventoryPayment)
    (hpay : s.payments.filter (visibleTo user pid) = payment :: rest) :
    deletePayment s user pid = (Reply.ok 200 (),
      if truthyId payment.investor_id then
        debitInvestor (removePayments s user pid) payment.investor_id payment.amount
      else removePayments s user pid) := by
  unfold deletePayment
  rw [hpay]
  simp only []
  split <;> rfl

theorem debitInvestor_inventory (s : State) (x : Option Nat) (a : Int) :
    (debitInvestor s x a).inventory = s.inventory := by
  unfold debitInvestor
  split <;> rfl

theorem sum_filter_eq_sum_ite {α : Type} (l : List α) (p : α → Bool) (f : α → Int) :
    ((l.filter p).map f).sum = (l.map (fun x => if p x = true then f x else 0)).sum := by
  induction l with
  | nil => rfl
  | cons x xs ih =>
    by_cases hp : p x = true
    · simp only [List.filter_cons, hp, if_true, List.map_cons, List.sum_cons, ih]
    · simp only [List.filter_cons, hp, if_false, List.map_cons, List.sum_cons, ih,
        Bool.false_eq_true, zero_add]

theorem totalInvested_congr {s t : State} (sp : Nat)
    (h : s.investors.map ledgerColumns = t.investors.map ledgerColumns) :
    totalInvested t sp = totalInvested s sp := by
  have key : ∀ l : List Investor,
      ((l.filter (fun i => i.salesperson_id == sp)).map (·.total_invested)).sum
        = ((l.map ledgerColumns).map
            (fun c => if (c.2.1 == sp) = true then c.2.2 else 0)).sum := by
    intro l
    rw [sum_filter_eq_sum_ite, List.map_map]
    rfl
  unfold totalInvested
  rw [key, key, h]

/-- Over rows with pairwise distinct keys, at most one row has the key `k`. -/
theorem sum_ite_key (l : List Investor) (k : Option Nat) (a : Int)
    (hkeys : (l.map (·.id)).Nodup) :
    (l.map (fun inv => if sqlEq k (some inv.id) = true then a else 0)).sum
      = if (∃ inv ∈ l, k = some inv.id) then a else 0 := by
  induction l with
  | nil => simp
  | cons x xs ih =>
    simp only [List.map_cons, List.nodup_cons] at hkeys
    rw [List.map_cons, List.sum_cons, ih hkeys.2]
    simp only [sqlEq_some_iff]
    by_cases hx : k = some x.id
    · have hno : ¬ ∃ inv ∈ xs, k = some inv.id := by
        rintro ⟨inv, hinv, hk⟩
        apply hkeys.1
        rw [hx] at hk
        rw [Option.some.inj hk]
        exact List.mem_map_of_mem _ hinv
      have hyes : ∃ inv ∈ x :: xs, k = some inv.id := ⟨x, List.mem_cons_self _ _, hx⟩
      rw [if_pos hx, if_neg hno, if_pos hyes, add_zero]
    · rw [if_neg hx, zero_add]
      by_cases hex : ∃ inv ∈ xs, k = some inv.id
      · obtain ⟨inv, hinv, hk⟩ := hex
        rw [if_pos ⟨inv, hinv, hk⟩, if_pos ⟨inv, List.mem_cons_of_mem _ hinv, hk⟩]
      · have : ¬ ∃ inv ∈ x :: xs, k = some inv.id := by
          rintro ⟨inv, hinv, hk⟩
          rcases List.mem_cons.mp hinv with h | h
          · exact hx (h ▸ hk)
          · exact hex ⟨inv, h, hk⟩
        rw [if_neg hex, if_neg this]

/-- Summing the per-investor usage over a list of investors with distinct
keys counts every payment that names one of them once. -/
theorem sum_usedBalance (s : State) (l : List Investor) (hkeys : (l.map (·.id)).Nodup) :
    (l.map (fun inv => usedBalance s (some inv.id))).sum
      = (s.payments.map (fun p => if (∃ inv ∈ l, p.investor_id = some inv.id)
          then p.amount else 0)).sum := by
  have hgen : ∀ P : List InventoryPayment,
      (l.map (fun inv => ((P.filter (fun p => sqlEq p.investor_id (some inv.id))).map
          (·.amount)).sum)).sum
        = (P.map (fun p => if (∃ inv ∈ l, p.investor_id = some inv.id)
            then p.amount else 0)).sum := by
    intro P
    induction P with
    | nil => simp
    | cons p ps ih =>
      rw [List.map_cons, List.sum_cons, ← ih, ← sum_ite_key l p.investor_id p.amount hkeys,
        ← List.sum_map_add]
      congr 1
      apply List.map_congr_left
      intro inv _
      by_cases hq : sqlEq p.investor_id (some inv.id) = true
      · simp [List.filter_cons, hq]
      · simp [List.filter_cons, hq]
  exact hgen s.payments

theorem sum_map_sub_int {α : Type} (l : List α) (f g : α → Int) :
    (l.map (fun x => f x - g x)).sum = (l.map f).sum - (l.map g).sum := by
  induction l with
  | nil => rfl
  | cons x xs ih => simp only [List.map_cons, List.sum_cons, ih]; ring

theorem validateDeal_legacy (s : State) (user : User) (r : DealReq) (inv : Nat) (u : Inventory)
    (hsel : inventoryIdsToProcess r = [inv]) (hnop : r.plot_ids = [])
    (hkeys : (s.inventory.map (·.id)).Nodup) (hu : u ∈ s.inventory) (huid : u.id = inv) :
    validateDeal s user r
      = match checkDealQuantity s user r u with
        | some code => .error code
        | none => .ok (quantityRequested r, []) := by
  have hfilter : s.inventory.filter (fun i => [inv].contains i.id) = [u] :=
    inventory_filter_singleton s.inventory u _ hkeys hu (by
      intro i
      simp [huid])
  unfold validateDeal
  rw [hsel]
  simp only [hfilter, hnop, List.length_singleton, ne_eq, not_true_eq_false, if_false]

theorem checkDealQuantity_none {s : State} {user : User} {r : DealReq} {u : Inventory}
    (h : checkDealQuantity s user r u = none) :
    1 ≤ quantityRequested r ∧ quantityRequested r ≤ u.quantity - totalUsed s u.id := by
  unfold checkDealQuantity at h
  simp only [] at h
  split_ifs at h
  all_goals omega

theorem checkDealQuantity_some (s : State) (user : User) (r : DealReq) (u : Inventory)
    (h : quantityRequested r < 1 ∨ quantityRequested r > u.quantity - totalUsed s u.id) :
    ∃ code, checkDealQuantity s user r u = some code := by
  cases hc : checkDealQuantity s user r u with
  | some code => exact ⟨code, rfl⟩
  | none =>
    have := checkDealQuantity_none hc
    omega

theorem totalUsed_appendDeal (s : State) (row : Deal) (inv : Nat) :
    totalUsed (appendDeal s row) inv
      = totalUsed s inv + (if (sqlEq row.inventory_id (some inv)
          && row.status != DealStatus.deal_not_done) = true
        then row.inventory_quantity_used.getD 0 else 0) := by
  simp only [totalUsed, appendDeal, List.filter_append, List.map_append, List.sum_append,
    List.filter_cons, List.filter_nil]
  split <;> simp

theorem insertPlots_ok (inv : Nat) :
    ∀ (numbers : List String) (s s' : State),
      insertPlots inv numbers s = (none, s') →
      s'.inventory = s.inventory
      ∧ ∃ rows : List Plot, s'.plots = s.plots ++ rows
        ∧ rows.map (·.plot_number) = numbers
        ∧ (∀ p ∈ rows, p.inventory_id = inv ∧ p.status = PlotStatus.available
            ∧ p.assigned_to = none)
        ∧ numbers.Nodup
        ∧ ∀ n ∈ numbers, ∀ p ∈ s.plots, p.inventory_id = inv → p.plot_number ≠ n := by
  intro numbers
  induction numbers with
  | nil =>
    intro s s' h
    simp only [insertPlots, Prod.mk.injEq, true_and] at h
    subst h
    refine ⟨rfl, [], by simp, rfl, ?_, List.nodup_nil, ?_⟩
    · intro p hp; cases hp
    · intro n hn; cases hn
  | cons n rest ih =>
    intro s s' h
    rw [insertPlots] at h
    split_ifs at h with h1 h2
    · cases h
    · cases h
    · obtain ⟨hinv, rows, hplots, hmap, hfields, hnd, hfresh⟩ := ih _ _ h
      have hnew : ∀ p ∈ s.plots, p.inventory_id = inv → p.plot_number ≠ n := by
        intro p hp hpi hpn
        apply h2
        rw [List.any_eq_true]
        exact ⟨p, hp, by simp [hpi, hpn]⟩
      refine ⟨by rw [hinv]; rfl, ⟨s.nextPlotId, inv, n, PlotStatus.available, none⟩ :: rows,
        ?_, ?_, ?_, ?_, ?_⟩
      · rw [hplots]; simp [appendPlot]
      · simp only [List.map_cons, hmap]
      · intro p hp
        rcases List.mem_cons.mp hp with hr | hr
        · rw [hr]; exact ⟨rfl, rfl, rfl⟩
        · exact hfields p hr
      · rw [List.nodup_cons]
        refine ⟨?_, hnd⟩
        intro hmem
        exact hfresh n hmem ⟨s.nextPlotId, inv, n, PlotStatus.available, none⟩
          (by simp [appendPlot]) rfl rfl
      · intro m hm p hp hpi
        rcases List.mem_cons.mp hm with hr | hr
        · rw [hr]; exact hnew p hp hpi
        · exact hfresh m hr p (by simp only [appendPlot]; exact List.mem_append_left _ hp) hpi

theorem createInventory_ok_inv {s s' : State} {user : User} {r : InventoryReq} {code : Nat}
    {body : Inventory × Nat}
    (h : createInventory s user r = (Reply.ok code body, s')) :
    insertPlots s.nextInventoryId (plotNumbersFor r) (appendInventory s (inventoryRow s r))
        = (none, s')
    ∧ body = (inventoryRow s r, plotCount s' s.nextInventoryId) ∧ code = 201
    ∧ (parsePlotNumbers r.plot_numbers ≠ [] →
        ((parsePlotNumbers r.plot_numbers).length : Int) = inventoryQty r) := by
  unfold createInventory at h
  split_ifs at h with h1 h2 h3 h4
  · simp at h
  · simp at h
  · simp at h
  · simp at h
  · simp only [] at h
    have hid : (inventoryRow s r).id = s.nextInventoryId := rfl
    rw [hid] at h
    rcases hres : insertPlots s.nextInventoryId (plotNumbersFor r)
      (appendInventory s (inventoryRow s r)) with ⟨err, s1⟩
    rw [hres] at h
    cases err with
    | some c => simp at h
    | none =>
      simp only [Prod.mk.injEq, Reply.ok.injEq] at h
      obtain ⟨⟨hc, hb⟩, hs⟩ := h
      subst hs
      refine ⟨rfl, hb.symm, hc.symm, ?_⟩
      intro hne
      have htruthy : truthyStr r.plot_numbers = true := by
        cases hp : r.plot_numbers with
        | none => rw [hp] at hne; exact absurd rfl hne
        | some text =>
          simp only [truthyStr, bne_iff_ne, ne_eq]
          intro hc'
          rw [hp, hc'] at hne
          exact hne rfl
      by_contra hlen
      apply h4
      simp [htruthy, hne, hlen]

theorem createInventory_refuses_count (s : State) (user : User) (r : InventoryReq)
    (hne : parsePlotNumbers r.plot_numbers ≠ [])
    (hlen : ((parsePlotNumbers r.plot_numbers).length : Int) ≠ inventoryQty r) :
    ∃ code, createInventory s user r = (Reply.fail code, s) := by
  have htruthy : truthyStr r.plot_numbers = true := by
    cases hp : r.plot_numbers with
    | none => rw [hp] at hne; exact absurd rfl hne
    | some text =>
      simp only [truthyStr, bne_iff_ne, ne_eq]
      intro hc'
      rw [hp, hc'] at hne
      exact hne rfl
  unfold createInventory
  split_ifs with h1 h2 h3 h4
  · exact ⟨403, rfl⟩
  · exact ⟨400, rfl⟩
  · exact ⟨400, rfl⟩
  · exact ⟨400, rfl⟩
  · exfalso
    apply h4
    simp [htruthy, hne, hlen]

theorem splitPieces_eq_splitOnP (l : List Char) : splitPieces l = l.splitOnP isSeparator := by
  induction l with
  | nil => rfl
  | cons c cs ih =>
    rw [List.splitOnP_cons, splitPieces, ih]
    split
    · rfl
    · cases h : List.splitOnP isSeparator cs with
      | nil => exact absurd h (List.splitOnP_ne_nil _ _)
      | cons piece pieces => rfl

theorem splitPieces_no_separator (l : List Char) :
    ∀ piece ∈ splitPieces l, ∀ c ∈ piece, isSeparator c = false := by
  induction l with
  | nil =>
    intro piece hp c hc
    simp only [splitPieces, List.mem_singleton] at hp
    rw [hp] at hc
    cases hc
  | cons a as ih =>
    intro piece hp c hc
    rw [splitPieces] at hp
    split at hp
    · rcases List.mem_cons.mp hp with h | h
      · rw [h] at hc; cases hc
      · exact ih piece h c hc
    · rename_i hsep
      cases hs : splitPieces as with
      | nil =>
        rw [hs] at hp
        simp only [List.mem_singleton] at hp
        rw [hp, List.mem_singleton] at hc
        rw [hc]
        simpa using hsep
      | cons first more =>
        rw [hs] at hp ih
        rcases List.mem_cons.mp hp with h | h
        · rw [h] at hc
          rcases List.mem_cons.mp hc with h' | h'
          · rw [h']; simpa using hsep
          · exact ih first (List.mem_cons_self _ _) c h'
        · exact ih piece (List.mem_cons_of_mem _ h) c hc

theorem jsTrim_subset (x : List Char) : ∀ c ∈ jsTrim x, c ∈ x := by
  intro c hc
  have h1 : c ∈ x.dropWhile isWhiteSpace := (List.rdropWhile_prefix _ _).subset hc
  exact (List.dropWhile_suffix _).subset h1

theorem jsTrim_clean (x : List Char) (hsep : ∀ c ∈ x, isSeparator c = false)
    (hne : jsTrim x ≠ []) : CleanNumber (jsTrim x) := by
  refine ⟨hne, fun c hc => hsep c (jsTrim_subset x c hc), ?_, ?_⟩
  · have hpre : jsTrim x <+: x.dropWhile isWhiteSpace := List.rdropWhile_prefix _ _
    rw [hpre.head hne]
    exact List.head_dropWhile_not _ _ _
  · have := List.rdropWhile_last_not isWhiteSpace (x.dropWhile isWhiteSpace) hne
    simpa using this

theorem jsTrim_of_clean (x : List Char) (h : CleanNumber x) : jsTrim x = x := by
  obtain ⟨hne, -, hhead, hlast⟩ := h
  have h1 : x.dropWhile isWhiteSpace = x := by
    rw [List.dropWhile_eq_self_iff]
    intro hl
    have : x.get ⟨0, hl⟩ = x.head hne := by
      cases x with
      | nil => exact absurd rfl hne
      | cons a as => rfl
    rw [this, hhead]
    simp
  unfold jsTrim
  rw [h1, List.rdropWhile_eq_self_iff]
  intro hl
  rw [hlast]
  simp

theorem plotPieces_clean (text : List Char) : ∀ x ∈ plotPieces text, CleanNumber x := by
  intro x hx
  simp only [plotPieces, List.mem_filter, List.mem_map, gt_iff_lt, decide_eq_true_eq] at hx
  obtain ⟨⟨piece, hpiece, hx'⟩, hlen⟩ := hx
  subst hx'
  exact jsTrim_clean piece (splitPieces_no_separator text piece hpiece)
    (List.ne_nil_of_length_pos hlen)

theorem splitPieces_of_no_separator (x : List Char) (h : ∀ c ∈ x, isSeparator c = false) :
    splitPieces x = [x] := by
  induction x with
  | nil => rfl
  | cons a as ih =>
    have ha : isSeparator a = false := h a (List.mem_cons_self _ _)
    rw [splitPieces, ih (fun c hc => h c (List.mem_cons_of_mem _ hc))]
    simp [ha]

theorem splitPieces_append_comma (x rest : List Char) (h : ∀ c ∈ x, isSeparator c = false) :
    splitPieces (x ++ ',' :: rest) = x :: splitPieces rest := by
  induction x with
  | nil =>
    have : isSeparator ',' = true := by decide
    simp [splitPieces, this]
  | cons a as ih =>
    have ha : isSeparator a = false := h a (List.mem_cons_self _ _)
    rw [List.cons_append, splitPieces, ih (fun c hc => h c (List.mem_cons_of_mem _ hc))]
    simp [ha]

theorem splitPieces_joinPieces (ps : List (List Char)) (hne : ps ≠ [])
    (h : ∀ x ∈ ps, ∀ c ∈ x, isSeparator c = false) :
    splitPieces (joinPieces ps) = ps := by
  induction ps with
  | nil => exact absurd rfl hne
  | cons x rest ih =>
    cases rest with
    | nil => exact splitPieces_of_no_separator x (h x (List.mem_cons_self _ _))
    | cons y more =>
      rw [joinPieces, splitPieces_append_comma x _ (h x (List.mem_cons_self _ _)),
        ih (List.cons_ne_nil _ _) (fun z hz => h z (List.mem_cons_of_mem _ hz))]

theorem plotPieces_joinPieces (ps : List (List Char)) (hne : ps ≠ [])
    (h : ∀ x ∈ ps, CleanNumber x) : plotPieces (joinPieces ps) = ps := by
  unfold plotPieces
  rw [splitPieces_joinPieces ps hne (fun x hx => (h x hx).2.1)]
  have hmap : ps.map jsTrim = ps := by
    conv_rhs => rw [← List.map_id ps]
    apply List.map_congr_left
    intro x hx
    exact jsTrim_of_clean x (h x hx)
  rw [hmap, List.filter_eq_self]
  intro x hx
  obtain ⟨hx', -⟩ := h x hx
  simpa using List.length_pos.mpr hx'

theorem parsePlotNumbers_some (text : String) :
    parsePlotNumbers (some text) = (plotPieces text.data).map String.mk := by
  unfold parsePlotNumbers
  simp only []
  split
  · rename_i h
    rw [h]
    rfl
  · rfl

theorem overlaps_some_iff (ys ids : List Nat) :
    overlaps (some ys) ids = true ↔ ∃ y, y ∈ ys ∧ y ∈ ids := by
  simp [overlaps]

/-! ## The claims -/

/-- Claim C1, as stated, fails for an administrator: the balance check sits
inside the `req.user.role !== 'admin'` branch, so an administrator can draw
6000.00 on an investor whose ledger balance is 5000.00; the call succeeds,
inserts the row and rewrites the cached columns. -/
theorem recordPayment_admin_skips_balance_check :
    (600000 : Int) > 500000 - usedBalance demoState (some 1)
    ∧ (recordPayment demoState ⟨1, .admin⟩ overdrawReq).1.isOk = true
    ∧ (recordPayment demoState ⟨1, .admin⟩ overdrawReq).2.payments.length = 1
    ∧ (recordPayment demoState ⟨1, .admin⟩ overdrawReq).2.investors
        = [⟨1, 2, 500000, 600000, -100000⟩] := by
  decide

/-- Claim C1 (amended to non-administrator callers): in every state with
unique investor keys, when a salesperson's request lists an entry whose amount
exceeds the named investor's `total_invested` minus the sum of that investor's
payments in the ledger, `recordPayment` answers with an error and the whole
database is unchanged: no payment row is inserted and no cached
`paid_amount` / `remaining_balance` is rewritten. -/
theorem recordPayment_insufficient_balance_fails (s : State) (user : User) (r : PaymentReq)
    (entries : List InvestorEntry) (e : InvestorEntry) (inv : Investor)
    (hrole : user.role ≠ Role.admin)
    (hkeys : (s.investors.map (·.id)).Nodup)
    (hentries : investorPayments r = some entries) (he : e ∈ entries)
    (hinv : inv ∈ s.investors) (hid : e.investor_id = some inv.id)
    (hex : e.amount > inv.total_invested - usedBalance s e.investor_id) :
    ∃ code, recordPayment s user r = (Reply.fail code, s) := by
  obtain ⟨code, hcode⟩ := checkInvestors_isSome_of_exceeds s user hrole e entries he (by
    intro row hrow
    rw [investorCheck_eq_of_keys hkeys hinv hid hrow]
    exact hex)
  exact recordPayment_fail_of_check s user r entries code hentries hcode

/-- Claim C1, witness: dealer 2 asks 6000.00 of an investor holding 5000.00. -/
theorem recordPayment_insufficient_balance_fails_witness :
    (600000 : Int) > 500000 - usedBalance demoState (some 1)
    ∧ ∃ code, recordPayment demoState ⟨2, .dealer⟩ overdrawReq = (Reply.fail code, demoState) :=
  ⟨by decide,
    recordPayment_insufficient_balance_fails demoState ⟨2, .dealer⟩ overdrawReq
      [⟨some 1, 600000⟩] ⟨some 1, 600000⟩ ⟨1, 2, 500000, 0, 500000⟩
      (by decide) (by decide) (by decide) (by decide) (by decide) (by decide) (by decide)⟩

/-- Claim C2, as stated, fails twice. The check compares each entry with the
balance before the call, so two entries of 3000.00 on an investor holding
5000.00 both pass and the ledger balance ends at -1000.00; and an
administrator is not checked at all. -/
theorem recordPayment_overdraw_counterexample :
    ((recordPayment demoState ⟨2, .dealer⟩ doubleReq).1.isOk = true
      ∧ debited doubleReq.investors (some 1) = 600000
      ∧ (500000 : Int) - usedBalance demoState (some 1) = 500000
      ∧ (500000 : Int) - usedBalance (recordPayment demoState ⟨2, .dealer⟩ doubleReq).2 (some 1)
          = -100000)
    ∧ ((recordPayment demoState ⟨1, .admin⟩ overdrawReq).1.isOk = true
      ∧ debited overdrawReq.investors (some 1) = 600000
      ∧ (500000 : Int) - usedBalance (recordPayment demoState ⟨1, .admin⟩ overdrawReq).2 (some 1)
          = -100000) := by
  decide

/-- Claim C2 (amended to non-administrator callers and to lists that name
each investor once): after a successful `recordPayment` of a salesperson, in
a state with unique investor keys, every entry's amount is at most the named
investor's ledger balance before the call; the investor's ledger usage grows
by exactly the amounts of the entries naming it; and when the list names
every investor at most once, the amount debited is that entry's amount and the
investor's ledger balance after the call is not negative. -/
theorem recordPayment_debit_within_balance (s s' : State) (user : User) (r : PaymentReq)
    (code : Nat) (body : List InventoryPayment × Int) (entries : List InvestorEntry)
    (e : InvestorEntry) (inv : Investor)
    (hrole : user.role ≠ Role.admin)
    (hkeys : (s.investors.map (·.id)).Nodup)
    (hok : recordPayment s user r = (Reply.ok code body, s'))
    (hentries : investorPayments r = some entries)
    (he : e ∈ entries) (hinv : inv ∈ s.investors) (hid : e.investor_id = some inv.id) :
    e.amount ≤ inv.total_invested - usedBalance s e.investor_id
    ∧ usedBalance s' e.investor_id = usedBalance s e.investor_id + debited entries e.investor_id
    ∧ ((entries.map (·.investor_id)).Nodup →
        debited entries e.investor_id = e.amount
        ∧ 0 ≤ inv.total_invested - usedBalance s' e.investor_id) := by
  obtain ⟨entries', s1, created, -, -, hentries', -, -, hcheck, hins, hs', -, -⟩ :=
    recordPayment_ok_inv hok
  rw [hentries] at hentries'
  cases hentries'
  obtain ⟨row, more, hrow, hle⟩ := checkInvestors_none s user hrole entries hcheck e he
  have hrowinv : row = inv :=
    investorCheck_eq_of_keys hkeys hinv hid (by rw [hrow]; exact List.mem_cons_self _ _)
  rw [hrowinv] at hle
  have hused : usedBalance s' e.investor_id
      = usedBalance s e.investor_id + debited entries e.investor_id := by
    rw [hs', usedBalance_congr (promote_payments _ _ _)]
    exact insertPayments_usedBalance _ _ _ _ _ _ _ _ _ _ _ hins
  refine ⟨hle, hused, ?_⟩
  intro hnd
  have hd : debited entries e.investor_id = e.amount := by
    rw [hid]; exact debited_of_nodup inv.id e entries hnd he hid
  exact ⟨hd, by rw [hused, hd]; omega⟩

/-- Claim C2, witness: dealer 2 draws 3000.00 on an investor holding 5000.00. -/
theorem recordPayment_debit_within_balance_witness :
    (recordPayment demoState ⟨2, .dealer⟩ payReq).1.isOk = true
    ∧ (300000 : Int) ≤ 500000 - usedBalance demoState (some 1)
    ∧ (0 : Int) ≤ 500000 - usedBalance (recordPayment demoState ⟨2, .dealer⟩ payReq).2 (some 1) :=
  have h := recordPayment_debit_within_balance demoState
    (recordPayment demoState ⟨2, .dealer⟩ payReq).2 ⟨2, .dealer⟩ payReq 201
    ([paidRow], 300000) [⟨some 1, 300000⟩] ⟨some 1, 300000⟩ ⟨1, 2, 500000, 0, 500000⟩
    (by decide) (by decide) (by decide) (by decide) (by decide) (by decide) (by decide)
  ⟨by decide, h.1, (h.2.2 (by decide)).2⟩

/-- Claim C3, as stated, fails: the handlers add to and subtract from the
cached `paid_amount`, they do not re-derive it from the ledger. In
`driftState` the cache reads 4000.00 paid while the ledger holds 3000.00;
after a further payment of 1000.00 the stored `remaining_balance` is 0 and the
ledger gives 1000.00, and after deleting payment 1 the stored
`remaining_balance` is 4000.00 and the ledger gives 5000.00. In `refundState`
the cache agrees with the ledger, but deleting payment 1 leaves a ledger sum
of -1000.00, which `Math.max(0, ...)` stores as 0: the stored
`remaining_balance` is 5000.00 and the ledger gives 6000.00. -/
theorem cache_not_rederived_counterexample :
    ((recordPayment driftState ⟨2, .dealer⟩ smallReq).1.isOk = true
      ∧ (recordPayment driftState ⟨2, .dealer⟩ smallReq).2.investors
          = [⟨1, 2, 500000, 500000, 0⟩]
      ∧ (500000 : Int) - usedBalance (recordPayment driftState ⟨2, .dealer⟩ smallReq).2 (some 1)
          = 100000)
    ∧ ((deletePayment driftState ⟨2, .dealer⟩ 1).1.isOk = true
      ∧ (deletePayment driftState ⟨2, .dealer⟩ 1).2.investors
          = [⟨1, 2, 500000, 100000, 400000⟩]
      ∧ (500000 : Int) - usedBalance (deletePayment driftState ⟨2, .dealer⟩ 1).2 (some 1)
          = 500000)
    ∧ (SyncedAt refundState 1
      ∧ (deletePayment refundState ⟨2, .dealer⟩ 1).1.isOk = true
      ∧ (deletePayment refundState ⟨2, .dealer⟩ 1).2.investors
          = [⟨1, 2, 500000, 0, 500000⟩]
      ∧ (500000 : Int) - usedBalance (deletePayment refundState ⟨2, .dealer⟩ 1).2 (some 1)
          = 600000) := by
  decide

/-- Claim C3 (amended: the cache is carried along, not re-derived): in a
state with unique investor keys, if the cached columns of investor `i` agree
with the ledger before the operation, they agree with it after every
successful `recordPayment`; and, payment keys being unique and `i` a
non-zero key, after every successful `deletePayment` that leaves the
investor's ledger sum non-negative. Agreement means `paid_amount` = sum of
the investor's payments and `remaining_balance` = `total_invested` - that sum. -/
theorem cache_synced_after_create_and_delete (s s' : State) (user : User) (i : Nat)
    (hkeys : (s.investors.map (·.id)).Nodup) (hsync : SyncedAt s i) :
    (∀ r code body, recordPayment s user r = (Reply.ok code body, s') → SyncedAt s' i)
    ∧ (∀ pid code, (s.payments.map (·.id)).Nodup → i ≠ 0 →
        deletePayment s user pid = (Reply.ok code (), s') →
        0 ≤ usedBalance s' (some i) → SyncedAt s' i) := by
  constructor
  · intro r code body hok
    obtain ⟨entries, s1, created, -, -, -, -, -, -, hins, hs', -, -⟩ := recordPayment_ok_inv hok
    rw [hs']
    exact promote_synced _ _ _ _ (insertPayments_synced _ _ _ _ _ i _ _ _ _ _ _ hkeys hsync hins)
  · intro pid code hpk hi hok hnn
    exact deletePayment_synced s s' user pid code i hkeys hpk hi hsync hok hnn

/-- Claim C3, witness: a payment of 3000.00 in `demoState`, and the deletion
of that payment in `paidState`. -/
theorem cache_synced_after_create_and_delete_witness :
    SyncedAt demoState 1
    ∧ SyncedAt (recordPayment demoState ⟨2, .dealer⟩ payReq).2 1
    ∧ SyncedAt paidState 1
    ∧ SyncedAt (deletePayment paidState ⟨2, .dealer⟩ 1).2 1 :=
  ⟨by decide,
    (cache_synced_after_create_and_delete demoState
      (recordPayment demoState ⟨2, .dealer⟩ payReq).2 ⟨2, .dealer⟩ 1
      (by decide) (by decide)).1 payReq 201 ([paidRow], 300000) (by decide),
    by decide,
    (cache_synced_after_create_and_delete paidState
      (deletePayment paidState ⟨2, .dealer⟩ 1).2 ⟨2, .dealer⟩ 1
      (by decide) (by decide)).2 1 200 (by decide) (by decide) (by decide) (by decide)⟩

/-- Claim C4: when `assignPlots` is called with a non-empty `plot_ids` list and
some plot of the unit named in the list is not `available` (for instance
already `assigned`), the call answers with an error and the database is
unchanged: no assignment record, every plot keeps its status and its
`assigned_to`, and the unit keeps its status. -/
theorem assignPlots_unavailable_plot_fails (s : State) (user : User) (inventoryId : Nat)
    (r : AssignReq) (p : Plot)
    (hne : r.plot_ids ≠ []) (hp : p ∈ s.plots) (hid : p.id ∈ r.plot_ids)
    (hunit : p.inventory_id = inventoryId) (hst : p.status ≠ PlotStatus.available) :
    ∃ code, assignPlots s user inventoryId r = (Reply.fail code, s) := by
  unfold assignPlots
  split
  · exact ⟨_, rfl⟩
  split
  · exact ⟨_, rfl⟩
  simp only []
  split
  · exact ⟨_, rfl⟩
  split
  · exact ⟨_, rfl⟩
  · exact ⟨400, assignSelected_fail_of_unavailable s inventoryId _ _ r p hp hid hunit hst⟩

/-- Claim C4, witness: plot 1 of `demoState` is already assigned to dealer 2;
assigning it to dealer 3 is refused. -/
theorem assignPlots_unavailable_plot_fails_witness :
    (⟨1, 1, "A", .assigned, some 2⟩ : Plot) ∈ demoState.plots
    ∧ ∃ code, assignPlots demoState ⟨1, .admin⟩ 1 ⟨some 3, [1], none, none⟩
        = (Reply.fail code, demoState) :=
  ⟨by decide,
    assignPlots_unavailable_plot_fails demoState ⟨1, .admin⟩ 1 ⟨some 3, [1], none, none⟩
      ⟨1, 1, "A", .assigned, some 2⟩ (by decide) (by decide) (by decide) (by decide)
      (by decide)⟩

/-- Claim C5 fails on the code: `approve` re-reads the status of the unit
only, never the status of the requested plots. In `afterAssign` (dealer 3
requested plot 1, then the administrator assigned plot 1 to dealer 2) plot 1
is `assigned` to dealer 2 while the unit is still `available`, plot 2 being
free; approving the pending request of dealer 3 succeeds, creates a second
assignment record and overwrites the plot's `assigned_to` with dealer 3. -/
theorem approve_overwrites_assigned_plot :
    afterAssign.plots = [⟨1, 1, "A", .assigned, some 2⟩, ⟨2, 1, "B", .available, none⟩]
    ∧ afterAssign.requests = [⟨1, 1, 3, .pending, none, some [1]⟩]
    ∧ (approveRequest afterAssign ⟨1, .admin⟩ 1 none).1 = Reply.ok 200 ()
    ∧ (approveRequest afterAssign ⟨1, .admin⟩ 1 none).2.plots
        = [⟨1, 1, "A", .assigned, some 3⟩, ⟨2, 1, "B", .available, none⟩]
    ∧ (approveRequest afterAssign ⟨1, .admin⟩ 1 none).2.assignments
        = [⟨1, 1, 2, 1, 100000, 0, none⟩, ⟨2, 1, 3, 1, 100000, 0, none⟩] := by
  decide

/-- Claim C6 fails on the code, on a reachable state: dealer 3 requests plot 1,
the administrator assigns plot 1 to dealer 2, dealer 2 pays the unit price
(plot 1 becomes `paid`), and the administrator approves the request of
dealer 3: every call succeeds and the last one moves plot 1 from `paid` back
to `assigned`. -/
theorem plot_status_moves_backward :
    (createRequest freshState ⟨3, .dealer⟩ ⟨some 1, [1]⟩).1.isOk = true
    ∧ (assignPlots afterRequest ⟨1, .admin⟩ 1 ⟨some 2, [1], none, none⟩).1.isOk = true
    ∧ (recordPayment afterAssign ⟨2, .dealer⟩ smallReq).1.isOk = true
    ∧ afterPayment.plots = [⟨1, 1, "A", .paid, some 2⟩, ⟨2, 1, "B", .available, none⟩]
    ∧ (approveRequest afterPayment ⟨1, .admin⟩ 1 none).1 = Reply.ok 200 ()
    ∧ afterApprove.plots = [⟨1, 1, "A", .assigned, some 3⟩, ⟨2, 1, "B", .available, none⟩] := by
  decide

/-- A second backward move, in `recordPayment`: the promotion writes `paid`
whatever the current status, so a payment that completes the price of a plot
already `used_in_deal` takes it back to `paid`. -/
theorem recordPayment_resets_used_in_deal :
    dealtState.plots = [⟨1, 1, "A", .used_in_deal, some 2⟩, ⟨2, 1, "B", .available, none⟩]
    ∧ (recordPayment dealtState ⟨2, .dealer⟩ smallReq).1.isOk = true
    ∧ (recordPayment dealtState ⟨2, .dealer⟩ smallReq).2.plots
        = [⟨1, 1, "A", .paid, some 2⟩, ⟨2, 1, "B", .available, none⟩] := by
  decide

/-- Claim C7: after a successful `approve` of request `A` (the row found under
the request id) with a non-empty requested plot set `ids`, every other
request row on the same unit that was `pending` and whose plot set shares a
plot id with `ids` is, at the same position of the table, the same row with
status `rejected`; and every plot row whose id is in `ids` is, at the same
position, the same row `assigned` to the salesperson of `A`. -/
theorem approve_rejects_competitors (s s' : State) (user : User) (rid : Nat)
    (notes : Option String) (code : Nat) (A : Request) (rest : List Request) (ids : List Nat)
    (hA : s.requests.filter (fun q => q.id == rid) = A :: rest)
    (hplots : A.requested_plot_ids = some ids) (hne : ids ≠ [])
    (hok : approveRequest s user rid notes = (Reply.ok code (), s')) :
    (∀ (k : Nat) (B : Request) (ys : List Nat) (y : Nat), s.requests[k]? = some B →
        B.id ≠ rid → B.inventory_id = A.inventory_id → B.status = ReqStatus.pending →
        B.requested_plot_ids = some ys → y ∈ ys → y ∈ ids →
        s'.requests[k]? = some (rejectedRow B))
    ∧ (∀ (k : Nat) (p : Plot), s.plots[k]? = some p → p.id ∈ ids →
        s'.plots[k]? = some (assignedRow p A.salesperson_id)) := by
  obtain ⟨request, rest', inventory, more, hreq, -, -, hrequests, hplotsEq⟩ :=
    approveRequest_ok_inv hok
  rw [hA] at hreq
  obtain ⟨hAeq, -⟩ := List.cons.inj hreq
  subst hAeq
  cases ids with
  | nil => exact absurd rfl hne
  | cons x xs =>
    constructor
    · intro k B ys y hk hid hunit hpend hB hy hy'
      rw [hrequests, hplots]
      have h1 := setRequestStatus_other s.requests rid ReqStatus.approved (orNullStr notes)
        k B hk hid
      simp only [rejectOthers, List.getElem?_map, h1, Option.map_some']
      have hov : overlaps B.requested_plot_ids (x :: xs) = true := by
        rw [hB]
        simp only [overlaps, List.any_eq_true]
        exact ⟨y, hy, by simpa using hy'⟩
      have hcond : (B.inventory_id == A.inventory_id && B.id != rid
          && B.status == ReqStatus.pending
          && (overlaps B.requested_plot_ids (x :: xs) || B.requested_plot_ids.isNone)) = true := by
        simp [hunit, hid, hpend, hov]
      rw [if_pos hcond]
      rfl
    · intro k p hk hin
      rw [hplotsEq, approveAssign_plots _ _ _ x xs hplots]
      simp only [markRequest, assignPlotRows, List.getElem?_map, hk, Option.map_some']
      have : (x :: xs).contains p.id = true := by simpa using hin
      rw [if_pos this]
      rfl

/-- Claim C7, witness: in `rivalState` dealers 3 and 2 both asked for plot 1;
approving the request of dealer 3 rejects the request of dealer 2 and assigns
plot 1 to dealer 3. -/
theorem approve_rejects_competitors_witness :
    (approveRequest rivalState ⟨1, .admin⟩ 1 none).1 = Reply.ok 200 ()
    ∧ (approveRequest rivalState ⟨1, .admin⟩ 1 none).2.requests[1]?
        = some (rejectedRow ⟨2, 1, 2, .pending, none, some [2, 1]⟩)
    ∧ (approveRequest rivalState ⟨1, .admin⟩ 1 none).2.plots[0]?
        = some (assignedRow ⟨1, 1, "A", .available, none⟩ 3) :=
  have h := approve_rejects_competitors rivalState
    (approveRequest rivalState ⟨1, .admin⟩ 1 none).2 ⟨1, .admin⟩ 1 none 200
    ⟨1, 1, 3, .pending, none, some [1]⟩ [] [1] (by decide) (by decide) (by decide) (by decide)
  ⟨by decide,
    h.1 1 ⟨2, 1, 2, .pending, none, some [2, 1]⟩ [2, 1] 1 (by decide) (by decide) (by decide)
      (by decide) (by decide) (by decide) (by decide),
    h.2 0 ⟨1, 1, "A", .available, none⟩ (by decide) (by decide)⟩

/-- Claim C8: after a successful `recordPayment` against plot `pid` of the unit
`u` (unique unit keys), the payments recorded against the plot sum to what
they were plus the total of the call; if that sum reaches the price of `u`,
every plot row with id `pid` is the same row with status `paid` and the other
rows are untouched; if the sum is below the price, even by one cent, the plot
table is unchanged. Amounts are integer numbers of cents. -/
theorem recordPayment_promotes_plot (s s' : State) (user : User) (r : PaymentReq) (code : Nat)
    (body : List InventoryPayment × Int) (pid inventoryId : Nat) (u : Inventory)
    (entries : List InvestorEntry)
    (hok : recordPayment s user r = (Reply.ok code body, s'))
    (hplot : r.plot_id = some pid) (hpid : pid ≠ 0)
    (hinvid : r.inventory_id = some inventoryId)
    (hkeys : (s.inventory.map (·.id)).Nodup) (hu : u ∈ s.inventory) (huid : u.id = inventoryId)
    (hentries : investorPayments r = some entries) :
    plotPaid s' (some pid) = plotPaid s (some pid) + totalAmount entries
    ∧ (u.price ≤ plotPaid s' (some pid) →
        ∀ (k : Nat) (p : Plot), s.plots[k]? = some p →
          s'.plots[k]? = some (if p.id = pid then paidPlot p else p))
    ∧ (plotPaid s' (some pid) < u.price → s'.plots = s.plots) := by
  obtain ⟨entries', s1, created, -, -, hentries', -, -, -, hins, hs', -, -⟩ :=
    recordPayment_ok_inv hok
  rw [hentries] at hentries'
  cases hentries'
  have htruthy : truthyId (some pid) = true := truthyId_some hpid rfl
  rw [hplot, hinvid] at hins hs'
  simp only [orNull, htruthy, if_true, Option.getD_some] at hins hs'
  obtain ⟨hfp, hfi⟩ := insertPayments_frame _ _ _ _ _ _ _ _ _ _ _ hins
  have hpaid1 := insertPayments_plotPaid _ _ _ _ _ _ _ _ _ _ hins
  have hpaid : plotPaid s' (some pid) = plotPaid s1 (some pid) := by
    rw [hs']; simp only [plotPaid, promote_payments]
  refine ⟨by rw [hpaid, hpaid1, totalAmount_eq_sum], ?_, ?_⟩
  · intro hge k p hk
    rw [hpaid] at hge
    rw [hs']
    unfold promote
    rw [if_pos htruthy]
    split
    · rename_i hnil
      rw [hfi, List.filter_eq_nil_iff] at hnil
      exact absurd (by simpa using huid) (hnil u hu)
    · rename_i first more hfirst
      rw [hfi] at hfirst
      have := inventory_key_head hkeys hu huid hfirst
      subst this
      rw [if_pos hge]
      simp only [setPlotStatus, hfp, List.getElem?_map, hk, Option.map_some', sqlEq, beq_iff_eq]
      by_cases hp : p.id = pid <;> simp [hp, paidPlot]
  · intro hlt
    rw [hpaid] at hlt
    rw [hs']
    unfold promote
    rw [if_pos htruthy]
    split
    · exact hfp
    · rename_i first more hfirst
      rw [hfi] at hfirst
      have := inventory_key_head hkeys hu huid hfirst
      subst this
      rw [if_neg (by omega)]
      exact hfp

/-- Claim C8, witness: on plot 1 (unit price 1000.00) a payment of 1000.00
promotes the plot to `paid`. -/
theorem recordPayment_promotes_plot_witness :
    (recordPayment demoState ⟨2, .dealer⟩ smallReq).1.isOk = true
    ∧ plotPaid (recordPayment demoState ⟨2, .dealer⟩ smallReq).2 (some 1) = 100000
    ∧ (recordPayment demoState ⟨2, .dealer⟩ smallReq).2.plots[0]?
        = some (paidPlot ⟨1, 1, "A", .assigned, some 2⟩) :=
  have h := recordPayment_promotes_plot demoState
    (recordPayment demoState ⟨2, .dealer⟩ smallReq).2 ⟨2, .dealer⟩ smallReq 201
    ([{ paidRow with amount := 100000 }], 100000) 1 1 ⟨1, 100000, 2, .available, none⟩
    [⟨some 1, 100000⟩] (by decide) (by decide) (by decide) (by decide) (by decide) (by decide)
    (by decide) (by decide)
  ⟨by decide, by decide, h.2.1 (by decide) 0 ⟨1, 1, "A", .assigned, some 2⟩ (by decide)⟩

/-- Claim C9, as stated, fails when the cached `remaining_balance` did not
equal `total_invested - paid_amount` to begin with: in `staleState` the
investor has 100.01 invested, `paid_amount = 0` (non-negative) and
`remaining_balance = 100.00`; recording 50.00 stores 50.00 paid and 50.01
remaining, and deleting that payment stores `remaining_balance = 100.01`,
not the 100.00 it was before the payment. -/
theorem record_then_delete_counterexample :
    staleState.investors = [⟨1, 2, 10001, 0, 10000⟩]
    ∧ (recordPayment staleState ⟨2, .dealer⟩ tinyReq).1
        = Reply.ok 201 ([{ paidRow with amount := 5000 }], 5000)
    ∧ (recordPayment staleState ⟨2, .dealer⟩ tinyReq).2.investors = [⟨1, 2, 10001, 5000, 5001⟩]
    ∧ (deletePayment (recordPayment staleState ⟨2, .dealer⟩ tinyReq).2 ⟨2, .dealer⟩ 1).1
        = Reply.ok 200 ()
    ∧ (deletePayment (recordPayment staleState ⟨2, .dealer⟩ tinyReq).2 ⟨2, .dealer⟩ 1).2.investors
        = [⟨1, 2, 10001, 0, 10001⟩] := by
  decide

/-- Claim C9 (amended: the cached `remaining_balance` must equal
`total_invested - paid_amount` before the payment): in a state with unique
investor keys whose payment keys lie below the key counter, for an investor
with a non-zero key, a non-negative cached `paid_amount` and a cached
`remaining_balance` equal to `total_invested - paid_amount`, a successful
`recordPayment` of the single amount `a` on that investor stores
`paid_amount + a` and `total_invested - (paid_amount + a)`, and a successful
`deletePayment` of the created payment restores the investor table, hence the
investor's cached `paid_amount` and `remaining_balance`, to what it was. -/
theorem record_then_delete_restores_cache (s s1 s2 : State) (user deleter : User)
    (r : PaymentReq) (inv : Investor) (a total : Int) (p : InventoryPayment) (c1 c2 : Nat)
    (hkeys : (s.investors.map (·.id)).Nodup)
    (hfresh : ∀ q ∈ s.payments, q.id < s.nextPaymentId)
    (hinv : inv ∈ s.investors) (hid : inv.id ≠ 0)
    (hpaid : 0 ≤ inv.paid_amount)
    (hrem : inv.remaining_balance = inv.total_invested - inv.paid_amount)
    (hentries : investorPayments r = some [⟨some inv.id, a⟩])
    (hrec : recordPayment s user r = (Reply.ok c1 ([p], total), s1))
    (hdel : deletePayment s1 deleter p.id = (Reply.ok c2 (), s2)) :
    credited inv a ∈ s1.investors ∧ s2.investors = s.investors := by
  obtain ⟨entries, t, created, -, -, hentries', -, -, -, hins, hs1, -, hbody⟩ :=
    recordPayment_ok_inv hrec
  rw [hentries] at hentries'
  cases hentries'
  obtain ⟨row, hrowid, hrowinv, hrowamt, hcreated, ht⟩ := insertPayments_single hins
  simp only [Prod.mk.injEq] at hbody
  have hp : p = row := by
    have := hbody.1; rw [hcreated] at this; simpa using this
  subst hp
  simp only [] at hrowinv hrowamt
  -- the investor table after the payment
  have hinv1 : s1.investors = setInvestorBalance s.investors (some inv.id)
      (inv.paid_amount + a) (inv.total_invested - (inv.paid_amount + a)) := by
    rw [hs1, promote_investors, ht]
    unfold creditInvestor
    split
    · rename_i hnil
      exact absurd hnil (filter_key_ne_nil hinv)
    · rename_i first more hfirst
      have := filter_key_head hkeys hinv hfirst
      subst this
      rfl
  have hpay1 : s1.payments = s.payments ++ [p] := by
    rw [hs1, promote_payments, ht, creditInvestor_payments]; rfl
  have hmem1 : credited inv a ∈ s1.investors := by
    rw [hinv1]
    simp only [setInvestorBalance, List.mem_map]
    exact ⟨inv, hinv, by simp [sqlEq, credited]⟩
  refine ⟨hmem1, ?_⟩
  · obtain ⟨payment, rest, hvis, -, hs2⟩ := deletePayment_ok_inv hdel
    have hpm : payment ∈ s1.payments.filter (visibleTo deleter p.id) := by
      rw [hvis]; exact List.mem_cons_self _ _
    rw [List.mem_filter, hpay1, List.mem_append, List.mem_singleton] at hpm
    have hpp : payment = p := by
      rcases hpm.1 with h | h
      · have h1 := hfresh payment h
        have h2 := visibleTo_id hpm.2
        omega
      · exact h
    subst hpp
    have htruthy : truthyId payment.investor_id = true := by
      rw [hrowinv]; exact truthyId_some hid rfl
    rw [if_pos htruthy] at hs2
    rw [hs2, hrowinv, hrowamt]
    have hkeys1 : (s1.investors.map (·.id)).Nodup := by
      rw [hinv1, setInvestorBalance_ids]; exact hkeys
    unfold debitInvestor
    split
    · rename_i hnil
      exact absurd hnil (@filter_key_ne_nil s1.investors (credited inv a) hmem1)
    · rename_i first more hfirst
      have := @filter_key_head s1.investors (credited inv a) _ _ hkeys1 hmem1 hfirst
      subst this
      simp only [removePayments]
      simp only [credited]
      have hmax : max 0 (inv.paid_amount + a - a) = inv.paid_amount := by
        rw [add_sub_cancel_right]; exact max_eq_right hpaid
      rw [hmax, ← hrem, hinv1]
      exact setInvestorBalance_round s.investors inv _ _ hkeys hinv

/-- Claim C9, witness: investor 1 of `demoState` (5000.00 invested): after
paying 3000.00 the cache reads 2000.00 remaining, after the deletion 5000.00. -/
theorem record_then_delete_restores_cache_witness :
    credited ⟨1, 2, 500000, 0, 500000⟩ 300000 = ⟨1, 2, 500000, 300000, 200000⟩
    ∧ credited ⟨1, 2, 500000, 0, 500000⟩ 300000
        ∈ (recordPayment demoState ⟨2, .dealer⟩ payReq).2.investors
    ∧ (deletePayment (recordPayment demoState ⟨2, .dealer⟩ payReq).2 ⟨2, .dealer⟩ 1).2.investors
        = demoState.investors :=
  have h := record_then_delete_restores_cache demoState
    (recordPayment demoState ⟨2, .dealer⟩ payReq).2
    (deletePayment (recordPayment demoState ⟨2, .dealer⟩ payReq).2 ⟨2, .dealer⟩ 1).2
    ⟨2, .dealer⟩ ⟨2, .dealer⟩ payReq ⟨1, 2, 500000, 0, 500000⟩ 300000 300000 paidRow 201 200
    (by decide) (by decide) (by decide) (by decide) (by decide) (by decide) (by decide)
    (by decide) (by decide)
  ⟨by decide, h.1, h.2⟩

/-- Claim C10: after a successful `assignPlots` for salesperson `sp`, the plot
table has the same rows at the same positions: a row whose id is in `plot_ids`
is the same row with `assigned_to = sp` and status `assigned`, and every
other row, of this unit or of any other, is unchanged. -/
theorem assignPlots_assigns_exactly (s s' : State) (user : User) (inventoryId : Nat)
    (r : AssignReq) (code : Nat) (body : AssignBody)
    (hok : assignPlots s user inventoryId r = (Reply.ok code body, s')) :
    ∃ sp, r.salesperson_id = some sp
      ∧ s'.plots.length = s.plots.length
      ∧ ∀ (k : Nat) (p : Plot), s.plots[k]? = some p →
          (p.id ∈ r.plot_ids → s'.plots[k]? = some (assignedRow p sp))
          ∧ (p.id ∉ r.plot_ids → s'.plots[k]? = some p) := by
  obtain ⟨sp, hsp, hplots⟩ := assignPlots_ok_plots hok
  refine ⟨sp, hsp, by rw [hplots]; simp [assignPlotRows], ?_⟩
  intro k p hk
  rw [hplots]
  simp only [assignPlotRows, List.getElem?_map, hk, Option.map_some']
  constructor
  · intro hin
    simp [hin, assignedRow]
  · intro hout
    simp [hout]

/-- Claim C10, witness: assigning plot 2 of `demoState` to dealer 3 rewrites
plot 2 and leaves plot 1 as it was. -/
theorem assignPlots_assigns_exactly_witness :
    (assignPlots demoState ⟨1, .admin⟩ 1 ⟨some 3, [2], none, none⟩).1.isOk = true
    ∧ (assignPlots demoState ⟨1, .admin⟩ 1 ⟨some 3, [2], none, none⟩).2.plots[1]?
        = some (assignedRow ⟨2, 1, "B", .available, none⟩ 3)
    ∧ (assignPlots demoState ⟨1, .admin⟩ 1 ⟨some 3, [2], none, none⟩).2.plots[0]?
        = some ⟨1, 1, "A", .assigned, some 2⟩ :=
  have h := assignPlots_assigns_exactly demoState
    (assignPlots demoState ⟨1, .admin⟩ 1 ⟨some 3, [2], none, none⟩).2 ⟨1, .admin⟩ 1
    ⟨some 3, [2], none, none⟩ 200
    (.plots ⟨1, 1, 3, 1, 100000, 0, none⟩ 1 100000 0 100000) (by decide)
  match h with
  | ⟨sp, hsp, _, hrows⟩ =>
    have e : sp = 3 := (Option.some.inj hsp).symm
    ⟨by decide,
      e ▸ (hrows 1 ⟨2, 1, "B", .available, none⟩ (by decide)).1 (by decide),
      (hrows 0 ⟨1, 1, "A", .assigned, some 2⟩ (by decide)).2 (by decide)⟩

/-- Claim C11: after a successful `assignPlots` with plot ids, if no plot row
of the unit is `available` in the new state, every unit row with that id is
the same row with status `assigned` and the other unit rows are untouched; if
some plot row of the unit is still `available`, the unit table is unchanged. -/
theorem assignPlots_unit_status (s s' : State) (user : User) (inventoryId : Nat)
    (r : AssignReq) (code : Nat) (body : AssignBody)
    (hne : r.plot_ids ≠ [])
    (hok : assignPlots s user inventoryId r = (Reply.ok code body, s')) :
    ((∀ p ∈ s'.plots, p.inventory_id = inventoryId → p.status ≠ PlotStatus.available) →
        ∀ (k : Nat) (u : Inventory), s.inventory[k]? = some u →
          s'.inventory[k]? = some (if u.id = inventoryId then assignedUnit u else u))
    ∧ ((∃ p ∈ s'.plots, p.inventory_id = inventoryId ∧ p.status = PlotStatus.available) →
        s'.inventory = s.inventory) := by
  obtain ⟨sp, inventory, rest, -, -, hsel⟩ := assignPlots_ok_inv hne hok
  obtain ⟨-, -, -, -, -, hinv⟩ := assignSelected_ok_inv hsel
  constructor
  · intro hnone k u hk
    have h0 : remainingPlots s' inventoryId = 0 := (remainingPlots_eq_zero_iff _ _).mpr hnone
    rw [hinv, if_pos h0]
    exact setInventoryStatus_getElem? _ _ _ _ _ hk
  · intro hex
    obtain ⟨p, hp, hpi, hps⟩ := hex
    have h0 : ¬ remainingPlots s' inventoryId = 0 := by
      rw [remainingPlots_eq_zero_iff]
      intro hall
      exact hall p hp hpi hps
    rw [hinv, if_neg h0]

/-- Claim C11, witness: in `demoState` plot 1 is assigned already, so assigning
plot 2 promotes unit 1; in `freshState` plot 1 stays available and the unit
table is unchanged. -/
theorem assignPlots_unit_status_witness :
    (assignPlots demoState admin1 1 assignTwo).2.inventory[0]?
        = some (if (1 : Nat) = 1 then assignedUnit ⟨1, 100000, 2, .available, none⟩
            else ⟨1, 100000, 2, .available, none⟩)
    ∧ (assignPlots freshState admin1 1 assignTwo).2.inventory = freshState.inventory :=
  ⟨(assignPlots_unit_status demoState (assignPlots demoState admin1 1 assignTwo).2 admin1 1
      assignTwo 200 (.plots ⟨1, 1, 3, 1, 100000, 0, none⟩ 1 100000 0 100000)
      (by decide) (by decide)).1 (by decide) 0 ⟨1, 100000, 2, .available, none⟩ (by decide),
    (assignPlots_unit_status freshState (assignPlots freshState admin1 1 assignTwo).2 admin1 1
      assignTwo 200 (.plots ⟨1, 1, 3, 1, 100000, 0, none⟩ 1 100000 0 100000)
      (by decide) (by decide)).2 (by decide)⟩

/-- Claim C12: after a successful `assignPlots` with `n` plot ids on the unit
`u` (unique unit keys) and `amount_paid = a` (0 when omitted), the assignment
table is the old one followed by one new row, for this unit and salesperson,
with `total_plots_assigned = n`, `total_amount = n * u.price` and
`amount_paid = a`; the answer carries that row and reports `plots_assigned = n`,
`total_amount = n * u.price`, `amount_paid = a` and
`remaining_balance = n * u.price - a`. Amounts are integer numbers of cents. -/
theorem assignPlots_amounts (s s' : State) (user : User) (inventoryId : Nat)
    (r : AssignReq) (code : Nat) (body : AssignBody) (u : Inventory)
    (hne : r.plot_ids ≠ [])
    (hkeys : (s.inventory.map (·.id)).Nodup) (hu : u ∈ s.inventory) (huid : u.id = inventoryId)
    (hok : assignPlots s user inventoryId r = (Reply.ok code body, s')) :
    ∃ row : Assignment,
      s'.assignments = s.assignments ++ [row]
      ∧ row.inventory_id = inventoryId ∧ some row.salesperson_id = r.salesperson_id
      ∧ row.total_plots_assigned = r.plot_ids.length
      ∧ row.total_amount = (r.plot_ids.length : Int) * u.price
      ∧ row.amount_paid = r.amount_paid.getD 0
      ∧ body = AssignBody.plots row r.plot_ids.length ((r.plot_ids.length : Int) * u.price)
          (r.amount_paid.getD 0) ((r.plot_ids.length : Int) * u.price - r.amount_paid.getD 0) := by
  obtain ⟨sp, inventory, rest, hsp, hfilter, hsel⟩ := assignPlots_ok_inv hne hok
  obtain ⟨-, -, -, hbody, hassign, -⟩ := assignSelected_ok_inv hsel
  have := inventory_key_head hkeys hu huid hfilter
  subst this
  exact ⟨_, hassign, rfl, hsp.symm, rfl, rfl, rfl, hbody⟩

/-- Claim C12, witness: one plot of 1000.00 with 250.00 paid leaves 750.00. -/
theorem assignPlots_amounts_witness :
    ∃ row : Assignment,
      (assignPlots demoState admin1 1 assignTwoPaid).2.assignments = demoState.assignments ++ [row]
      ∧ row.total_plots_assigned = 1 ∧ row.total_amount = 100000 ∧ row.amount_paid = 25000
      ∧ (assignPlots demoState admin1 1 assignTwoPaid).1
          = Reply.ok 200 (AssignBody.plots row 1 100000 25000 75000) :=
  match assignPlots_amounts demoState (assignPlots demoState admin1 1 assignTwoPaid).2 admin1 1
      assignTwoPaid 200 (.plots ⟨1, 1, 3, 1, 100000, 25000, none⟩ 1 100000 25000 75000)
      ⟨1, 100000, 2, .available, none⟩ (by decide) (by decide) (by decide) (by decide)
      (by decide) with
  | ⟨row, h1, _, _, h4, h5, h6, h7⟩ =>
    ⟨row, h1, h4, h5, h6, by
      have e : (assignPlots demoState admin1 1 assignTwoPaid).1
          = Reply.ok 200 (.plots ⟨1, 1, 3, 1, 100000, 25000, none⟩ 1 100000 25000 75000) := by
        decide
      rw [e, h7]
      rfl⟩

/-- Claim C13: after a successful `approve` of the request `A` with the
non-empty plot set `ids` on the unit `u` (unique unit keys): every request row
with the id of `A` is the same row with status `approved` and the notes given;
every plot row whose id is in `ids` is the same row `assigned` to the
salesperson of `A`; the assignment table is the old one followed by one row
for that salesperson with `total_plots_assigned = |ids|`,
`total_amount = |ids| * u.price` and `amount_paid = 0`; and whenever
`assignPlots` for the same unit, salesperson and plot ids with an amount paid
of 0 succeeds from the same state, it yields the same plot table, assignment
table and unit table. -/
theorem approve_assigns_like_assignPlots (s s' : State) (user : User) (rid : Nat)
    (notes : Option String) (code : Nat) (A : Request) (rest : List Request) (ids : List Nat)
    (u : Inventory)
    (hA : s.requests.filter (fun q => q.id == rid) = A :: rest)
    (hplots : A.requested_plot_ids = some ids) (hne : ids ≠ [])
    (hkeys : (s.inventory.map (·.id)).Nodup) (hu : u ∈ s.inventory)
    (huid : u.id = A.inventory_id)
    (hok : approveRequest s user rid notes = (Reply.ok code (), s')) :
    (∀ (k : Nat) (q : Request), s.requests[k]? = some q → q.id = rid →
        s'.requests[k]? = some (approvedRow q notes))
    ∧ (∀ (k : Nat) (p : Plot), s.plots[k]? = some p → p.id ∈ ids →
        s'.plots[k]? = some (assignedRow p A.salesperson_id))
    ∧ s'.assignments = s.assignments ++
        [⟨s.nextAssignmentId, A.inventory_id, A.salesperson_id, ids.length,
          (ids.length : Int) * u.price, 0, none⟩]
    ∧ (∀ (admin : User) (paid : Option Int) (c : Nat) (b : AssignBody) (t : State),
        paid.getD 0 = 0 →
        assignPlots s admin A.inventory_id ⟨some A.salesperson_id, ids, paid, none⟩
          = (Reply.ok c b, t) →
        t.plots = s'.plots ∧ t.assignments = s'.assignments ∧ t.inventory = s'.inventory) := by
  obtain ⟨request, rest', inventory, more, hreq, hinvf, hassign, hinventory, hplotsEq⟩ :=
    approveRequest_ok_tables hok
  obtain ⟨request2, rest2, inventory2, more2, hreq2, -, -, hrequests, -⟩ :=
    approveRequest_ok_inv hok
  rw [hA] at hreq hreq2
  obtain ⟨hAeq, -⟩ := List.cons.inj hreq
  obtain ⟨hAeq2, -⟩ := List.cons.inj hreq2
  subst hAeq
  subst hAeq2
  have hinvu := inventory_available_head hkeys hu huid hinvf
  subst hinvu
  cases ids with
  | nil => exact absurd rfl hne
  | cons x xs =>
    obtain ⟨ha, hi⟩ := approveAssign_selected
      (markRequest s rid ReqStatus.approved (orNullStr notes)) A inventory x xs hplots
    have hp := approveAssign_plots
      (markRequest s rid ReqStatus.approved (orNullStr notes)) A inventory x xs hplots
    have hrem : remainingPlots (approveAssign
        (markRequest s rid ReqStatus.approved (orNullStr notes)) A inventory) A.inventory_id
        = remainingPlots s' A.inventory_id := by
      simp only [remainingPlots, hplotsEq]
    refine ⟨?_, ?_, ?_, ?_⟩
    · intro k q hk hid
      rw [hrequests]
      exact rejectOthers_self _ _ _ _ _ _
        (setRequestStatus_self s.requests rid ReqStatus.approved (orNullStr notes) k q hk hid) hid
    · intro k p hk hin
      rw [hplotsEq, hp]
      simp only [markRequest, assignPlotRows, List.getElem?_map, hk, Option.map_some']
      have : (x :: xs).contains p.id = true := by simpa using hin
      rw [if_pos this]
      rfl
    · rw [hassign, ha]
      rfl
    · intro admin paid c b t hpaid hok2
      obtain ⟨sp, inventory', rest'', hsp, hfilter, hsel⟩ :=
        assignPlots_ok_inv (by simp) hok2
      have hu' := inventory_key_head hkeys hu huid hfilter
      subst hu'
      simp only [Option.some.injEq] at hsp
      subst hsp
      obtain ⟨-, -, -, -, hassign2, hinv2⟩ := assignSelected_ok_inv hsel
      have hplots2 := assignSelected_ok_plots hsel
      simp only [] at hplots2 hassign2 hinv2
      have hpl : t.plots = s'.plots := by
        rw [hplots2, hplotsEq, hp]; rfl
      refine ⟨hpl, ?_, ?_⟩
      · rw [hassign2, hassign, ha, hpaid]
        rfl
      · rw [hinv2, hinventory, hi, hrem]
        simp only [remainingPlots, hpl]
        rfl

/-- Claim C13, witness: approving the request of dealer 3 for plot 1 in
`rivalState` writes what `assignPlots` of plot 1 to dealer 3 writes. -/
theorem approve_assigns_like_assignPlots_witness :
    (approveRequest rivalState admin1 1 none).2.assignments = [⟨1, 1, 3, 1, 100000, 0, none⟩]
    ∧ (assignPlots rivalState admin1 1 assignOne).2.plots
        = (approveRequest rivalState admin1 1 none).2.plots
    ∧ (assignPlots rivalState admin1 1 assignOne).2.assignments
        = (approveRequest rivalState admin1 1 none).2.assignments :=
  have h := approve_assigns_like_assignPlots rivalState
    (approveRequest rivalState admin1 1 none).2 admin1 1 none 200
    ⟨1, 1, 3, .pending, none, some [1]⟩ [] [1] ⟨1, 100000, 2, .available, none⟩
    (by decide) (by decide) (by decide) (by decide) (by decide) (by decide) (by decide)
  have g := h.2.2.2 admin1 none 200 (.plots ⟨1, 1, 3, 1, 100000, 0, none⟩ 1 100000 0 100000)
    (assignPlots rivalState admin1 1 assignOne).2 (by decide) (by decide)
  ⟨h.2.2.1, g.1, g.2.1⟩

/-- Claim C14: when the request found under the id is not `pending`, or no
unit row with the id the request refers to is `available`, `approve` answers
with an error and the database is unchanged: requests, plots, assignment
records and units are what they were. -/
theorem approve_precondition_fails (s : State) (user : User) (rid : Nat)
    (notes : Option String) (A : Request) (rest : List Request)
    (hA : s.requests.filter (fun q => q.id == rid) = A :: rest)
    (hpre : A.status ≠ ReqStatus.pending
      ∨ ∀ u ∈ s.inventory, u.id = A.inventory_id → u.status ≠ InvStatus.available) :
    ∃ code, approveRequest s user rid notes = (Reply.fail code, s) := by
  unfold approveRequest
  split
  · exact ⟨_, rfl⟩
  rw [hA]
  simp only []
  split
  · exact ⟨_, rfl⟩
  rename_i hpend
  rcases hpre with h | h
  · exact absurd h hpend
  · have hnil : s.inventory.filter (fun i => i.id == A.inventory_id
        && i.status == InvStatus.available) = [] := by
      rw [List.filter_eq_nil_iff]
      intro u hu hc
      simp only [Bool.and_eq_true, beq_iff_eq] at hc
      exact h u hu hc.1 hc.2
    rw [hnil]
    exact ⟨_, rfl⟩

/-- Claim C14, witness: request 1 of `afterApprove` is approved already. -/
theorem approve_precondition_fails_witness :
    afterApprove.requests = [⟨1, 1, 3, .approved, none, some [1]⟩]
    ∧ ∃ code, approveRequest afterApprove admin1 1 none = (Reply.fail code, afterApprove) :=
  ⟨by decide,
    approve_precondition_fails afterApprove admin1 1 none ⟨1, 1, 3, .approved, none, some [1]⟩ []
      (by decide) (Or.inl (by decide))⟩

/-- Claim C15: from a state whose request keys are unique and below the key
counter, over every sequence of create, approve and reject calls and between
any two points of it, a request row stays at its position with its key, its
status is unchanged unless it was `pending`, and a row that is `approved` or
`rejected` keeps that status, also through the automatic rejection done by the
approval of another request. -/
theorem request_status_terminal (s : State) (before later : List Op)
    (hkeys : ReqKeysOk s)
    (hbefore : ∀ o ∈ before, o.isRequestOp = true)
    (hlater : ∀ o ∈ later, o.isRequestOp = true) :
    ∀ (k : Nat) (q : Request), (run s before).requests[k]? = some q →
      ∃ q', (run (run s before) later).requests[k]? = some q' ∧ q'.id = q.id
        ∧ (q'.status = q.status ∨ q.status = ReqStatus.pending)
        ∧ (q.status = ReqStatus.approved → q'.status = ReqStatus.approved)
        ∧ (q.status = ReqStatus.rejected → q'.status = ReqStatus.rejected) := by
  intro k q hk
  obtain ⟨hk1, -⟩ := run_request before s hbefore hkeys
  obtain ⟨-, he⟩ := run_request later (run s before) hlater hk1
  obtain ⟨q', hq', hid, ha⟩ := he k q hk
  refine ⟨q', hq', hid, ha, ?_, ?_⟩
  · intro h
    rcases ha with ha | ha
    · rw [ha, h]
    · rw [h] at ha; cases ha
  · intro h
    rcases ha with ha | ha
    · rw [ha, h]
    · rw [h] at ha; cases ha

/-- Claim C15, witness: in `rivalState` the approval of request 1 rejects
request 2; rejecting or approving request 2 afterwards, or creating a new
request, leaves request 2 `rejected`. -/
theorem request_status_terminal_witness :
    (run rivalState [.approve admin1 1 none]).requests[1]?
        = some ⟨2, 1, 2, .rejected, none, some [2, 1]⟩
    ∧ ∃ q', (run (run rivalState [.approve admin1 1 none])
          [.reject admin1 2 none, .approve admin1 2 none,
            .request dealer2 ⟨some 1, [2]⟩]).requests[1]? = some q'
        ∧ q'.status = ReqStatus.rejected :=
  ⟨by decide,
    match request_status_terminal rivalState [.approve admin1 1 none]
        [.reject admin1 2 none, .approve admin1 2 none, .request dealer2 ⟨some 1, [2]⟩]
        (by decide) (by decide) (by decide) 1 ⟨2, 1, 2, .rejected, none, some [2, 1]⟩
        (by decide) with
    | ⟨q', h1, _, _, _, h5⟩ => ⟨q', h1, h5 rfl⟩⟩

/-- Claim C16: request creation on the unit `inventoryId` answers with an
error and leaves the database unchanged (no request inserted) when no unit row
with that id is `available`; when, plot keys being unique, some id of
`plot_ids` names no plot of the unit; and when some plot of the unit named in
`plot_ids` is not `available`. When it succeeds, the request table is the old
one followed by the returned row, which is `pending`, has the caller as
salesperson, the unit asked for, and the given plot ids (`NULL` when none are
given). -/
theorem createRequest_validates (s : State) (user : User) (r : CreateReq) (inventoryId : Nat)
    (hinv : r.inventory_id = some inventoryId) :
    ((∀ u ∈ s.inventory, u.id = inventoryId → u.status ≠ InvStatus.available) →
        ∃ code, createRequest s user r = (Reply.fail code, s))
    ∧ (∀ x : Nat, (s.plots.map (·.id)).Nodup → x ∈ r.plot_ids →
        (∀ p ∈ s.plots, p.id = x → p.inventory_id ≠ inventoryId) →
        ∃ code, createRequest s user r = (Reply.fail code, s))
    ∧ (∀ p ∈ s.plots, p.id ∈ r.plot_ids → p.inventory_id = inventoryId →
        p.status ≠ PlotStatus.available →
        ∃ code, createRequest s user r = (Reply.fail code, s))
    ∧ (∀ (code : Nat) (row : Request) (s' : State),
        createRequest s user r = (Reply.ok code row, s') →
        s'.requests = s.requests ++ [row]
        ∧ row.status = ReqStatus.pending ∧ row.salesperson_id = user.id
        ∧ row.inventory_id = inventoryId
        ∧ row.requested_plot_ids = (if r.plot_ids ≠ [] then some r.plot_ids else none)) := by
  have hget : r.inventory_id.getD 0 = inventoryId := by rw [hinv]; rfl
  refine ⟨?_, ?_, ?_, ?_⟩
  · intro hun
    rw [createRequest_eq]
    split
    · exact ⟨_, rfl⟩
    split
    · exact ⟨_, rfl⟩
    have hnil : s.inventory.filter (fun i => i.id == r.inventory_id.getD 0
        && i.status == InvStatus.available) = [] := by
      rw [List.filter_eq_nil_iff]
      intro u hu hc
      simp only [Bool.and_eq_true, beq_iff_eq] at hc
      exact hun u hu (by rw [hc.1, hget]) hc.2
    rw [hnil]
    exact ⟨_, rfl⟩
  · intro x hkeys hx hmiss
    apply createRequest_fail_of_refusal s user r 400
    rw [hget]
    have hne : r.plot_ids ≠ [] := List.ne_nil_of_mem hx
    have hlt := filter_ids_length_lt s.plots r.plot_ids (fun p => p.inventory_id == inventoryId)
      x hkeys hx (by
        intro p hp hpx
        simpa using hmiss p hp hpx)
    have hlen : (plotCheck s r.plot_ids inventoryId).length ≠ r.plot_ids.length :=
      Nat.ne_of_lt hlt
    simp only [createRefusal, hne, ne_eq, not_false_eq_true, if_true, hlen]
  · intro p hp hin hunit hst
    apply createRequest_fail_of_refusal s user r 400
    rw [hget]
    have hne : r.plot_ids ≠ [] := List.ne_nil_of_mem hin
    have hav : (plotCheck s r.plot_ids inventoryId).filter
        (fun p => p.status != PlotStatus.available) ≠ [] := by
      intro hnil
      rw [List.filter_eq_nil_iff] at hnil
      refine hnil p ?_ (by simpa using hst)
      simp only [plotCheck, List.mem_filter, Bool.and_eq_true, beq_iff_eq]
      exact ⟨hp, by simpa using hin, hunit⟩
    simp only [createRefusal, hne, ne_eq, not_false_eq_true, if_true]
    split
    · rfl
    · rfl
  · intro code row s' hok
    obtain ⟨-, -, -, hrow, hs'⟩ := createRequest_ok_inv hok
    subst hrow
    subst hs'
    exact ⟨rfl, rfl, rfl, hget, rfl⟩

/-- Claim C16, witness: in `demoState` a request for plot 1, which is assigned,
is refused; a request for plot 2 is stored as a pending request of the caller. -/
theorem createRequest_validates_witness :
    (∃ code, createRequest demoState dealer3 ⟨some 1, [1]⟩ = (Reply.fail code, demoState))
    ∧ (createRequest demoState dealer3 ⟨some 1, [2]⟩).2.requests
        = demoState.requests ++ [⟨1, 1, 3, .pending, none, some [2]⟩] :=
  ⟨(createRequest_validates demoState dealer3 ⟨some 1, [1]⟩ 1 rfl).2.2.1
      ⟨1, 1, "A", .assigned, some 2⟩ (by decide) (by decide) (by decide) (by decide),
    ((createRequest_validates demoState dealer3 ⟨some 1, [2]⟩ 1 rfl).2.2.2 201
      ⟨1, 1, 3, .pending, none, some [2]⟩ (createRequest demoState dealer3 ⟨some 1, [2]⟩).2
      (by decide)).1⟩

/-- Claim C17 fails on the code: the per-plot check of request creation tests
`requested_plot_ids && $4`, which is not true for a whole-unit request (its
`requested_plot_ids` is `NULL`). Dealer 3, who holds a pending whole-unit
request on unit 1, may therefore add a pending request for plot 1 of that unit,
and then holds two pending requests covering plot 1. In the other order the
whole-unit request is refused, and so is a second per-plot request sharing
plot 1. -/
theorem createRequest_ignores_whole_unit_request :
    wholeState.requests = [⟨1, 1, 3, .pending, none, none⟩]
    ∧ (createRequest wholeState dealer3 ⟨some 1, [1]⟩).1
        = Reply.ok 201 ⟨2, 1, 3, .pending, none, some [1]⟩
    ∧ (createRequest wholeState dealer3 ⟨some 1, [1]⟩).2.requests
        = [⟨1, 1, 3, .pending, none, none⟩, ⟨2, 1, 3, .pending, none, some [1]⟩]
    ∧ plotState.requests = [⟨1, 1, 3, .pending, none, some [1]⟩]
    ∧ createRequest plotState dealer3 ⟨some 1, []⟩ = (Reply.fail 400, plotState)
    ∧ createRequest plotState dealer3 ⟨some 1, [2, 1]⟩ = (Reply.fail 400, plotState) := by
  decide

/-- Claim C18: when the request found under the id is not `pending`, `reject`
answers with an error and the database is unchanged. When it is `pending` and
the caller is the administrator, `reject` succeeds; the new state differs
from the old one in the request table only, which has the same length, every
row with that id being the same row with status `rejected` and the notes
given, and every other row being unchanged: no plot, unit, assignment record
or other request is modified. -/
theorem reject_only_marks_request (s : State) (user : User) (rid : Nat)
    (notes : Option String) (A : Request) (rest : List Request)
    (hA : s.requests.filter (fun q => q.id == rid) = A :: rest) :
    (A.status ≠ ReqStatus.pending →
        ∃ code, rejectRequest s user rid notes = (Reply.fail code, s))
    ∧ (user.role = Role.admin → A.status = ReqStatus.pending →
        ∃ s', rejectRequest s user rid notes = (Reply.ok 200 (), s')
          ∧ { s' with requests := s.requests } = s
          ∧ s'.requests.length = s.requests.length
          ∧ ∀ (k : Nat) (q : Request), s.requests[k]? = some q →
              s'.requests[k]? = some (if q.id = rid then refusedRow q notes else q)) := by
  constructor
  · intro hst
    unfold rejectRequest
    split
    · exact ⟨_, rfl⟩
    rw [hA]
    simp only []
    rw [if_pos hst]
    exact ⟨_, rfl⟩
  · intro hrole hst
    refine ⟨markRequest s rid ReqStatus.rejected (orNullStr notes), ?_, rfl, ?_, ?_⟩
    · unfold rejectRequest
      have : (!adminOnly user) = false := by simp [adminOnly, hrole]
      rw [this]
      simp only [Bool.false_eq_true, if_false, hA]
      rw [if_neg (by simpa using hst)]
    · simp [markRequest, setRequestStatus]
    · intro k q hk
      simp only [markRequest, setRequestStatus, List.getElem?_map, hk, Option.map_some',
        beq_iff_eq]
      rfl

/-- Claim C18, witness: rejecting request 2 of `rivalState`. -/
theorem reject_only_marks_request_witness :
    ∃ s', rejectRequest rivalState admin1 2 (some "taken") = (Reply.ok 200 (), s')
      ∧ s'.plots = rivalState.plots
      ∧ s'.requests[0]? = some ⟨1, 1, 3, .pending, none, some [1]⟩
      ∧ s'.requests[1]? = some ⟨2, 1, 2, .rejected, some "taken", some [2, 1]⟩ :=
  match (reject_only_marks_request rivalState admin1 2 (some "taken")
      ⟨2, 1, 2, .pending, none, some [2, 1]⟩ [] (by decide)).2 rfl rfl with
  | ⟨s', h1, h2, _, h4⟩ =>
    ⟨s', h1, by rw [← h2], h4 0 ⟨1, 1, 3, .pending, none, some [1]⟩ (by decide),
      h4 1 ⟨2, 1, 2, .pending, none, some [2, 1]⟩ (by decide)⟩

/-- Claim C19, as stated, fails when the body selects no inventory unit: the
whole validation sits inside `if (inventoryIdsToProcess.length > 0)`, so the
plot ids are ignored. Dealer 2 names plot 2, which is `available` and assigned
to nobody; the call succeeds and a deal row is created. -/
theorem createDeal_ignores_plots_without_unit :
    looseDeal.plot_ids = [2]
    ∧ demoState.plots[1]? = some ⟨2, 1, "B", .available, none⟩
    ∧ (createDeal demoState dealer2 looseDeal).1
        = Reply.ok 201 ⟨1, 2, none, none, .in_progress⟩
    ∧ (createDeal demoState dealer2 looseDeal).2.deals = [⟨1, 2, none, none, .in_progress⟩] := by
  decide

/-- Claim C19 (amended to deals that select an inventory unit): for a deal on
the unit `inv`, plot keys being unique, `createDeal` answers with an error
and leaves the database unchanged (no deal row, no junction row, no plot
changed) when some id of `plot_ids` names no plot of the unit, when some plot
named in `plot_ids` is neither `assigned` nor `paid`, and, for a salesperson,
when some plot named in `plot_ids` is not assigned to the caller. For an
administrator the assignee is not looked at: the call succeeds whenever the
unit exists under a unique key, `plot_ids` is a non-empty list without
repetition of plots of the unit that are `assigned` or `paid`, the deal row
is accepted by the database and the new deal id has no junction row yet. -/
theorem createDeal_plot_validation (s : State) (user : User) (r : DealReq) (inv : Nat)
    (hsel : inventoryIdsToProcess r = [inv]) (hkeys : (s.plots.map (·.id)).Nodup) :
    (∀ x ∈ r.plot_ids, (∀ p ∈ s.plots, p.id = x → p.inventory_id ≠ inv) →
        ∃ code, createDeal s user r = (Reply.fail code, s))
    ∧ (∀ p ∈ s.plots, p.id ∈ r.plot_ids →
        p.status ≠ PlotStatus.assigned → p.status ≠ PlotStatus.paid →
        ∃ code, createDeal s user r = (Reply.fail code, s))
    ∧ (user.role = Role.dealer → ∀ p ∈ s.plots, p.id ∈ r.plot_ids →
        p.assigned_to ≠ some user.id →
        ∃ code, createDeal s user r = (Reply.fail code, s))
    ∧ (user.role = Role.admin → r.plot_ids ≠ [] → r.plot_ids.Nodup →
        ∀ u ∈ s.inventory, u.id = inv → (s.inventory.map (·.id)).Nodup →
        (∀ x ∈ r.plot_ids, ∃ p ∈ s.plots, p.id = x ∧ p.inventory_id = inv) →
        (∀ p ∈ s.plots, p.id ∈ r.plot_ids → p.inventory_id = inv →
          p.status = PlotStatus.assigned ∨ p.status = PlotStatus.paid) →
        truthyStr r.property_type = true → dealKeysOk s user r = true →
        (∀ d ∈ s.dealPlots, d.deal_id ≠ s.nextDealId) →
        ∃ s', createDeal s user r
          = (Reply.ok 201 (dealRow s user r (r.plot_ids.length : Int)), s')) := by
  refine ⟨?_, ?_, ?_, ?_⟩
  · intro x hx hmiss
    exact createDeal_plot_fails_a s user r inv x hsel hkeys hx hmiss
  · intro p hp hid h1 h2
    by_cases hunit : p.inventory_id = inv
    · exact createDeal_plot_fails_b s user r inv p hsel hp hid hunit h1 h2
    · refine createDeal_plot_fails_a s user r inv p.id hsel hkeys hid ?_
      intro p' hp' hid'
      have hsame : p' = p := List.inj_on_of_nodup_map hkeys hp' hp hid'
      rw [hsame]
      exact hunit
  · intro hrole p hp hid hown
    by_cases hunit : p.inventory_id = inv
    · exact createDeal_plot_fails_c s user r inv p hsel hrole hp hid hunit hown
    · refine createDeal_plot_fails_a s user r inv p.id hsel hkeys hid ?_
      intro p' hp' hid'
      have hsame : p' = p := List.inj_on_of_nodup_map hkeys hp' hp hid'
      rw [hsame]
      exact hunit
  · intro hrole hne hnd u hu huid hukeys hall hst hprop hins hfresh
    exact createDeal_admin_succeeds s user r inv u hsel hne hrole hkeys hukeys hu huid hnd hall
      hst hprop hins hfresh

/-- Claim C19, witness: plot 1 of `demoState` is assigned to dealer 2; a deal
of dealer 3 on it is refused, a deal of the administrator is created. -/
theorem createDeal_plot_validation_witness :
    (∃ code, createDeal demoState dealer3 plotDeal = (Reply.fail code, demoState))
    ∧ ∃ s', createDeal demoState admin1 plotDeal
        = (Reply.ok 201 (dealRow demoState admin1 plotDeal (plotDeal.plot_ids.length : Int)), s') :=
  ⟨(createDeal_plot_validation demoState dealer3 plotDeal 1 (by decide) (by decide)).2.2.1
      rfl ⟨1, 1, "A", .assigned, some 2⟩ (by decide) (by decide) (by decide),
    (createDeal_plot_validation demoState admin1 plotDeal 1 (by decide) (by decide)).2.2.2
      rfl (by decide) (by decide) ⟨1, 100000, 2, .available, none⟩ (by decide) (by decide)
      (by decide) (by decide) (by decide) (by decide) (by decide) (by decide)⟩

/-- Claim C20 fails on the code: the plot ids of the body are taken over into
`selectedPlotIds` only inside `if (inventoryIdsToProcess.length > 0)`. Dealer 2
creates a deal that names plot 1, which is assigned to dealer 2, and selects
no inventory unit: the call answers 201 and inserts the deal row, but no
junction row is written and plot 1 keeps its status `assigned` instead of
becoming `used_in_deal`. -/
theorem createDeal_without_unit_attaches_nothing :
    looseDealOne.plot_ids = [1]
    ∧ inventoryIdsToProcess looseDealOne = []
    ∧ demoState.plots[0]? = some ⟨1, 1, "A", .assigned, some 2⟩
    ∧ (createDeal demoState dealer2 looseDealOne).1
        = Reply.ok 201 ⟨1, 2, none, none, .in_progress⟩
    ∧ (createDeal demoState dealer2 looseDealOne).2.deals = [⟨1, 2, none, none, .in_progress⟩]
    ∧ (createDeal demoState dealer2 looseDealOne).2.dealPlots = []
    ∧ (createDeal demoState dealer2 looseDealOne).2.plots = demoState.plots := by
  decide

/-- Claim C20, on the path where the deal selects an inventory unit: after a
successful `createDeal` on the unit `inv` with a non-empty `plot_ids`, the
deal table is the old one followed by the returned row, whose id is the next
deal id; the junction table is the old one followed by one row
`(deal, plot)` per element of `plot_ids`, in order, and `plot_ids` has no
repetition; every plot row whose id is in `plot_ids` is the same row with
status `used_in_deal` and every other plot row is unchanged; and, plot keys
being unique, after any sequence of later calls of the embedded handlers,
every `assignPlots` and every request creation whose plot list contains one
of those plots answers with an error and changes nothing. -/
theorem createDeal_consumes_plots (s s' : State) (user : User) (r : DealReq) (inv : Nat)
    (code : Nat) (row : Deal)
    (hsel : inventoryIdsToProcess r = [inv]) (hne : r.plot_ids ≠ [])
    (hok : createDeal s user r = (Reply.ok code row, s')) :
    (row.id = s.nextDealId ∧ s'.deals = s.deals ++ [row])
    ∧ (∃ rows : List DealPlot, s'.dealPlots = s.dealPlots ++ rows
        ∧ rows.map (fun d => (d.deal_id, d.plot_id)) = r.plot_ids.map (fun x => (row.id, x)))
    ∧ r.plot_ids.Nodup
    ∧ (∀ (k : Nat) (p : Plot), s.plots[k]? = some p →
        s'.plots[k]? = some (if p.id ∈ r.plot_ids then usedPlot p else p))
    ∧ ((s.plots.map (·.id)).Nodup → ∀ (ops : List Op) (x : Nat), x ∈ r.plot_ids →
        (∀ (caller : User) (unit : Nat) (a : AssignReq), x ∈ a.plot_ids →
          ∃ c, assignPlots (run s' ops) caller unit a = (Reply.fail c, run s' ops))
        ∧ (∀ (caller : User) (c : CreateReq), x ∈ c.plot_ids →
          ∃ e, createRequest (run s' ops) caller c = (Reply.fail e, run s' ops))) := by
  obtain ⟨q, sel, hval, hrow, -, hins⟩ := createDeal_ok_inv hok
  obtain ⟨hselEq, -⟩ := validateDeal_plots_ok hsel hne hval
  subst hselEq
  obtain ⟨⟨rows, hrows, hpairs⟩, hplots, hnd, hdeals⟩ := insertDealPlots_ok _ _ _ _ hins
  have hid : row.id = s.nextDealId := by rw [hrow]; rfl
  have hplots' : s'.plots = s.plots.map (fun p => if p.id ∈ r.plot_ids then usedPlot p else p) :=
    hplots
  refine ⟨⟨hid, ?_⟩, ⟨rows, hrows, by rw [hpairs, hid]⟩, hnd, ?_, ?_⟩
  · rw [hdeals, hrow]; rfl
  · intro k p hk
    rw [hplots']
    simp only [List.getElem?_map, hk, Option.map_some']
  · intro hkeys ops x hx
    have hkeys' : (s'.plots.map (·.id)).Nodup := by
      rw [hplots', List.map_map]
      have : (fun p : Plot => p.id) ∘ (fun p => if p.id ∈ r.plot_ids then usedPlot p else p)
          = fun p => p.id := by
        funext p
        simp only [Function.comp]
        split <;> rfl
      rw [this]
      exact hkeys
    have hblock' : ∀ p ∈ s'.plots, p.id = x → p.status ≠ PlotStatus.available := by
      intro p hp hpx
      rw [hplots', List.mem_map] at hp
      obtain ⟨p0, -, rfl⟩ := hp
      by_cases hin : p0.id ∈ r.plot_ids
      · simp [hin, usedPlot]
      · exfalso
        simp only [hin, if_false] at hpx
        exact hin (by rw [hpx]; exact hx)
    have hkept := run_plots_kept ops s'
    have hkeysT : ((run s' ops).plots.map (·.id)).Nodup := by
      rw [plotsKept_keys hkept]; exact hkeys'
    have hblockT := plotsKept_blocked hkept x hblock'
    exact ⟨fun caller unit a ha =>
        assignPlots_fail_of_blocked _ caller unit a x hkeysT ha hblockT,
      fun caller c hc => createRequest_fail_of_blocked _ caller c x hkeysT hc hblockT⟩

/-- Claim C20, on the path where the deal selects an inventory unit, at a
concrete input: dealer 2 builds a deal on plot 1 of `demoState`; the
plot becomes `used_in_deal`, and after a later payment on it an assignment of
plot 1 is still refused. -/
theorem createDeal_consumes_plots_witness :
    (createDeal demoState dealer2 plotDeal).2.dealPlots = [⟨1, 1, 1⟩]
    ∧ (createDeal demoState dealer2 plotDeal).2.plots[0]?
        = some (if (1 : Nat) ∈ plotDeal.plot_ids then usedPlot ⟨1, 1, "A", .assigned, some 2⟩
            else ⟨1, 1, "A", .assigned, some 2⟩)
    ∧ ∃ c, assignPlots (run (createDeal demoState dealer2 plotDeal).2 [.pay dealer2 smallReq])
          admin1 1 assignOne
        = (Reply.fail c, run (createDeal demoState dealer2 plotDeal).2 [.pay dealer2 smallReq]) :=
  have h := createDeal_consumes_plots demoState (createDeal demoState dealer2 plotDeal).2
    dealer2 plotDeal 1 201 ⟨1, 2, some 1, some 1, .in_progress⟩ (by decide) (by decide)
    (by decide)
  ⟨by decide, h.2.2.2.1 0 ⟨1, 1, "A", .assigned, some 2⟩ (by decide),
    ((h.2.2.2.2 (by decide)) [.pay dealer2 smallReq] 1 (by decide)).1 admin1 1 assignOne
      (by decide)⟩

/-- Claim C21: for a caller who is not an administrator, a successful
`recordPayment` appends exactly the created rows to the payment table, and
every created row is recorded under the caller, on the unit of the request,
and names an investor whose `salesperson_id` is the caller; when a plot is
given the row names that plot, some plot row under that id is assigned to the
caller and some is of the unit (with unique plot keys: the plot under that id
is of the unit and assigned to the caller); when no plot is given the row has
no plot and a unit row under the unit id is assigned to the caller. When an
entry names an investor that is not the caller's, or the plot is not assigned
to the caller, or the plot is not of the unit, or (no plot given) the unit is
not assigned to the caller, the call answers with an error and the database
is unchanged. -/
theorem recordPayment_authorized (s : State) (user : User) (r : PaymentReq)
    (hrole : user.role ≠ Role.admin) :
    (∀ (code : Nat) (created : List InventoryPayment) (total : Int) (s' : State),
        recordPayment s user r = (Reply.ok code (created, total), s') →
        s'.payments = s.payments ++ created
        ∧ ∀ row ∈ created, row.salesperson_id = user.id
            ∧ r.inventory_id = some row.inventory_id
            ∧ (∃ inv ∈ s.investors, row.investor_id = some inv.id
                ∧ inv.salesperson_id = user.id)
            ∧ (truthyId r.plot_id = true → row.plot_id = r.plot_id
                ∧ (∃ p ∈ s.plots, row.plot_id = some p.id ∧ p.assigned_to = some user.id)
                ∧ (∃ p ∈ s.plots, row.plot_id = some p.id
                    ∧ p.inventory_id = row.inventory_id)
                ∧ ((s.plots.map (·.id)).Nodup → ∀ p ∈ s.plots, row.plot_id = some p.id →
                    p.inventory_id = row.inventory_id ∧ p.assigned_to = some user.id))
            ∧ (truthyId r.plot_id = false → row.plot_id = none
                ∧ ∃ u ∈ s.inventory, u.id = row.inventory_id
                    ∧ u.assigned_to = some user.id))
    ∧ (((∃ entries e, investorPayments r = some entries ∧ e ∈ entries
            ∧ ∀ inv ∈ s.investors, e.investor_id = some inv.id →
                inv.salesperson_id ≠ user.id)
        ∨ (truthyId r.plot_id = true
            ∧ ∀ p ∈ s.plots, r.plot_id = some p.id → p.assigned_to ≠ some user.id)
        ∨ (truthyId r.plot_id = true
            ∧ ∀ p ∈ s.plots, r.plot_id = some p.id → r.inventory_id ≠ some p.inventory_id)
        ∨ (truthyId r.plot_id = false
            ∧ ∀ u ∈ s.inventory, r.inventory_id = some u.id →
                u.assigned_to ≠ some user.id)) →
        ∃ c, recordPayment s user r = (Reply.fail c, s)) := by
  constructor
  · intro code created total s' hok
    obtain ⟨entries, s1, created', hinv, -, -, -, htarget, hcheck, hins, hs', -, hbody⟩ :=
      recordPayment_ok_inv hok
    obtain ⟨hcr, -⟩ := Prod.mk.inj hbody
    subst hcr
    obtain ⟨rows, hrows, hpay, hmap, hfields⟩ := insertPayments_rows _ _ _ _ _ _ _ _ _ _ hins
    simp only [List.nil_append] at hrows
    subst hrows
    have hunit : r.inventory_id = some (r.inventory_id.getD 0) := by
      cases hr : r.inventory_id with
      | none => rw [hr] at hinv; cases hinv
      | some n => rfl
    obtain ⟨hplot, hnoplot⟩ := checkTarget_none hrole htarget
    refine ⟨by rw [hs', promote_payments, hpay], ?_⟩
    intro row hrow
    obtain ⟨hri, hrp, hrs⟩ := hfields row hrow
    have hmem : (row.investor_id, row.amount)
        ∈ entries.map (fun e => (e.investor_id, e.amount)) := by
      rw [← hmap]; exact List.mem_map_of_mem _ hrow
    obtain ⟨e, he, hee⟩ := List.mem_map.mp hmem
    obtain ⟨hei, -⟩ := Prod.mk.inj hee
    obtain ⟨inv, more, hfilter, -⟩ := checkInvestors_none s user hrole entries hcheck e he
    have hinvmem : inv ∈ investorCheck s e.investor_id user.id := by
      rw [hfilter]; exact List.mem_cons_self _ _
    simp only [investorCheck, List.mem_filter, Bool.and_eq_true, sqlEq_some_left,
      beq_iff_eq] at hinvmem
    refine ⟨hrs, by rw [hri]; exact hunit, ⟨inv, hinvmem.1, by rw [← hei]; exact hinvmem.2.1,
      hinvmem.2.2⟩, ?_, ?_⟩
    · intro ht
      have hsame : row.plot_id = r.plot_id := by rw [hrp, orNull, if_pos ht]
      obtain ⟨⟨p, hp, hpid, hpa⟩, ⟨q, hq, hqid, hqu⟩⟩ := hplot ht
      refine ⟨hsame, ⟨p, hp, by rw [hsame]; exact hpid, hpa⟩,
        ⟨q, hq, by rw [hsame]; exact hqid, by rw [hri]; exact hqu⟩, ?_⟩
      intro hkeys x hx hxid
      rw [hsame] at hxid
      have hxp : x = p := List.inj_on_of_nodup_map hkeys hx hp (by
        have := hxid.symm.trans hpid
        exact Option.some.inj this)
      have hxq : x = q := List.inj_on_of_nodup_map hkeys hx hq (by
        have := hxid.symm.trans hqid
        exact Option.some.inj this)
      refine ⟨?_, by rw [hxp]; exact hpa⟩
      rw [hri, hxq]; exact hqu
    · intro ht
      obtain ⟨u, hu, huid, hua⟩ := hnoplot ht
      refine ⟨by rw [hrp, orNull, ht]; rfl, u, hu, by rw [hri]; exact huid, hua⟩
  · intro hbad
    apply recordPayment_refused
    intro entries hunit hentries htarget hcheck
    obtain ⟨hplot, hnoplot⟩ := checkTarget_none hrole htarget
    rcases hbad with ⟨entries', e, hentries', he, hown⟩ | ⟨ht, hno⟩ | ⟨ht, hno⟩ | ⟨ht, hno⟩
    · rw [hentries] at hentries'
      obtain rfl := Option.some.inj hentries'
      obtain ⟨inv, more, hfilter, -⟩ := checkInvestors_none s user hrole entries hcheck e he
      have hinvmem : inv ∈ investorCheck s e.investor_id user.id := by
        rw [hfilter]; exact List.mem_cons_self _ _
      simp only [investorCheck, List.mem_filter, Bool.and_eq_true, sqlEq_some_left,
        beq_iff_eq] at hinvmem
      exact hown inv hinvmem.1 hinvmem.2.1 hinvmem.2.2
    · obtain ⟨⟨p, hp, hpid, hpa⟩, -⟩ := hplot ht
      exact hno p hp hpid hpa
    · obtain ⟨-, ⟨q, hq, hqid, hqu⟩⟩ := hplot ht
      apply hno q hq hqid
      rw [hqu]
      exact hunit
    · obtain ⟨u, hu, huid, hua⟩ := hnoplot ht
      refine hno u hu ?_ hua
      rw [huid]
      exact hunit

/-- Claim C21, witness: the payment of dealer 2 on plot 1 of `demoState`
creates one row drawn on an investor of dealer 2; the same request by
dealer 3, to whom plot 1 is not assigned, is refused. -/
theorem recordPayment_authorized_witness :
    (recordPayment demoState dealer2 payReq).1 = Reply.ok 201 ([paidRow], 300000)
    ∧ (∃ inv ∈ demoState.investors, paidRow.investor_id = some inv.id
        ∧ inv.salesperson_id = dealer2.id)
    ∧ ∃ c, recordPayment demoState dealer3 payReq = (Reply.fail c, demoState) :=
  ⟨by decide,
    (((recordPayment_authorized demoState dealer2 payReq (by decide)).1 201 [paidRow] 300000
      (recordPayment demoState dealer2 payReq).2 (by decide)).2 paidRow (by decide)).2.2.1,
    (recordPayment_authorized demoState dealer3 payReq (by decide)).2
      (Or.inr (Or.inl ⟨by decide, by decide⟩))⟩

/-- Claim C22: when the payment found under the id (payment keys and investor
keys unique) names the investor `inv` (key not 0), `deletePayment` succeeds;
afterwards the payment row is gone and the other payment rows are kept, the
row of `inv` has `paid_amount = max 0 (q - a)` and
`remaining_balance = t - max 0 (q - a)` for its former cached `paid_amount`
`q`, its `total_invested` `t` and the amount `a` of the payment, the other
investor rows are unchanged, and the plot table and the unit table are
unchanged: a plot or unit promoted to `paid` stays `paid`. -/
theorem deletePayment_reverses_balance (s : State) (user : User) (pid : Nat)
    (payment : InventoryPayment) (rest : List InventoryPayment) (inv : Investor)
    (hpk : (s.payments.map (·.id)).Nodup) (hik : (s.investors.map (·.id)).Nodup)
    (hpay : s.payments.filter (visibleTo user pid) = payment :: rest)
    (hinv : inv ∈ s.investors) (href : payment.investor_id = some inv.id)
    (hid : inv.id ≠ 0) :
    ∃ s', deletePayment s user pid = (Reply.ok 200 (), s')
      ∧ payment ∉ s'.payments
      ∧ (∀ p, p ∈ s'.payments ↔ p ∈ s.payments ∧ p ≠ payment)
      ∧ (∀ (k : Nat) (row : Investor), s.investors[k]? = some row →
          s'.investors[k]? = some (if row.id = inv.id then debitedRow inv payment.amount
            else row))
      ∧ s'.plots = s.plots ∧ s'.inventory = s.inventory := by
  have ht : truthyId payment.investor_id = true := truthyId_some hid href
  have hdel := deletePayment_found s user pid payment rest hpay
  rw [if_pos ht] at hdel
  refine ⟨_, hdel, ?_⟩
  have hpm : payment ∈ s.payments.filter (visibleTo user pid) := by
    rw [hpay]; exact List.mem_cons_self _ _
  rw [List.mem_filter] at hpm
  have hmem : ∀ p, p ∈ (debitInvestor (removePayments s user pid) payment.investor_id
      payment.amount).payments ↔ p ∈ s.payments ∧ p ≠ payment := by
    intro p
    rw [debitInvestor_payments]
    simp only [removePayments, List.mem_filter, Bool.not_eq_true']
    constructor
    · rintro ⟨hp, hv⟩
      refine ⟨hp, ?_⟩
      intro hc
      rw [hc, hpm.2] at hv
      cases hv
    · rintro ⟨hp, hne⟩
      refine ⟨hp, ?_⟩
      cases hv : visibleTo user pid p with
      | false => rfl
      | true =>
        exfalso
        apply hne
        exact List.inj_on_of_nodup_map hpk hp hpm.1
          ((visibleTo_id hv).trans (visibleTo_id hpm.2).symm)
  refine ⟨fun hc => ((hmem payment).mp hc).2 rfl, hmem, ?_,
    by rw [debitInvestor_plots]; rfl, by rw [debitInvestor_inventory]; rfl⟩
  intro k row hk
  have hfilter := filter_key_ne_nil hinv
  unfold debitInvestor
  simp only [removePayments, href]
  cases hf : s.investors.filter (fun r => sqlEq (some r.id) (some inv.id)) with
  | nil => exact absurd hf hfilter
  | cons first more =>
    have hfirst : first = inv := filter_key_head hik hinv hf
    subst hfirst
    simp only [setInvestorBalance, List.getElem?_map, hk, Option.map_some', Option.some.injEq]
    by_cases hrow : row.id = first.id
    · have hsame : row = first :=
        List.inj_on_of_nodup_map hik (List.getElem?_mem hk) hinv hrow
      subst hsame
      simp [sqlEq, debitedRow]
    · have : ¬ sqlEq (some row.id) (some first.id) = true := by
        rw [sqlEq_some_left]; intro hc; exact hrow (Option.some.inj hc).symm
      rw [if_neg this, if_neg hrow]

/-- Claim C22, witness: deleting the payment of 3000.00 of `paidState` brings
the cache of investor 1 from 3000.00 paid back to 0 paid. -/
theorem deletePayment_reverses_balance_witness :
    ∃ s', deletePayment paidState dealer2 1 = (Reply.ok 200 (), s')
      ∧ paidRow ∉ s'.payments
      ∧ s'.investors[0]? = some (if (1 : Nat) = 1
          then debitedRow ⟨1, 2, 500000, 300000, 200000⟩ 300000
          else ⟨1, 2, 500000, 300000, 200000⟩)
      ∧ debitedRow ⟨1, 2, 500000, 300000, 200000⟩ 300000 = ⟨1, 2, 500000, 0, 500000⟩
      ∧ s'.plots = paidState.plots :=
  match deletePayment_reverses_balance paidState dealer2 1 paidRow []
      ⟨1, 2, 500000, 300000, 200000⟩ (by decide) (by decide) (by decide) (by decide)
      (by decide) (by decide) with
  | ⟨s', h1, h2, _, h4, h5, _⟩ =>
    ⟨s', h1, h2, h4 0 ⟨1, 2, 500000, 300000, 200000⟩ (by decide), by decide, h5⟩

/-- Claim C23 fails on the code: the total of line 92 is a sum of doubles.
Dealer 2 records 0.10, 0.20 and -0.30 from investor 1 on plot 1 of
`demoState`; the contributions sum to exactly 0, but in doubles
`0.1 + 0.2 - 0.3` is `2 ^ (-54)`, which is greater than 0: the check of line 93
lets the request through, the call answers 201 with the three created rows,
three payment rows are inserted and the cache of investor 1 is rewritten three
times, ending where it started. Two
contributions of 1000.00 and -1000.00, whose doubles cancel, are refused with
400 whoever the caller is. -/
theorem recordPayment_rounding_passes_zero_total :
    investorPayments dustReq = some [⟨some 1, 10⟩, ⟨some 1, 20⟩, ⟨some 1, -30⟩]
    ∧ ¬ 0 < (([⟨some 1, 10⟩, ⟨some 1, 20⟩, ⟨some 1, -30⟩] : List InvestorEntry).map
        (·.amount)).sum
    ∧ parseFloat 10 = 7205759403792794 * 2 ^ 3
    ∧ parseFloat 20 = 7205759403792794 * 2 ^ 4
    ∧ parseFloat (-30) = -(5404319552844595 * 2 ^ 5)
    ∧ addDouble (parseFloat 10) (parseFloat 20) = 5404319552844596 * 2 ^ 5
    ∧ totalAmountDouble [⟨some 1, 10⟩, ⟨some 1, 20⟩, ⟨some 1, -30⟩] = 2 ^ 5
    ∧ (∃ body, (recordPayment demoState dealer2 dustReq).1 = Reply.ok 201 body
        ∧ body.1 = [⟨1, 1, some 1, some 1, 2, 10, "2024-01-01", none⟩,
            ⟨2, 1, some 1, some 1, 2, 20, "2024-01-01", none⟩,
            ⟨3, 1, some 1, some 1, 2, -30, "2024-01-01", none⟩])
    ∧ (recordPayment demoState dealer2 dustReq).2.payments
        = [⟨1, 1, some 1, some 1, 2, 10, "2024-01-01", none⟩,
            ⟨2, 1, some 1, some 1, 2, 20, "2024-01-01", none⟩,
            ⟨3, 1, some 1, some 1, 2, -30, "2024-01-01", none⟩]
    ∧ (recordPayment demoState dealer2 dustReq).2.nextPaymentId = 4
    ∧ (recordPayment demoState dealer2 dustReq).2.investors = [⟨1, 2, 500000, 0, 500000⟩]
    ∧ totalAmountDouble [⟨some 1, 100000⟩, ⟨some 1, -100000⟩] = 0
    ∧ recordPayment demoState dealer3 zeroReq = (Reply.fail 400, demoState) :=
  ⟨by decide, by decide, by decide, by decide, by decide, by decide, by decide,
    ⟨((recordPayment demoState dealer2 dustReq).2.payments, 0), by decide, by decide⟩,
    by decide, by decide, by decide, by decide, by decide⟩

/-- Claim C24: for a caller allowed to read the salesperson (an administrator
or the salesperson), `getSalespersonBalance` answers 200 with
`total_invested` the sum of `total_invested` over the investors of that
salesperson, `total_used` the sum of the amounts of the payments recorded
under that salesperson, and `remaining_balance` their difference; and for
every caller the answer is the same in any two states that hold the same
ledger, that is, differ only in the cached `paid_amount` /
`remaining_balance` columns of the investors (and in tables the handler does
not read). -/
theorem getSalespersonBalance_from_ledger (s : State) (user : User) (sp : Nat) :
    ((user.role = Role.admin ∨ user.id = sp) →
      ∃ b, getSalespersonBalance s user sp = Reply.ok 200 b
        ∧ b.total_invested
            = (s.investors.map (fun i => if i.salesperson_id = sp then i.total_invested
                else 0)).sum
        ∧ b.total_used
            = (s.payments.map (fun p => if p.salesperson_id = sp then p.amount else 0)).sum
        ∧ b.remaining_balance = b.total_invested - b.total_used)
    ∧ (∀ t, SameLedger s t →
        getSalespersonBalance t user sp = getSalespersonBalance s user sp) := by
  constructor
  · intro hread
    have hgate : ¬ (user.role ≠ Role.admin ∧ user.id ≠ sp) := by
      rintro ⟨h1, h2⟩
      rcases hread with h | h
      · exact h1 h
      · exact h2 h
    refine ⟨_, by rw [getSalespersonBalance, if_neg hgate], ?_, ?_, rfl⟩
    · simp only [totalInvested, sum_filter_eq_sum_ite, beq_iff_eq]
    · simp only [totalPaidBy, sum_filter_eq_sum_ite, beq_iff_eq]
  · intro t ⟨hp, hi⟩
    unfold getSalespersonBalance
    rw [totalInvested_congr sp hi]
    simp only [totalPaidBy, hp]

/-- Claim C24, witness: in `paidState` dealer 2 has 5000.00 invested and
3000.00 used; `driftState`, whose cache has drifted, gives the same answer. -/
theorem getSalespersonBalance_from_ledger_witness :
    (∃ b, getSalespersonBalance paidState dealer2 2 = Reply.ok 200 b
      ∧ b.total_invested
          = (paidState.investors.map (fun i => if i.salesperson_id = 2 then i.total_invested
              else 0)).sum
      ∧ b.total_used
          = (paidState.payments.map (fun p => if p.salesperson_id = 2 then p.amount
              else 0)).sum
      ∧ b.remaining_balance = b.total_invested - b.total_used)
    ∧ getSalespersonBalance paidState dealer2 2 = Reply.ok 200 ⟨2, 500000, 300000, 200000⟩
    ∧ paidState.investors ≠ driftState.investors
    ∧ getSalespersonBalance driftState dealer2 2 = getSalespersonBalance paidState dealer2 2 :=
  ⟨(getSalespersonBalance_from_ledger paidState dealer2 2).1 (Or.inr rfl), by decide, by decide,
    (getSalespersonBalance_from_ledger paidState dealer2 2).2 driftState (by decide)⟩

/-- Claim C25: for a deal on the unit `u` (unique unit keys) without plot
ids, `createDeal` answers with an error and leaves the database unchanged
when the quantity to use (`inventory_quantity_used`, 1 when absent or 0) is
less than 1 or greater than `u.quantity` minus the quantity used by the
existing deals on the unit whose status is not `deal_not_done`. When it
succeeds, the unit table is unchanged, the deal table grows by the returned
row, the quantity is at least 1 and at most what was left, the quantity used
on the unit grows by it, and the quantity used on the unit afterwards is at
most `u.quantity`. -/
theorem createDeal_legacy_quantity (s : State) (user : User) (r : DealReq) (inv : Nat)
    (u : Inventory)
    (hsel : inventoryIdsToProcess r = [inv]) (hnop : r.plot_ids = [])
    (hkeys : (s.inventory.map (·.id)).Nodup) (hu : u ∈ s.inventory) (huid : u.id = inv) :
    ((quantityRequested r < 1 ∨ quantityRequested r > u.quantity - totalUsed s inv) →
        ∃ code, createDeal s user r = (Reply.fail code, s))
    ∧ (∀ (code : Nat) (row : Deal) (s' : State),
        createDeal s user r = (Reply.ok code row, s') →
        s'.inventory = s.inventory ∧ s'.deals = s.deals ++ [row]
        ∧ 1 ≤ quantityRequested r
        ∧ quantityRequested r ≤ u.quantity - totalUsed s inv
        ∧ (inv ≠ 0 → row.inventory_quantity_used = some (quantityRequested r)
            ∧ totalUsed s' inv = totalUsed s inv + quantityRequested r)
        ∧ totalUsed s' inv ≤ u.quantity) := by
  have hval := validateDeal_legacy s user r inv u hsel hnop hkeys hu huid
  constructor
  · intro hbad
    rw [← huid] at hbad
    obtain ⟨code, hcode⟩ := checkDealQuantity_some s user r u hbad
    rw [hcode] at hval
    exact createDeal_fail_of_validate s user r code hval
  · intro code row s' hok
    obtain ⟨q, sel, hv, hrow, -, hins⟩ := createDeal_ok_inv hok
    cases hc : checkDealQuantity s user r u with
    | some c => rw [hc] at hval; rw [hval] at hv; cases hv
    | none =>
      rw [hc] at hval
      rw [hval] at hv
      obtain ⟨hq, hs⟩ := Prod.mk.inj (Except.ok.inj hv)
      subst hq hs
      simp only [insertDealPlots, Prod.mk.injEq, true_and] at hins
      obtain ⟨h1, h2⟩ := checkDealQuantity_none hc
      rw [huid] at h2
      have hused : totalUsed s' inv
          = totalUsed s inv + (if inv ≠ 0 then quantityRequested r else 0) := by
        rw [← hins, totalUsed_appendDeal]
        congr 1
        simp only [dealRow, hsel, List.head?_cons]
        by_cases h0 : inv = 0
        · simp [h0, truthyId, sqlEq]
        · simp [h0, truthyId, sqlEq]
      refine ⟨by rw [← hins]; rfl, by rw [← hins, hrow]; rfl, h1, h2, ?_, ?_⟩
      · intro h0
        refine ⟨?_, by rw [hused, if_pos h0]⟩
        rw [hrow]
        simp [dealRow, hsel, truthyId, h0]
      · rw [hused]
        split <;> omega

/-- Claim C25, witness: unit 1 of `demoState` has a quantity of 2; a deal
using 2 is created, and after it a deal using 1 more is refused. -/
theorem createDeal_legacy_quantity_witness :
    totalUsed legacyState 1 ≤ 2
    ∧ totalUsed legacyState 1 = totalUsed demoState 1 + quantityRequested legacyDeal
    ∧ ∃ code, createDeal legacyState admin1 legacyDealOne = (Reply.fail code, legacyState) :=
  have h := (createDeal_legacy_quantity demoState admin1 legacyDeal 1
    ⟨1, 100000, 2, .available, none⟩ (by decide) (by decide) (by decide) (by decide)
    (by decide)).2 201 ⟨1, 1, some 1, some 2, .in_progress⟩ legacyState (by decide)
  ⟨h.2.2.2.2.2, (h.2.2.2.2.1 (by decide)).2,
    (createDeal_legacy_quantity legacyState admin1 legacyDealOne 1
      ⟨1, 100000, 2, .available, none⟩ (by decide) (by decide) (by decide) (by decide)
      (by decide)).1 (Or.inr (by decide))⟩

/-- Claim C26: unit creation answers with an error and leaves the database
unchanged when explicit plot numbers are supplied and their count differs
from the quantity. After a successful creation with a quantity `q ≥ 1`, the
unit table is the old one followed by the new unit, which has the next unit
key, status `available` and quantity `q`; the plot table is the old one
followed by `q` new rows, all of the new unit, `available` and without
assignee, whose plot numbers are pairwise distinct and are, in order, the
parsed plot numbers when there are any, else the placeholders `category-1`
... `category-q`; and when no older plot row carries the new unit key, these
rows are exactly the plots of the unit, and the reported plot count is `q`. -/
theorem createInventory_plots (s : State) (user : User) (r : InventoryReq) :
    (parsePlotNumbers r.plot_numbers ≠ [] →
        ((parsePlotNumbers r.plot_numbers).length : Int) ≠ inventoryQty r →
        ∃ code, createInventory s user r = (Reply.fail code, s))
    ∧ (∀ (code : Nat) (unit : Inventory) (count : Nat) (s' : State),
        1 ≤ inventoryQty r →
        createInventory s user r = (Reply.ok code (unit, count), s') →
        s'.inventory = s.inventory ++ [unit]
        ∧ unit.id = s.nextInventoryId ∧ unit.status = InvStatus.available
        ∧ unit.quantity = inventoryQty r
        ∧ ∃ rows : List Plot, s'.plots = s.plots ++ rows
          ∧ (rows.length : Int) = inventoryQty r
          ∧ (∀ p ∈ rows, p.inventory_id = unit.id ∧ p.status = PlotStatus.available
              ∧ p.assigned_to = none)
          ∧ (rows.map (·.plot_number)).Nodup
          ∧ rows.map (·.plot_number)
              = (if parsePlotNumbers r.plot_numbers ≠ [] then parsePlotNumbers r.plot_numbers
                else placeholders (r.category.getD "") (inventoryQty r))
          ∧ ((∀ p ∈ s.plots, p.inventory_id ≠ s.nextInventoryId) →
              s'.plots.filter (fun p => p.inventory_id == unit.id) = rows
              ∧ count = rows.length)) := by
  refine ⟨createInventory_refuses_count s user r, ?_⟩
  intro code unit count s' hq hok
  obtain ⟨hins, hbody, -, hcount⟩ := createInventory_ok_inv hok
  obtain ⟨hunit, hcnt⟩ := Prod.mk.inj hbody
  obtain ⟨hinv, rows, hplots, hmap, hfields, hnd, -⟩ := insertPlots_ok _ _ _ _ hins
  have huid : unit.id = s.nextInventoryId := by rw [hunit]; rfl
  have hlen : (rows.length : Int) = inventoryQty r := by
    have : rows.length = (plotNumbersFor r).length := by rw [← hmap, List.length_map]
    rw [this, plotNumbersFor]
    split
    · rename_i hne
      exact hcount hne
    · simp only [placeholders, List.length_map, List.length_range]
      omega
  have hfilter : (∀ p ∈ s.plots, p.inventory_id ≠ s.nextInventoryId) →
      s'.plots.filter (fun p => p.inventory_id == s.nextInventoryId) = rows := by
    intro hfresh
    rw [hplots]
    simp only [appendInventory, List.filter_append]
    have h1 : s.plots.filter (fun p => p.inventory_id == s.nextInventoryId) = [] := by
      rw [List.filter_eq_nil_iff]
      intro p hp
      simpa using hfresh p hp
    have h2 : rows.filter (fun p => p.inventory_id == s.nextInventoryId) = rows := by
      rw [List.filter_eq_self]
      intro p hp
      simpa using (hfields p hp).1
    rw [h1, h2, List.nil_append]
  refine ⟨by rw [hinv, hunit]; rfl, huid, by rw [hunit]; rfl, by rw [hunit]; rfl, rows,
    by rw [hplots]; rfl, hlen, ?_, by rw [hmap]; exact hnd, by rw [hmap]; rfl, ?_⟩
  · intro p hp
    rw [huid]
    exact hfields p hp
  · intro hfresh
    rw [huid]
    refine ⟨hfilter hfresh, ?_⟩
    rw [hcnt, plotCount, hfilter hfresh]

/-- Claim C26, witness: a unit with the numbers `A1` and `A2`, a unit of
quantity 2 without numbers (plots `plot-1` and `plot-2`), and a refused
creation with two numbers for a quantity of 3. -/
theorem createInventory_plots_witness :
    (createInventory demoState admin1 unitReq).2.plots
        = demoState.plots ++ [⟨3, 2, "A1", .available, none⟩, ⟨4, 2, "A2", .available, none⟩]
    ∧ (createInventory demoState admin1 bareReq).2.plots
        = demoState.plots
          ++ [⟨3, 2, "plot-1", .available, none⟩, ⟨4, 2, "plot-2", .available, none⟩]
    ∧ (∃ rows : List Plot,
        (createInventory demoState admin1 bareReq).2.plots = demoState.plots ++ rows
        ∧ (rows.length : Int) = inventoryQty bareReq
        ∧ (rows.map (·.plot_number)).Nodup)
    ∧ ∃ code, createInventory demoState admin1 miscountReq = (Reply.fail code, demoState) :=
  ⟨by decide, by decide,
    match ((createInventory_plots demoState admin1 bareReq).2 201
        ⟨2, 100000, 2, .available, none⟩ 2 (createInventory demoState admin1 bareReq).2
        (by decide) (by decide)).2.2.2.2 with
    | ⟨rows, h1, h2, _, h4, _, _⟩ => ⟨rows, h1, h2, h4⟩,
    (createInventory_plots demoState admin1 miscountReq).1 (by decide) (by decide)⟩

/-- Claim C27: for every string, `parsePlotNumbers` returns the list named by
its description (the text split at every comma, newline and semicolon, each
piece trimmed, the empty pieces removed, in order); every element of the
result is not empty, contains no comma, newline or semicolon, and has no white
space at its start or at its end; parsing the elements joined by commas gives
the same list again; and the result is empty for an input that is not a
string and for the empty string. -/
theorem parsePlotNumbers_properties (input : Option String) :
    (∀ text, parsePlotNumbers (some text) = trimmedPieces text)
    ∧ (∀ x ∈ parsePlotNumbers input, x ≠ "" ∧ CleanNumber x.data)
    ∧ parsePlotNumbers (some (joinNumbers (parsePlotNumbers input))) = parsePlotNumbers input
    ∧ parsePlotNumbers none = [] ∧ parsePlotNumbers (some "") = [] := by
  refine ⟨?_, ?_, ?_, rfl, rfl⟩
  · intro text
    rw [parsePlotNumbers_some, trimmedPieces, plotPieces, splitPieces_eq_splitOnP]
    congr 1
    apply List.filter_congr
    intro x _
    cases x <;> simp
  · intro x hx
    cases input with
    | none => cases hx
    | some text =>
      rw [parsePlotNumbers_some, List.mem_map] at hx
      obtain ⟨piece, hpiece, hx'⟩ := hx
      subst hx'
      have hclean := plotPieces_clean text.data piece hpiece
      refine ⟨?_, hclean⟩
      intro hc
      obtain ⟨hne, -⟩ := hclean
      apply hne
      have := congrArg String.data hc
      exact this
  · cases input with
    | none => rfl
    | some text =>
      rw [parsePlotNumbers_some text, parsePlotNumbers_some]
      congr 1
      have hdata : (joinNumbers ((plotPieces text.data).map String.mk)).data
          = joinPieces (plotPieces text.data) := by
        simp only [joinNumbers, List.map_map]
        congr 1
        conv_rhs => rw [← List.map_id (plotPieces text.data)]
        apply List.map_congr_left
        intro x _
        rfl
      rw [hdata]
      by_cases hnil : plotPieces text.data = []
      · rw [hnil]; rfl
      · exact plotPieces_joinPieces _ hnil (plotPieces_clean text.data)

/-- Claim C27, witness: a text with the three separators, white space and
empty pieces. -/
theorem parsePlotNumbers_properties_witness :
    parsePlotNumbers (some " A1 , B 2;\n C3 ;; ") = ["A1", "B 2", "C3"]
    ∧ joinNumbers ["A1", "B 2", "C3"] = "A1,B 2,C3"
    ∧ parsePlotNumbers (some (joinNumbers (parsePlotNumbers (some " A1 , B 2;\n C3 ;; "))))
        = parsePlotNumbers (some " A1 , B 2;\n C3 ;; ") :=
  ⟨by decide, by decide,
    (parsePlotNumbers_properties (some " A1 , B 2;\n C3 ;; ")).2.2.1⟩

/-- Claim C28: after a successful `approve` of the request `A` (request keys
unique) with the non-empty plot set `ids`, the request table has the same
length and every row is still at its position; a row whose status has changed
is `A` itself or was a `pending` request on the unit of `A` that names no
plots or shares a plot id with `ids`; every other row whose plot set shares no
plot id with `ids`, and every row on another unit, is unchanged. -/
theorem approve_request_frame (s s' : State) (user : User) (rid : Nat)
    (notes : Option String) (code : Nat) (A : Request) (rest : List Request) (ids : List Nat)
    (hkeys : (s.requests.map (·.id)).Nodup)
    (hA : s.requests.filter (fun q => q.id == rid) = A :: rest)
    (hplots : A.requested_plot_ids = some ids) (hne : ids ≠ [])
    (hok : approveRequest s user rid notes = (Reply.ok code (), s')) :
    s'.requests.length = s.requests.length
    ∧ ∀ (k : Nat) (q : Request), s.requests[k]? = some q →
        ∃ q', s'.requests[k]? = some q'
          ∧ (q'.status ≠ q.status →
              q = A ∨ (q.inventory_id = A.inventory_id ∧ q.status = ReqStatus.pending
                ∧ (q.requested_plot_ids = none
                    ∨ ∃ ys y, q.requested_plot_ids = some ys ∧ y ∈ ys ∧ y ∈ ids)))
          ∧ (q ≠ A → ∀ ys, q.requested_plot_ids = some ys → (∀ y ∈ ys, y ∉ ids) → q' = q)
          ∧ (q.inventory_id ≠ A.inventory_id → q' = q) := by
  obtain ⟨request, rest', inventory, more, hreq, -, -, hrequests, -⟩ :=
    approveRequest_ok_inv hok
  rw [hA] at hreq
  obtain ⟨hAeq, -⟩ := List.cons.inj hreq
  subst hAeq
  cases ids with
  | nil => exact absurd rfl hne
  | cons x xs =>
    rw [hplots] at hrequests
    constructor
    · rw [hrequests]
      simp [rejectOthers, setRequestStatus]
    · intro k q hk
      by_cases hid : q.id = rid
      · have hqA : q = A := head_of_keys hkeys hA (List.getElem?_mem hk) hid
        have h1 := setRequestStatus_self s.requests rid ReqStatus.approved (orNullStr notes)
          k q hk hid
        have h2 := rejectOthers_self _ A.inventory_id rid (some (x :: xs)) k _ h1 hid
        rw [← hrequests] at h2
        refine ⟨_, h2, fun _ => Or.inl hqA, fun hne' => absurd hqA hne', ?_⟩
        intro hunit
        rw [hqA] at hunit
        exact absurd rfl hunit
      · have h1 := setRequestStatus_other s.requests rid ReqStatus.approved (orNullStr notes)
          k q hk hid
        by_cases hcond : (q.inventory_id == A.inventory_id && q.id != rid
            && q.status == ReqStatus.pending
            && (overlaps q.requested_plot_ids (x :: xs) || q.requested_plot_ids.isNone)) = true
        · have hrow : s'.requests[k]? = some (rejectedRow q) := by
            rw [hrequests]
            simp only [rejectOthers, List.getElem?_map, h1, Option.map_some']
            rw [if_pos hcond]
            rfl
          simp only [Bool.and_eq_true, Bool.or_eq_true, beq_iff_eq, bne_iff_ne, ne_eq]
            at hcond
          obtain ⟨⟨⟨hunit, -⟩, hpend⟩, hov⟩ := hcond
          refine ⟨_, hrow, ?_, ?_, fun hne' => absurd hunit hne'⟩
          · intro _
            refine Or.inr ⟨hunit, hpend, ?_⟩
            cases hq : q.requested_plot_ids with
            | none => exact Or.inl rfl
            | some ys =>
              rw [hq] at hov
              rcases hov with hov | hov
              · obtain ⟨y, hy, hy'⟩ := (overlaps_some_iff ys (x :: xs)).mp hov
                exact Or.inr ⟨ys, y, rfl, hy, hy'⟩
              · cases hov
          · intro _ ys hq hdis
            exfalso
            rw [hq] at hov
            rcases hov with hov | hov
            · obtain ⟨y, hy, hy'⟩ := (overlaps_some_iff ys (x :: xs)).mp hov
              exact hdis y hy hy'
            · cases hov
        · have hrow : s'.requests[k]? = some q := by
            rw [hrequests]
            simp only [rejectOthers, List.getElem?_map, h1, Option.map_some']
            rw [if_neg hcond]
          exact ⟨q, hrow, fun h => absurd rfl h, fun _ _ _ _ => rfl, fun _ => rfl⟩

/-- Claim C28, witness: in `disjointState` dealer 2 asks for plot 2 only;
approving the request of dealer 3 for plot 1 leaves that request as it is. -/
theorem approve_request_frame_witness :
    ∃ q', (approveRequest disjointState admin1 1 none).2.requests[1]? = some q'
      ∧ q' = ⟨2, 1, 2, .pending, none, some [2]⟩ :=
  match (approve_request_frame disjointState (approveRequest disjointState admin1 1 none).2
      admin1 1 none 200 ⟨1, 1, 3, .pending, none, some [1]⟩
      [] [1] (by decide) (by decide) (by decide) (by decide) (by decide)).2 1
      ⟨2, 1, 2, .pending, none, some [2]⟩ (by decide) with
  | ⟨q', h1, _, h3, _⟩ => ⟨q', h1, h3 (by decide) [2] rfl (by decide)⟩

/-- Claim C29: in a state with unique investor keys in which every payment
recorded under the salesperson names one of that salesperson's investors and
every payment naming one of those investors is recorded under that
salesperson, and for a caller allowed to read the salesperson, both
projections answer 200, the `remaining_balance` of `getSalespersonBalance` is
the sum of the `remaining_balance` of the rows of `getInvestorBalances`, and
its `total_used` is the sum of their `used_balance`. -/
theorem balance_projections_agree (s : State) (user : User) (sp : Nat)
    (hkeys : (s.investors.map (·.id)).Nodup)
    (hread : user.role = Role.admin ∨ user.id = sp)
    (hmine : ∀ p ∈ s.payments, p.salesperson_id = sp →
      ∃ inv ∈ s.investors, inv.salesperson_id = sp ∧ p.investor_id = some inv.id)
    (hunder : ∀ p ∈ s.payments, ∀ inv ∈ s.investors, inv.salesperson_id = sp →
      p.investor_id = some inv.id → p.salesperson_id = sp) :
    ∃ (total : SalespersonBalance) (rows : List InvestorBalance),
      getSalespersonBalance s user sp = Reply.ok 200 total
      ∧ getInvestorBalances s user sp = Reply.ok 200 rows
      ∧ total.remaining_balance = (rows.map (·.remaining_balance)).sum
      ∧ total.total_used = (rows.map (·.used_balance)).sum := by
  have hgate : ¬ (user.role ≠ Role.admin ∧ user.id ≠ sp) := by
    rintro ⟨h1, h2⟩
    rcases hread with h | h
    · exact h1 h
    · exact h2 h
  have hsub : ((s.investors.filter (fun i => i.salesperson_id == sp)).map (·.id)).Nodup :=
    List.Nodup.sublist (List.Sublist.map _ (List.filter_sublist _)) hkeys
  have hused : totalPaidBy s sp
      = ((s.investors.filter (fun i => i.salesperson_id == sp)).map
          (fun inv => usedBalance s (some inv.id))).sum := by
    rw [sum_usedBalance s _ hsub, totalPaidBy, sum_filter_eq_sum_ite]
    congr 1
    apply List.map_congr_left
    intro p hp
    by_cases hsp : p.salesperson_id = sp
    · obtain ⟨inv, hinv, hown, hid⟩ := hmine p hp hsp
      have hex : ∃ inv ∈ s.investors.filter (fun i => i.salesperson_id == sp),
          p.investor_id = some inv.id :=
        ⟨inv, List.mem_filter.mpr ⟨hinv, by simpa using hown⟩, hid⟩
      rw [if_pos (by simpa using hsp), if_pos hex]
    · have hno : ¬ ∃ inv ∈ s.investors.filter (fun i => i.salesperson_id == sp),
          p.investor_id = some inv.id := by
        rintro ⟨inv, hinv, hid⟩
        rw [List.mem_filter] at hinv
        exact hsp (hunder p hp inv hinv.1 (by simpa using hinv.2) hid)
      rw [if_neg (by simpa using hsp), if_neg hno]
  refine ⟨_, _, by rw [getSalespersonBalance, if_neg hgate],
    by rw [getInvestorBalances, if_neg hgate], ?_, ?_⟩
  · simp only [List.map_map]
    show totalInvested s sp - totalPaidBy s sp = _
    rw [hused, totalInvested, ← sum_map_sub_int]
    rfl
  · simp only [List.map_map]
    show totalPaidBy s sp = _
    rw [hused]
    rfl

/-- Claim C29, witness: `paidState`, where dealer 2 has one investor with
3000.00 used of 5000.00. -/
theorem balance_projections_agree_witness :
    getInvestorBalances paidState dealer2 2 = Reply.ok 200 [⟨1, 500000, 300000, 200000⟩]
    ∧ ∃ (total : SalespersonBalance) (rows : List InvestorBalance),
      getSalespersonBalance paidState dealer2 2 = Reply.ok 200 total
      ∧ getInvestorBalances paidState dealer2 2 = Reply.ok 200 rows
      ∧ total.remaining_balance = (rows.map (·.remaining_balance)).sum
      ∧ total.total_used = (rows.map (·.used_balance)).sum :=
  ⟨by decide,
    balance_projections_agree paidState dealer2 2 (by decide) (Or.inr rfl) (by decide)
      (by decide)⟩

/-- Claim C30: a salesperson's request whose contributions have a positive
total but include a negative amount for one of the caller's investors can
succeed. In `twoInvestorState` dealer 2 records 3000.00 from investor 1 and
-1000.00 from investor 2 on plot 1: the total is 2000.00, the call answers
201, a payment row of -1000.00 on investor 2 is inserted, and the remaining
balance of investor 2 derived from the ledger goes from 2000.00 to 3000.00. -/
theorem recordPayment_accepts_negative_entry :
    ∃ (s s' : State) (user : User) (r : PaymentReq) (entries : List InvestorEntry)
      (e : InvestorEntry) (inv : Investor) (created : List InventoryPayment),
      user.role = Role.dealer
      ∧ investorPayments r = some entries ∧ 0 < (entries.map (·.amount)).sum
      ∧ e ∈ entries ∧ e.amount < 0
      ∧ inv ∈ s.investors ∧ inv.salesperson_id = user.id ∧ e.investor_id = some inv.id
      ∧ recordPayment s user r = (Reply.ok 201 (created, totalAmount entries), s')
      ∧ (∃ row ∈ s'.payments, row ∉ s.payments ∧ row.investor_id = some inv.id
          ∧ row.amount = e.amount)
      ∧ inv.total_invested - usedBalance s (some inv.id)
          < inv.total_invested - usedBalance s' (some inv.id) :=
  ⟨twoInvestorState, (recordPayment twoInvestorState dealer2 mixedReq).2, dealer2, mixedReq,
    [⟨some 1, 300000⟩, ⟨some 2, -100000⟩], ⟨some 2, -100000⟩, ⟨2, 2, 200000, 0, 200000⟩,
    [paidRow, { paidRow with id := 2, investor_id := some 2, amount := -100000 }],
    by decide, by decide, by decide, by decide, by decide, by decide, by decide, by decide,
    by decide,
    ⟨{ paidRow with id := 2, investor_id := some 2, amount := -100000 }, by decide, by decide,
      by decide, by decide⟩,
    by decide⟩

end RealEstate
